import Mathlib

/-!
# Chat ingestion pipeline: a shallow embedding

Two services are embedded: `GoChat` (the ingestion API, `services/go-chat`) and
`GoWorker` (the queue consumers, `services/go-worker`).  The three external
collaborators (key-value store, broker channel, relational store) are explicit
state that every operation threads through; a transport fault of a collaborator
is an explicit argument of the call that can suffer it.

Go `int`, `int64` and `uint` values are embedded as `Int` and `Nat`; no
operation modelled here can leave the 64-bit range in a realistic run, and the
store's own overflow error of `INCR` is outside the model.
-/

set_option autoImplicit false

/-! ## Key-value store -/

/-- The key-value store, restricted to integer counters: the keys present and
their values. -/
abbrev Redis := List (String × Int)

/-- Command `GET key` on a counter. -/
def Redis.Get : Redis → String → Option Int
  | [], _ => none
  | (k, v) :: rest, key => if k = key then some v else Redis.Get rest key

/-- Write `key := v`, creating the key when it is absent. -/
def Redis.Set : Redis → String → Int → Redis
  | [], key, v => [(key, v)]
  | (k, w) :: rest, key, v =>
    if k = key then (k, v) :: rest else (k, w) :: Redis.Set rest key v

/-- Command `INCR key`, one atomic step of the store: an absent key becomes 1,
a present key becomes its value plus 1; the new value is the reply. -/
def Redis.Incr (r : Redis) (key : String) : Redis × Int :=
  match Redis.Get r key with
  | none => (Redis.Set r key 1, 1)
  | some v => (Redis.Set r key (v + 1), v + 1)

/-- The call `redisClient.Incr(ctx, key).Result()`.  With `fault = some e` the
command does not reach the store and the client reports `e`. -/
def Redis.IncrResult (fault : Option String) (r : Redis) (key : String) :
    Redis × Except String Int :=
  match fault with
  | some e => (r, .error e)
  | none => ((Redis.Incr r key).1, .ok (Redis.Incr r key).2)

/-! ## JSON payloads and the broker channel -/

/-- Values that the services put into the maps they publish. -/
inductive JVal where
  | str (s : String)
  | int (i : Int)
  | uint (n : Nat)
  | time (t : Nat)
  deriving DecidableEq, Repr

/-- A `map[string]interface{}` payload, as its key/value pairs. -/
abbrev Payload := List (String × JVal)

/-- The `amqp.Publishing` fields the services set.  `DeliveryMode` is a
`uint8` whose zero value is 0. -/
structure Publishing where
  DeliveryMode : Nat
  ContentType : String
  Body : String
  deriving DecidableEq, Repr

/-- Library constant `amqp.Transient`. -/
def amqpTransient : Nat := 1

/-- Library constant `amqp.Persistent`. -/
def amqpPersistent : Nat := 2

/-- One `basic.publish` handed to the broker: the arguments of
`channel.Publish` / `channel.PublishWithContext`. -/
structure Published where
  exchange : String
  key : String
  mandatory : Bool
  immediate : Bool
  msg : Publishing
  deriving DecidableEq, Repr

/-- The broker side of a channel: what was published on it, oldest first. -/
abbrev Channel := List Published

namespace GoChat

/-! ## go-chat: queue/amqp.go -/

/-- Queue name `ChatsQueue`. -/
def ChatsQueue : String := "chats_queue"

/-- Queue name `MessagesQueue`. -/
def MessagesQueue : String := "messages_queue"

/-- `AMQP.PublishMessage`: marshal, then publish on the default exchange with
the queue name as routing key.  `marshal` is `json.Marshal`; `fault` is the
error of `PublishWithContext`, if any.  The `Publishing` literal of the source
sets `ContentType` and `Body` only. -/
def AMQP.PublishMessage (marshal : Payload → Except String String)
    (fault : Option String) (ch : Channel) (payload : Payload)
    (queueType : String) : Channel × Option String :=
  match marshal payload with
  | .error e => (ch, some e)
  | .ok body =>
    match fault with
    | some e => (ch, some e)
    | none =>
      (ch ++ [{ exchange := "", key := queueType, mandatory := false,
                immediate := false,
                msg := { DeliveryMode := 0, ContentType := "application/json",
                         Body := body } }], none)

/-! ## go-chat: module/chat/chat-repo.go -/

/-- Key of the per-application chat allocator. -/
def chatsCountKey (appToken : String) : String :=
  "app:" ++ appToken ++ ":chats_count"

/-- Key of the per-chat message allocator (`%d` prints a Go `int`). -/
def messagesCountKey (appToken : String) (chatNumber : Int) : String :=
  "app:" ++ appToken ++ ":chat:" ++ toString chatNumber ++ ":messages_count"

/-- `Repo.IncrementChatCounter`. -/
def Repo.IncrementChatCounter (fault : Option String) (r : Redis)
    (appToken : String) : Redis × Except String Int :=
  Redis.IncrResult fault r (chatsCountKey appToken)

/-- `Repo.IncrementMessageCounter`. -/
def Repo.IncrementMessageCounter (fault : Option String) (r : Redis)
    (appToken : String) (chatNumber : Int) : Redis × Except String Int :=
  Redis.IncrResult fault r (messagesCountKey appToken chatNumber)

/-- A call of one of the two allocator methods of `Repo`. -/
inductive RepoCall where
  | chat (appToken : String)
  | message (appToken : String) (chatNumber : Int)
  deriving DecidableEq, Repr

/-- Run one allocator call against a reachable store. -/
def RepoCall.run (r : Redis) : RepoCall → Redis × Except String Int
  | .chat t => Repo.IncrementChatCounter none r t
  | .message t c => Repo.IncrementMessageCounter none r t c

/-- Run a sequence of allocator calls, pairing each call with its result. -/
def runCalls : Redis → List RepoCall → List (RepoCall × Except String Int)
  | _, [] => []
  | r, c :: cs => (c, (c.run r).2) :: runCalls (c.run r).1 cs

/-- The numbers returned, in order, by the `IncrementChatCounter` calls on
`appToken` within a run. -/
def chatCounterResults (appToken : String)
    (run : List (RepoCall × Except String Int)) : List Int :=
  run.filterMap fun cr =>
    if cr.1 = RepoCall.chat appToken then cr.2.toOption else none

/-! ## go-chat: module/chat/chat-handler.go, create chat -/

/-- What the ingestion API holds on to: the key-value store and the channel. -/
structure ApiState where
  redis : Redis
  channel : Channel
  deriving DecidableEq, Repr

/-- Faults of the collaborators during one `CreateChatHandler` call. -/
structure ChatEnv where
  incrFault : Option String
  publishFault : Option String
  deriving DecidableEq, Repr

/-- The four ways `CreateChatHandler` returns.  `publishFailed` and `created`
carry the local `chatNumber` the allocator gave to this call. -/
inductive ChatResult where
  | badRequest
  | allocFailed
  | publishFailed (chatNumber : Int)
  | created (chatNumber : Int)
  deriving DecidableEq, Repr

/-- An HTTP answer: status code and JSON body. -/
structure Response where
  status : Nat
  body : Payload
  deriving DecidableEq, Repr

/-- The answer written on each return path of `CreateChatHandler`. -/
def ChatResult.response : ChatResult → Response
  | .badRequest => ⟨400, [("error", .str "app token is required")]⟩
  | .allocFailed => ⟨500, [("error", .str "failed to increment chat counter")]⟩
  | .publishFailed _ => ⟨500, [("error", .str "failed to queue chat")]⟩
  | .created n => ⟨201, [("number", .int n), ("status", .str "processing")]⟩

/-- The number handed to the client: the `number` of a 201 answer. -/
def ChatResult.returned : ChatResult → Option Int
  | .created n => some n
  | _ => none

/-- The number the call took from the allocator, handed out or not. -/
def ChatResult.consumed : ChatResult → Option Int
  | .created n => some n
  | .publishFailed n => some n
  | _ => none

/-- First half of `CreateChatHandler`: the token check and the allocator call.
The result is either the final outcome or the allocated `chatNumber`. -/
def CreateChatHandler.allocate (env : ChatEnv) (st : ApiState)
    (appToken : String) : ApiState × (ChatResult ⊕ Int) :=
  if appToken = "" then (st, .inl .badRequest)
  else
    match Repo.IncrementChatCounter env.incrFault st.redis appToken with
    | (r, .error _) => ({ st with redis := r }, .inl .allocFailed)
    | (r, .ok chatNumber) => ({ st with redis := r }, .inr chatNumber)

/-- Second half of `CreateChatHandler`: publish the chat event and answer. -/
def CreateChatHandler.publish (marshal : Payload → Except String String)
    (env : ChatEnv) (st : ApiState) (appToken : String) (chatNumber : Int) :
    ApiState × ChatResult :=
  match AMQP.PublishMessage marshal env.publishFault st.channel
      [("app_token", .str appToken), ("chat_number", .int chatNumber)]
      ChatsQueue with
  | (ch, some _) => ({ st with channel := ch }, .publishFailed chatNumber)
  | (ch, none) => ({ st with channel := ch }, .created chatNumber)

/-- `Service.CreateChatHandler`. -/
def CreateChatHandler (marshal : Payload → Except String String)
    (env : ChatEnv) (st : ApiState) (appToken : String) :
    ApiState × ChatResult :=
  match CreateChatHandler.allocate env st appToken with
  | (st1, .inl res) => (st1, res)
  | (st1, .inr chatNumber) =>
    CreateChatHandler.publish marshal env st1 appToken chatNumber

/-- A sequence of create-chat requests (token and the faults met by the call),
handled one after the other; each request is paired with its outcome. -/
def runCreateChat (marshal : Payload → Except String String) :
    ApiState → List (String × ChatEnv) → List (String × ChatResult)
  | _, [] => []
  | st, (tok, env) :: rest =>
    (tok, (CreateChatHandler marshal env st tok).2) ::
      runCreateChat marshal (CreateChatHandler marshal env st tok).1 rest

/-- Numbers the allocator gave to the calls on `appToken`, in call order. -/
def consumedNumbers (appToken : String) (run : List (String × ChatResult)) :
    List Int :=
  run.filterMap fun tr => if tr.1 = appToken then tr.2.consumed else none

/-- Numbers handed to clients (201) by the calls on `appToken`, in call order. -/
def returnedNumbers (appToken : String) (run : List (String × ChatResult)) :
    List Int :=
  run.filterMap fun tr => if tr.1 = appToken then tr.2.returned else none

/-- Value of the chat allocator of `t`, an absent key counting as 0. -/
def counterOf (t : String) (st : ApiState) : Int :=
  (Redis.Get st.redis (chatsCountKey t)).getD 0

end GoChat

namespace GoWorker

/-! ## go-worker: queue/amqp.go and queue/consumer.go -/

/-- Queue name `ChatsQueue`. -/
def ChatsQueue : String := "chats_queue"

/-- Queue name `MessagesQueue`. -/
def MessagesQueue : String := "messages_queue"

/-- Queue name `IndexingQueue`. -/
def IndexingQueue : String := "indexing_queue"

/-- `AMQP.Publish`: marshal, then publish on the default exchange with the
queue name as routing key.  `marshal` is `json.Marshal`; `fault` is the error of
`channel.Publish`, if any. -/
def AMQP.Publish (marshal : Payload → Except String String)
    (fault : Option String) (ch : Channel) (queueType : String)
    (payload : Payload) : Channel × Option String :=
  match marshal payload with
  | .error e => (ch, some e)
  | .ok body =>
    match fault with
    | some e => (ch, some e)
    | none =>
      (ch ++ [{ exchange := "", key := queueType, mandatory := false,
                immediate := false,
                msg := { DeliveryMode := amqpPersistent,
                         ContentType := "application/json", Body := body } }],
        none)

/-- An `amqp.Delivery`, reduced to its body. -/
structure Delivery where
  Body : String
  deriving DecidableEq, Repr

/-- `ParseMessageBody`: `json.Unmarshal` of the delivery body into the
handler's payload type; `unmarshal` is the library decoder for that type. -/
def ParseMessageBody {α : Type} (unmarshal : String → Except String α)
    (delivery : Delivery) : Except String α :=
  unmarshal delivery.Body

/-- How the consumer loop settles a delivery: `msg.Ack(multiple)` or
`msg.Nack(multiple, requeue)`. -/
inductive Settlement where
  | ack (multiple : Bool)
  | nack (multiple : Bool) (requeue : Bool)
  deriving DecidableEq, Repr

/-- Body of the consumer loop of `Consumer.ConsumeQueue`, after the handler
returned `err`: a handler error is answered with `Nack(false, true)`, a nil
result with `Ack(false)`. -/
def ConsumeQueue.settle (err : Option String) : Settlement :=
  match err with
  | some _ => .nack false true
  | none => .ack false

/-! ## go-worker: model and database/repository.go -/

/-- Row of `applications`. -/
structure Application where
  ID : Nat
  Token : String
  Name : String
  ChatsCount : Int
  CreatedAt : Nat
  UpdatedAt : Nat
  deriving DecidableEq, Repr

/-- Row of `chats`. -/
structure Chat where
  ID : Nat
  ApplicationID : Nat
  Number : Int
  MessagesCount : Int
  CreatedAt : Nat
  UpdatedAt : Nat
  deriving DecidableEq, Repr

/-- Row of `messages`. -/
structure Message where
  ID : Nat
  ChatID : Nat
  Number : Int
  Content : String
  CreatedAt : Nat
  UpdatedAt : Nat
  deriving DecidableEq, Repr

/-- The relational store: the three tables in row order and the
auto-increment counters of `chats` and `messages`. -/
structure Db where
  applications : List Application
  chats : List Chat
  messages : List Message
  chatsAutoInc : Nat
  messagesAutoInc : Nat
  deriving DecidableEq, Repr

/-- Row filter `WHERE token = ?`. -/
def Application.hasToken (token : String) (a : Application) : Bool :=
  decide (a.Token = token)

/-- Row filter `WHERE application_id = ? AND number = ?`. -/
def Chat.hasKey (applicationID : Nat) (number : Int) (c : Chat) : Bool :=
  decide (c.ApplicationID = applicationID ∧ c.Number = number)

/-- Row filter `WHERE chat_id = ? AND number = ?`. -/
def Message.hasKey (chatID : Nat) (number : Int) (m : Message) : Bool :=
  decide (m.ChatID = chatID ∧ m.Number = number)

/-- The rows of `chats` with a given `(application_id, number)`. -/
def Db.chatRows (db : Db) (applicationID : Nat) (number : Int) : List Chat :=
  db.chats.filter (Chat.hasKey applicationID number)

/-- The rows of `messages` with a given `(chat_id, number)`. -/
def Db.messageRows (db : Db) (chatID : Nat) (number : Int) : List Message :=
  db.messages.filter (Message.hasKey chatID number)

/-- Modelled from the spec: the table declarations are not in the source; the
spec gives `chats` the constraint UNIQUE(application_id, number). -/
def Db.UniqueChats (db : Db) : Prop :=
  ∀ applicationID number, (db.chatRows applicationID number).length ≤ 1

/-- Modelled from the spec: the table declarations are not in the source; the
spec gives `messages` the constraint UNIQUE(chat_id, number). -/
def Db.UniqueMessages (db : Db) : Prop :=
  ∀ chatID number, (db.messageRows chatID number).length ≤ 1

/-- Error text with which the store rejects an INSERT that breaks a UNIQUE
constraint (MySQL error 1062, "Duplicate entry ... for key ..."). -/
def duplicateEntryError : String := "Error 1062 (23000): Duplicate entry"

/-- What the collaborators do during one handler run: the driver error of each
query, if it fails in transport; the error of the `INCR` and of the publish, if
any; and the clock read by `time.Now()`. -/
structure Env where
  findApplicationErr : Option String
  findChatErr : Option String
  findMessageErr : Option String
  execErr : Option String
  lastInsertIdErr : Option String
  incrErr : Option String
  publishErr : Option String
  now : Nat
  deriving DecidableEq, Repr

/-- `Repository.FindApplicationByToken`: the first row with the token;
`sql.ErrNoRows` becomes "application not found", any other error is passed on. -/
def Repository.FindApplicationByToken (fault : Option String) (db : Db)
    (token : String) : Except String Application :=
  match fault with
  | some e => .error e
  | none =>
    match db.applications.find? (Application.hasToken token) with
    | none => .error "application not found"
    | some app => .ok app

/-- `Repository.FindChatByApplicationAndNumber`. -/
def Repository.FindChatByApplicationAndNumber (fault : Option String) (db : Db)
    (applicationID : Nat) (number : Int) : Except String Chat :=
  match fault with
  | some e => .error e
  | none =>
    match db.chats.find? (Chat.hasKey applicationID number) with
    | none => .error "chat not found"
    | some chat => .ok chat

/-- `Repository.FindMessageByChatAndNumber`. -/
def Repository.FindMessageByChatAndNumber (fault : Option String) (db : Db)
    (chatID : Nat) (number : Int) : Except String Message :=
  match fault with
  | some e => .error e
  | none =>
    match db.messages.find? (Message.hasKey chatID number) with
    | none => .error "message not found"
    | some message => .ok message

/-- `Repository.CreateChat`: the INSERT, then `LastInsertId`; on success the
caller's struct gets the new id and the two timestamps.  The INSERT fails with
`env.execErr` in transport, or with the duplicate-key error when the key of
`Db.UniqueChats` is taken; `LastInsertId` can fail after the row is written. -/
def Repository.CreateChat (env : Env) (db : Db) (chat : Chat) :
    Db × Except String Chat :=
  match env.execErr with
  | some e => (db, .error e)
  | none =>
    if (db.chatRows chat.ApplicationID chat.Number).isEmpty then
      let id := db.chatsAutoInc + 1
      let db1 := { db with
        chats := db.chats ++ [{ chat with ID := id, CreatedAt := env.now,
                                          UpdatedAt := env.now }],
        chatsAutoInc := id }
      match env.lastInsertIdErr with
      | some e => (db1, .error e)
      | none =>
        (db1, .ok { chat with ID := id, CreatedAt := env.now, UpdatedAt := env.now })
    else (db, .error duplicateEntryError)

/-- `Repository.CreateMessage`, built like `CreateChat`; the duplicate-key
error is raised when the key of `Db.UniqueMessages` is taken. -/
def Repository.CreateMessage (env : Env) (db : Db) (message : Message) :
    Db × Except String Message :=
  match env.execErr with
  | some e => (db, .error e)
  | none =>
    if (db.messageRows message.ChatID message.Number).isEmpty then
      let id := db.messagesAutoInc + 1
      let db1 := { db with
        messages := db.messages ++ [{ message with ID := id, CreatedAt := env.now,
                                                   UpdatedAt := env.now }],
        messagesAutoInc := id }
      match env.lastInsertIdErr with
      | some e => (db1, .error e)
      | none =>
        (db1, .ok { message with ID := id, CreatedAt := env.now,
                                 UpdatedAt := env.now })
    else (db, .error duplicateEntryError)

/-! ## go-worker: worker/utils.go -/

/-- Does `s` start with `p`? -/
def startsWith : List Char → List Char → Bool
  | _, [] => true
  | [], _ :: _ => false
  | c :: cs, d :: ds => c == d && startsWith cs ds

/-- Does `sub` occur in `s`? -/
def containsChars : List Char → List Char → Bool
  | [], sub => startsWith [] sub
  | c :: cs, sub => startsWith (c :: cs) sub || containsChars cs sub

/-- Library function `strings.Contains`. -/
def stringsContains (s substr : String) : Bool :=
  containsChars s.data substr.data

/-- `isDuplicateError`; a nil error is `none`. -/
def isDuplicateError (err : Option String) : Bool :=
  match err with
  | none => false
  | some errMsg =>
    stringsContains errMsg "Duplicate entry" ||
      stringsContains errMsg "duplicate key" ||
      stringsContains errMsg "UNIQUE constraint failed"

end GoWorker

namespace GoWorker

/-! ## go-worker: worker/chat_worker.go and worker/message_worker.go -/

/-- What the workers act on: relational store, key-value store, channel. -/
structure World where
  db : Db
  redis : Redis
  channel : Channel
  deriving DecidableEq, Repr

/-- A call a handler makes to a collaborator, with its arguments. -/
inductive Call where
  | findApplication (token : String)
  | findChat (applicationID : Nat) (number : Int)
  | findMessage (chatID : Nat) (number : Int)
  | createChat (chat : Chat)
  | createMessage (message : Message)
  | incr (key : String)
  | publish (queue : String) (payload : Payload)
  deriving DecidableEq, Repr

/-- Result of one handler run: the state afterwards, the calls made in order,
and the returned error (`none` is nil). -/
structure Outcome where
  world : World
  calls : List Call
  err : Option String
  deriving DecidableEq, Repr

/-- `ChatPayload`. -/
structure ChatPayload where
  AppToken : String
  ChatNumber : Int
  deriving DecidableEq, Repr

/-- `MessagePayload`. -/
structure MessagePayload where
  AppToken : String
  ChatNumber : Int
  MessageNumber : Int
  Content : String
  deriving DecidableEq, Repr

/-- `incrementCounter` of both workers: `INCR key`, an error is only logged. -/
def incrementCounter (fault : Option String) (r : Redis) (key : String) : Redis :=
  (Redis.IncrResult fault r key).1

/-- Key of the unreconciled chat creations of an application. -/
def deltaChatsKey (applicationID : Nat) : String :=
  "delta:app:" ++ toString applicationID ++ ":chats"

/-- Key of the unreconciled message creations of a chat. -/
def deltaMessagesKey (chatID : Nat) : String :=
  "delta:chat:" ++ toString chatID ++ ":messages"

/-- `ChatWorker.HandleMessage`. -/
def ChatWorker.HandleMessage (unmarshal : String → Except String ChatPayload)
    (env : Env) (w : World) (delivery : Delivery) : Outcome :=
  match ParseMessageBody unmarshal delivery with
  | .error _ => ⟨w, [], none⟩
  | .ok payload =>
    if payload.AppToken = "" ∨ payload.ChatNumber = 0 then ⟨w, [], none⟩
    else
      match Repository.FindApplicationByToken env.findApplicationErr w.db
          payload.AppToken with
      | .error _ => ⟨w, [.findApplication payload.AppToken], none⟩
      | .ok application =>
        match Repository.FindChatByApplicationAndNumber env.findChatErr w.db
            application.ID payload.ChatNumber with
        | .ok _ =>
          ⟨w, [.findApplication payload.AppToken,
               .findChat application.ID payload.ChatNumber], none⟩
        | .error _ =>
          let chat : Chat :=
            { ID := 0, ApplicationID := application.ID,
              Number := payload.ChatNumber, MessagesCount := 0,
              CreatedAt := 0, UpdatedAt := 0 }
          match Repository.CreateChat env w.db chat with
          | (db, .error e) =>
            ⟨{ w with db := db },
              [.findApplication payload.AppToken,
               .findChat application.ID payload.ChatNumber, .createChat chat],
              if isDuplicateError (some e) then none else some e⟩
          | (db, .ok _) =>
            ⟨{ w with db := db,
                      redis := incrementCounter env.incrErr w.redis
                        (deltaChatsKey application.ID) },
              [.findApplication payload.AppToken,
               .findChat application.ID payload.ChatNumber, .createChat chat,
               .incr (deltaChatsKey application.ID)],
              none⟩

/-- The map built by `queueForIndexing`. -/
def indexPayload (message : Message) (chat : Chat) (app : Application) : Payload :=
  [("message_id", .uint message.ID),
   ("application_id", .uint app.ID),
   ("application_token", .str app.Token),
   ("application_name", .str app.Name),
   ("chat_id", .uint chat.ID),
   ("chat_number", .int chat.Number),
   ("message_number", .int message.Number),
   ("content", .str message.Content),
   ("created_at", .time message.CreatedAt)]

/-- `MessageWorker.queueForIndexing`. -/
def MessageWorker.queueForIndexing (marshal : Payload → Except String String)
    (fault : Option String) (ch : Channel) (message : Message) (chat : Chat)
    (app : Application) : Channel × Option String :=
  AMQP.Publish marshal fault ch IndexingQueue (indexPayload message chat app)

/-- `MessageWorker.HandleMessage`. -/
def MessageWorker.HandleMessage (marshal : Payload → Except String String)
    (unmarshal : String → Except String MessagePayload)
    (env : Env) (w : World) (delivery : Delivery) : Outcome :=
  match ParseMessageBody unmarshal delivery with
  | .error _ => ⟨w, [], none⟩
  | .ok payload =>
    if payload.AppToken = "" ∨ payload.ChatNumber = 0 ∨
        payload.MessageNumber = 0 ∨ payload.Content = "" then ⟨w, [], none⟩
    else
      match Repository.FindApplicationByToken env.findApplicationErr w.db
          payload.AppToken with
      | .error _ => ⟨w, [.findApplication payload.AppToken], none⟩
      | .ok application =>
        match Repository.FindChatByApplicationAndNumber env.findChatErr w.db
            application.ID payload.ChatNumber with
        | .error _ =>
          ⟨w, [.findApplication payload.AppToken,
               .findChat application.ID payload.ChatNumber],
            some "chat not found"⟩
        | .ok chat =>
          match Repository.FindMessageByChatAndNumber env.findMessageErr w.db
              chat.ID payload.MessageNumber with
          | .ok _ =>
            ⟨w, [.findApplication payload.AppToken,
                 .findChat application.ID payload.ChatNumber,
                 .findMessage chat.ID payload.MessageNumber], none⟩
          | .error _ =>
            let message : Message :=
              { ID := 0, ChatID := chat.ID, Number := payload.MessageNumber,
                Content := payload.Content, CreatedAt := 0, UpdatedAt := 0 }
            match Repository.CreateMessage env w.db message with
            | (db, .error e) =>
              ⟨{ w with db := db },
                [.findApplication payload.AppToken,
                 .findChat application.ID payload.ChatNumber,
                 .findMessage chat.ID payload.MessageNumber,
                 .createMessage message],
                if isDuplicateError (some e) then none else some e⟩
            | (db, .ok created) =>
              ⟨{ db := db,
                 redis := incrementCounter env.incrErr w.redis
                   (deltaMessagesKey chat.ID),
                 channel := (MessageWorker.queueForIndexing marshal
                   env.publishErr w.channel created chat application).1 },
                [.findApplication payload.AppToken,
                 .findChat application.ID payload.ChatNumber,
                 .findMessage chat.ID payload.MessageNumber,
                 .createMessage message,
                 .incr (deltaMessagesKey chat.ID),
                 .publish IndexingQueue (indexPayload created chat application)],
                none⟩

end GoWorker

namespace GoWorker

/-- The relational store answers every query and statement of the run. -/
def Env.dbReachable (env : Env) : Prop :=
  env.findApplicationErr = none ∧ env.findChatErr = none ∧
    env.findMessageErr = none ∧ env.execErr = none ∧ env.lastInsertIdErr = none

end GoWorker

namespace GoWorker

/-- An environment without faults, the clock at `now`. -/
def Env.ok (now : Nat) : Env :=
  ⟨none, none, none, none, none, none, none, now⟩

/-- A small store: application `tok1` (id 7) with its chat number 1 (row id 3),
no messages yet. -/
def sampleDb : Db :=
  ⟨[⟨7, "tok1", "App", 0, 0, 0⟩], [⟨3, 7, 1, 0, 50, 50⟩], [], 3, 0⟩

/-- The small store with empty key-value store and channel. -/
def sampleWorld : World := ⟨sampleDb, [], []⟩

end GoWorker

/-! ## Numbers in strings: `strconv` -/

/-- Value of a decimal digit character. -/
def digitValue (c : Char) : Option Nat :=
  if 48 ≤ c.toNat ∧ c.toNat ≤ 57 then some (c.toNat - 48) else none

/-- Read a run of decimal digits, left to right, onto `acc`. -/
def parseDigits : List Char → Nat → Option Nat
  | [], acc => some acc
  | c :: cs, acc =>
    match digitValue c with
    | none => none
    | some d => parseDigits cs (acc * 10 + d)

/-- Library function `strconv.ParseUint(s, 10, 64)`: a non-empty run of decimal
digits whose value fits 64 bits. -/
def ParseUint (s : List Char) : Except String Nat :=
  match s with
  | [] => .error "invalid syntax"
  | c :: cs =>
    match parseDigits (c :: cs) 0 with
    | none => .error "invalid syntax"
    | some n => if n < 2 ^ 64 then .ok n else .error "value out of range"

/-- Library function `strconv.Atoi` for the 64-bit `int`: an optional sign, then
a non-empty run of decimal digits, the value within the `int` range. -/
def Atoi (s : String) : Option Int :=
  match s.data with
  | [] => none
  | '-' :: ds =>
    match ds, parseDigits ds 0 with
    | _ :: _, some n => if n ≤ 2 ^ 63 then some (-(n : Int)) else none
    | _, _ => none
  | '+' :: ds =>
    match ds, parseDigits ds 0 with
    | _ :: _, some n => if n < 2 ^ 63 then some (n : Int) else none
    | _, _ => none
  | ds =>
    match parseDigits ds 0 with
    | some n => if n < 2 ^ 63 then some (n : Int) else none
    | none => none

/-- A Go `int` result: the mathematical value reduced to the signed 64-bit
range (two's complement wrap-around). -/
def wrapInt64 (x : Int) : Int :=
  (x + 2 ^ 63) % 2 ^ 64 - 2 ^ 63

namespace GoChat

/-! ## Concurrent create-chat calls

Each call of `CreateChatHandler` talks to the outside twice: one `INCR` and one
publish.  Both are atomic at the store and at the channel, so concurrent calls
are modelled by interleaving these two steps of every call in any order. -/

/-- Where one in-flight `CreateChatHandler` call stands. -/
inductive Pc where
  | start
  | allocated (chatNumber : Int)
  | done (res : ChatResult)
  deriving DecidableEq, Repr

/-- The number a call holds from the allocator, if it has one. -/
def Pc.number : Pc → Option Int
  | .start => none
  | .allocated n => some n
  | .done res => res.consumed

/-- The number a finished call handed to its client. -/
def Pc.returned : Pc → Option Int
  | .done res => res.returned
  | _ => none

/-- The shared state and the progress of the callers `0 .. callers - 1`. -/
structure Sys where
  api : ApiState
  callers : Nat
  pcs : Nat → Pc

/-- All `callers` calls accepted, none started. -/
def Sys.init (api : ApiState) (callers : Nat) : Sys :=
  ⟨api, callers, fun _ => Pc.start⟩

/-- Caller `i` performs its next atomic step; a finished caller, or an index
that is no caller, does nothing. -/
def Sys.step (marshal : Payload → Except String String) (token : String)
    (envs : Nat → ChatEnv) (s : Sys) (i : Nat) : Sys :=
  if i < s.callers then
    match s.pcs i with
    | .start =>
      match CreateChatHandler.allocate (envs i) s.api token with
      | (api, .inl res) => ⟨api, s.callers, Function.update s.pcs i (.done res)⟩
      | (api, .inr n) => ⟨api, s.callers, Function.update s.pcs i (.allocated n)⟩
    | .allocated n =>
      ⟨(CreateChatHandler.publish marshal (envs i) s.api token n).1, s.callers,
        Function.update s.pcs i
          (.done (CreateChatHandler.publish marshal (envs i) s.api token n).2)⟩
    | .done _ => s
  else s

/-- Run a schedule: the callers take their steps in the listed order. -/
def Sys.run (marshal : Payload → Except String String) (token : String)
    (envs : Nat → ChatEnv) (s : Sys) (sched : List Nat) : Sys :=
  sched.foldl (Sys.step marshal token envs) s

/-- The numbers handed to the clients, listed by caller. -/
def Sys.returned (s : Sys) : List Int :=
  (List.range s.callers).filterMap fun i => (s.pcs i).returned

end GoChat

namespace GoChat

/-- Invariant of the interleaved runs: with `c` the counter value and `num i`
the number held by caller `i`, the held numbers are exactly `1 .. c`, each held
by one caller. -/
structure AllocInv (callers : Nat) (c : Int) (num : Nat → Option Int) : Prop where
  nonneg : 0 ≤ c
  bound : ∀ i n, num i = some n → 1 ≤ n ∧ n ≤ c
  inj : ∀ i j n, num i = some n → num j = some n → i = j
  surj : ∀ n, 1 ≤ n → n ≤ c → ∃ i, i < callers ∧ num i = some n

end GoChat

namespace GoChat

/-- How many of its two steps a call has behind it. -/
def Pc.rank : Pc → Nat
  | .start => 0
  | .allocated _ => 1
  | .done _ => 2

/-- Every finished call was answered 201. -/
def Sys.AllCreated (s : Sys) : Prop :=
  ∀ j res, s.pcs j = Pc.done res → ∃ n, res = ChatResult.created n

end GoChat

namespace GoWorker

/-! ## go-worker: elasticsearch/client.go, worker/indexing_worker.go -/

/-- What happens to one HTTP request of the index client: `http.NewRequest`
fails, `client.Do` fails, or a response with a status and a body arrives. -/
inductive HttpResult where
  | newRequestError (e : String)
  | doError (e : String)
  | response (status : Nat) (body : String)
  deriving DecidableEq, Repr

/-- Return value of `Client.BulkIndex` (`none` is nil).  After the status check
the source parses the response only to log; the result is nil either way. -/
def Client.BulkIndex (reply : HttpResult) : Option String :=
  match reply with
  | .newRequestError e => some ("failed to create request: " ++ e)
  | .doError e => some ("failed to execute request: " ++ e)
  | .response status body =>
    if status ≥ 400 then
      some ("bulk index failed (status " ++ toString status ++ "): " ++ body)
    else none

/-- `IndexPayload`. -/
structure IndexPayload where
  MessageID : Nat
  ApplicationID : Nat
  ApplicationToken : String
  ApplicationName : String
  ChatID : Nat
  ChatNumber : Int
  MessageNumber : Int
  Content : String
  CreatedAt : Nat
  deriving DecidableEq, Repr

/-- The fields of `IndexingWorker` that the handlers read and write. -/
structure IndexingWorker where
  batch : List IndexPayload
  batchSize : Nat
  deriving DecidableEq, Repr

/-- `NewIndexingWorker`: empty batch, batch size 1000. -/
def NewIndexingWorker : IndexingWorker := ⟨[], 1000⟩

/-- The routing of a document in `flush`: `fmt.Sprintf("%s:%d", ...)`. -/
def flush.routing (msg : IndexPayload) : String :=
  msg.ApplicationToken ++ ":" ++ toString msg.ChatNumber

/-- The `_id` of a document in `flush`: `fmt.Sprintf("%s:%d:%d", ...)`. -/
def flush.docID (msg : IndexPayload) : String :=
  msg.ApplicationToken ++ ":" ++ toString msg.ChatNumber ++ ":" ++
    toString msg.MessageNumber

/-- The map `action` of `flush`, a map holding a map. -/
def flush.action (msg : IndexPayload) : List (String × Payload) :=
  [("index", [("_id", .str (flush.docID msg)),
              ("routing", .str (flush.routing msg))])]

/-- The map `doc` of `flush`. -/
def flush.doc (msg : IndexPayload) : Payload :=
  [("application_token", .str msg.ApplicationToken),
   ("application_name", .str msg.ApplicationName),
   ("chat_number", .int msg.ChatNumber),
   ("message_number", .int msg.MessageNumber),
   ("content", .str msg.Content),
   ("created_at", .time msg.CreatedAt)]

/-- `string(b)` for `b, _ := json.Marshal(v)`: the error is dropped, and a
failed marshal leaves the empty string. -/
def jsonString (r : Except String String) : String :=
  match r with
  | .ok s => s
  | .error _ => ""

/-- The loop of `flush` that builds `bulkBody`. -/
def flush.bulkBody (marshalAction : List (String × Payload) → Except String String)
    (marshal : Payload → Except String String) (messages : List IndexPayload) :
    String :=
  messages.foldl
    (fun bulkBody msg =>
      bulkBody ++ jsonString (marshalAction (flush.action msg)) ++ "\n" ++
        jsonString (marshal (flush.doc msg)) ++ "\n")
    ""

/-- Result of a run of `flush` or of the indexing `HandleMessage`: the worker
afterwards, the `BulkIndex(indexName, bulkBody)` calls made, how often the
flush timer was reset, and the returned error. -/
structure IndexOutcome where
  worker : IndexingWorker
  bulkCalls : List (String × String)
  timerResets : Nat
  err : Option String
  deriving DecidableEq, Repr

/-- `IndexingWorker.flush`.  The batch is drained under the mutex, the bulk
request runs without it, and `arrivals` are the payloads that other goroutines
append to `w.batch` in the meantime (none in a sequential run); on failure the
drained messages are put back in front of them. -/
def IndexingWorker.flush
    (marshalAction : List (String × Payload) → Except String String)
    (marshal : Payload → Except String String) (reply : HttpResult)
    (arrivals : List IndexPayload) (w : IndexingWorker) : IndexOutcome :=
  if w.batch.length = 0 then ⟨w, [], 0, none⟩
  else
    let messages := w.batch
    let bulkBody := flush.bulkBody marshalAction marshal messages
    match Client.BulkIndex reply with
    | some err =>
      ⟨{ w with batch := messages ++ ([] ++ arrivals) }, [("messages", bulkBody)],
        0, some err⟩
    | none =>
      ⟨{ w with batch := [] ++ arrivals }, [("messages", bulkBody)], 1, none⟩

/-- `IndexingWorker.HandleMessage`. -/
def IndexingWorker.HandleMessage
    (marshalAction : List (String × Payload) → Except String String)
    (marshal : Payload → Except String String)
    (unmarshal : String → Except String IndexPayload) (reply : HttpResult)
    (arrivals : List IndexPayload) (w : IndexingWorker) (delivery : Delivery) :
    IndexOutcome :=
  match ParseMessageBody unmarshal delivery with
  | .error _ => ⟨w, [], 0, none⟩
  | .ok payload =>
    let w1 := { w with batch := w.batch ++ [payload] }
    let shouldFlush := decide (w1.batch.length ≥ w1.batchSize)
    if shouldFlush then IndexingWorker.flush marshalAction marshal reply arrivals w1
    else ⟨w1, [], 0, none⟩

/-- Library function `strings.Split(s, sep)` for a one-character separator, on
character lists. -/
def splitChars (sep : Char) : List Char → List (List Char)
  | [] => [[]]
  | c :: cs =>
    if c = sep then [] :: splitChars sep cs
    else
      match splitChars sep cs with
      | [] => [[c]]
      | p :: ps => (c :: p) :: ps

end GoWorker

namespace GoWorker

/-- An indexing payload of chat 1 of application `tok1`, message `n`. -/
def samplePayload (n : Nat) : IndexPayload :=
  ⟨n, 7, "tok1", "App", 3, 1, n, "hi", 100⟩

/-- A stand-in for the encoder of the action map that keeps the two strings of
an `index` action apart: the id, a blank, the routing. -/
def sampleMarshalAction (action : List (String × Payload)) : Except String String :=
  match action with
  | [("index", [("_id", .str id), ("routing", .str routing)])] =>
    .ok (id ++ " " ++ routing)
  | _ => .error "unsupported type"

end GoWorker

namespace GoWorker

/-- The lines of the bulk body of a batch, in order, without their newlines. -/
def flush.bulkLines (marshalAction : List (String × Payload) → Except String String)
    (marshal : Payload → Except String String) : List IndexPayload → List String
  | [] => []
  | msg :: rest =>
    jsonString (marshalAction (flush.action msg)) ::
      jsonString (marshal (flush.doc msg)) ::
        flush.bulkLines marshalAction marshal rest

/-- Every line followed by a newline, all in one string. -/
def joinLines : List String → String
  | [] => ""
  | l :: ls => l ++ "\n" ++ joinLines ls

end GoWorker

/-! ## Key-value store: the commands of the reconciler -/

/-- Command `DEL key`. -/
def Redis.Del : Redis → String → Redis
  | [], _ => []
  | (k, v) :: rest, key =>
    if k = key then Redis.Del rest key else (k, v) :: Redis.Del rest key

/-- Command `SET key v NX`: written only when the key is absent; the reply
tells whether it was written.  The expiry of the key is not modelled. -/
def Redis.SetNX (r : Redis) (key : String) (v : Int) : Redis × Bool :=
  match Redis.Get r key with
  | none => (Redis.Set r key v, true)
  | some _ => (r, false)

/-- Command `INCRBY key d`. -/
def Redis.IncrBy (r : Redis) (key : String) (d : Int) : Redis :=
  Redis.Set r key ((Redis.Get r key).getD 0 + d)

/-- Match a string against a glob pattern whose only special character is
the star. -/
def globMatch : List Char → List Char → Bool
  | [], s => s.isEmpty
  | p :: ps, s =>
    if p = '*' then (List.tails s).any (globMatch ps)
    else
      match s with
      | [] => false
      | c :: cs => p == c && globMatch ps cs

/-- The keys a complete `SCAN ... MATCH pattern` iteration returns. -/
def Redis.Scan (r : Redis) (pattern : String) : List String :=
  (r.map Prod.fst).filter fun key => globMatch pattern.data key.data

namespace GoWorker

/-! ## go-worker: worker/reconciliation_worker.go -/

/-- `Repository.IncrementApplicationChatCount`: the UPDATE touches the rows
with the id, none if there is no such row, and reports no error then. -/
def Repository.IncrementApplicationChatCount (fault : Option String) (db : Db)
    (appID : Nat) (delta : Int) : Db × Option String :=
  match fault with
  | some e => (db, some e)
  | none =>
    ({ db with applications := db.applications.map fun a =>
        if a.ID = appID then { a with ChatsCount := a.ChatsCount + delta } else a },
      none)

/-- `Repository.IncrementChatMessageCount`. -/
def Repository.IncrementChatMessageCount (fault : Option String) (db : Db)
    (chatID : Nat) (delta : Int) : Db × Option String :=
  match fault with
  | some e => (db, some e)
  | none =>
    ({ db with chats := db.chats.map fun c =>
        if c.ID = chatID then { c with MessagesCount := c.MessagesCount + delta }
        else c },
      none)

/-- The column `chats_count` of the application with the id, if there is one. -/
def Db.chatsCountOf (db : Db) (appID : Nat) : Option Int :=
  (db.applications.find? fun a => a.ID = appID).map (·.ChatsCount)

/-- The column `messages_count` of the chat with the id, if there is one. -/
def Db.messagesCountOf (db : Db) (chatID : Nat) : Option Int :=
  (db.chats.find? fun c => c.ID = chatID).map (·.MessagesCount)

/-- Field `lockKey` of the worker. -/
def lockKey : String := "lock:reconciliation"

/-- Field `lockTTL` of the worker, in seconds. -/
def lockTTL : Nat := 15

/-- Field `syncInterval` of the worker, in seconds. -/
def syncInterval : Nat := 15

/-- `reconcileConfig`. -/
structure reconcileConfig where
  pattern : String
  entityName : String
  updateFunc : Option String → Db → Nat → Int → Db × Option String
  extractIDFunc : String → Except String Nat

/-- The `extractIDFunc` of both configurations: four segments between colons,
the third one an unsigned number. -/
def extractID (key : String) : Except String Nat :=
  match splitChars ':' key.data with
  | [_, _, part2, _] => ParseUint part2
  | _ => .error ("invalid key format: " ++ key)

/-- `appChatConfig` of `reconcile`. -/
def appChatConfig : reconcileConfig :=
  { pattern := "delta:app:*:chats", entityName := "application",
    updateFunc := Repository.IncrementApplicationChatCount,
    extractIDFunc := extractID }

/-- `chatMessageConfig` of `reconcile`. -/
def chatMessageConfig : reconcileConfig :=
  { pattern := "delta:chat:*:messages", entityName := "chat",
    updateFunc := Repository.IncrementChatMessageCount,
    extractIDFunc := extractID }

/-- Faults met by the calls of one reconciler run, per call: by pattern for the
scan, by key for the script and the `INCRBY`, by entity and id for the UPDATE. -/
structure ReconEnv where
  setNXErr : Option String
  scanErr : String → Option String
  evalErr : String → Option String
  updateErr : String → Nat → Option String
  incrByErr : String → Option String
  delErr : Option String

/-- A reconciler run without faults. -/
def ReconEnv.ok : ReconEnv :=
  ⟨none, fun _ => none, fun _ => none, fun _ _ => none, fun _ => none, none⟩

/-- A call the reconciler makes to a collaborator, with its arguments. -/
inductive ReconCall where
  | setNX (key : String) (ttl : Nat)
  | scan (pattern : String)
  | getDel (key : String)
  | update (entityName : String) (entityID : Nat) (delta : Int)
  | incrBy (key : String) (delta : Int)
  | del (key : String)
  deriving DecidableEq, Repr

/-- Result of a reconciler function: the state afterwards, the calls made in
order, the returned error. -/
structure ReconOutcome where
  world : World
  calls : List ReconCall
  err : Option String
  deriving DecidableEq, Repr

/-- `acquireLock`: `SetNX(lockKey, "1", lockTTL)`. -/
def acquireLock (fault : Option String) (r : Redis) : Redis × Except String Bool :=
  match fault with
  | some e => (r, .error e)
  | none => ((Redis.SetNX r lockKey 1).1, .ok (Redis.SetNX r lockKey 1).2)

/-- `releaseLock`: `Del(lockKey)`, an error is only logged. -/
def releaseLock (fault : Option String) (r : Redis) : Redis :=
  match fault with
  | some _ => r
  | none => Redis.Del r lockKey

/-- `atomicGetDel`: the script reads the key and deletes it when it is there;
an absent key gives 0. -/
def atomicGetDel (fault : Option String) (r : Redis) (key : String) :
    Redis × Except String Int :=
  match fault with
  | some e => (r, .error e)
  | none =>
    match Redis.Get r key with
    | none => (r, .ok 0)
    | some value => (Redis.Del r key, .ok value)

/-- `scanKeys`. -/
def scanKeys (fault : Option String) (r : Redis) (pattern : String) :
    Except String (List String) :=
  match fault with
  | some e => .error e
  | none => .ok (Redis.Scan r pattern)

/-- `processKey`. -/
def processKey (env : ReconEnv) (w : World) (key : String)
    (config : reconcileConfig) : ReconOutcome :=
  match atomicGetDel (env.evalErr key) w.redis key with
  | (r, .error e) => ⟨{ w with redis := r }, [.getDel key], some e⟩
  | (r, .ok delta) =>
    if delta = 0 then ⟨{ w with redis := r }, [.getDel key], none⟩
    else
      match config.extractIDFunc key with
      | .error e => ⟨{ w with redis := r }, [.getDel key], some e⟩
      | .ok entityID =>
        match config.updateFunc (env.updateErr config.entityName entityID) w.db
            entityID delta with
        | (db, some e) =>
          ⟨{ w with db := db,
                    redis := match env.incrByErr key with
                      | some _ => r
                      | none => Redis.IncrBy r key delta },
            [.getDel key, .update config.entityName entityID delta,
             .incrBy key delta],
            some ("failed to update " ++ config.entityName ++ " " ++
              toString entityID ++ ": " ++ e)⟩
        | (db, none) =>
          ⟨{ w with db := db, redis := r },
            [.getDel key, .update config.entityName entityID delta], none⟩

/-- The loop of `reconcileEntity` over the scanned keys; the error of a key is
logged and the loop goes on. -/
def processKeys (env : ReconEnv) (config : reconcileConfig) :
    World → List String → World × List ReconCall
  | w, [] => (w, [])
  | w, key :: keys =>
    ((processKeys env config (processKey env w key config).world keys).1,
      (processKey env w key config).calls ++
        (processKeys env config (processKey env w key config).world keys).2)

/-- `reconcileEntity`. -/
def reconcileEntity (env : ReconEnv) (w : World) (config : reconcileConfig) :
    ReconOutcome :=
  match scanKeys (env.scanErr config.pattern) w.redis config.pattern with
  | .error e => ⟨w, [.scan config.pattern], some e⟩
  | .ok keys =>
    ⟨(processKeys env config w keys).1,
      .scan config.pattern :: (processKeys env config w keys).2, none⟩

/-- `reconcile`; the deferred `releaseLock` runs last. -/
def reconcile (env : ReconEnv) (w : World) : ReconOutcome :=
  match acquireLock env.setNXErr w.redis with
  | (_, .error e) => ⟨w, [.setNX lockKey lockTTL], some e⟩
  | (_, .ok false) => ⟨w, [.setNX lockKey lockTTL], none⟩
  | (r, .ok true) =>
    let w1 : World := { w with redis := r }
    let o1 := reconcileEntity env w1 appChatConfig
    let o2 := reconcileEntity env o1.world chatMessageConfig
    ⟨{ o2.world with redis := releaseLock env.delErr o2.world.redis },
      [.setNX lockKey lockTTL] ++ o1.calls ++ o2.calls ++ [.del lockKey], none⟩

/-- `ReconciliationWorker.Stop`: its own `acquireLock` (fault `lockErr`, the
error is dropped), then, when the lock was acquired, `reconcile` and the
deferred `releaseLock` (fault `releaseErr`). -/
def ReconciliationWorker.Stop (lockErr releaseErr : Option String)
    (env : ReconEnv) (w : World) : World × List ReconCall :=
  match acquireLock lockErr w.redis with
  | (r, .ok true) =>
    let o := reconcile env { w with redis := r }
    ({ o.world with redis := releaseLock releaseErr o.world.redis },
      [.setNX lockKey lockTTL] ++ o.calls ++ [.del lockKey])
  | (r, _) => ({ w with redis := r }, [.setNX lockKey lockTTL])

end GoWorker

namespace GoChat

/-! ## go-chat: elasticsearch/client.go and the search handler -/

/-- `model.Message`, a search hit. -/
structure Message where
  ApplicationToken : String
  ApplicationName : String
  ChatNumber : Int
  MessageNumber : Int
  Content : String
  CreatedAt : Nat
  deriving DecidableEq, Repr

/-- What `Client.Search` sends to the index: the routing on the URL and the
variable parts of `searchBody`. -/
structure SearchQuery where
  url : String
  routing : String
  appToken : String
  chatNumber : Int
  query : String
  fromOffset : Int
  size : Int
  deriving DecidableEq, Repr

/-- What comes back to `Client.Search` once the request is out: an error (of
the transport, of the status check or of the parse) or the hits with the
reported total. -/
inductive SearchReply where
  | failed (e : String)
  | hits (messages : List Message) (total : Int)
  deriving DecidableEq, Repr

/-- The routing string of `Client.Search`: `fmt.Sprintf("%s:%d", ...)`. -/
def Client.Search.routing (appToken : String) (chatNumber : Int) : String :=
  appToken ++ ":" ++ toString chatNumber

/-- The two guards of `Client.Search` on `page` and `pageSize`. -/
def Client.Search.normalize (page pageSize : Int) : Int × Int :=
  (if page < 1 then 1 else page,
   if pageSize < 1 ∨ pageSize > 100 then 20 else pageSize)

/-- `Client.Search`: the query sent and the result.  `from` is computed in
`int` arithmetic. -/
def Client.Search (baseURL : String) (reply : SearchReply) (appToken : String)
    (chatNumber : Int) (query : String) (page pageSize : Int) :
    SearchQuery × Except String (List Message × Int) :=
  let routing := Client.Search.routing appToken chatNumber
  let page1 := (Client.Search.normalize page pageSize).1
  let pageSize1 := (Client.Search.normalize page pageSize).2
  let fromOffset := wrapInt64 (wrapInt64 (page1 - 1) * pageSize1)
  (⟨baseURL ++ "/messages/_search?routing=" ++ routing, routing, appToken,
      chatNumber, query, fromOffset, pageSize1⟩,
    match reply with
    | .failed e => .error e
    | .hits messages total => .ok (messages, total))

/-- The parameters of a search request: the two route parameters and the three
query values, `none` when the query string does not have the key. -/
structure SearchParams where
  token : String
  number : String
  q : Option String
  page : Option String
  perPage : Option String
  deriving DecidableEq, Repr

/-- Framework function `ctx.Query(key, defaultValue)`: the default stands in
for a missing or empty value. -/
def Query (value : Option String) (defaultValue : String) : String :=
  match value with
  | some v => if v = "" then defaultValue else v
  | none => defaultValue

/-- The handler's `page`: the parsed value, or 1 when it does not parse or is
below 1. -/
def SearchMessagesHandler.page (pageStr : String) : Int :=
  match Atoi pageStr with
  | none => 1
  | some page => if page < 1 then 1 else page

/-- The handler's `perPage`: 20 when the value does not parse or is below 1,
then capped at 100. -/
def SearchMessagesHandler.perPage (perPageStr : String) : Int :=
  let perPage :=
    match Atoi perPageStr with
    | none => 20
    | some perPage => if perPage < 1 then 20 else perPage
  if perPage > 100 then 100 else perPage

/-- The handler's `totalPages := (total + perPage - 1) / perPage`, in `int`
arithmetic; the division of Go truncates toward zero. -/
def SearchMessagesHandler.totalPages (total perPage : Int) : Int :=
  Int.tdiv (wrapInt64 (wrapInt64 (total + perPage) - 1)) perPage

/-- The `meta` object of a search answer. -/
structure SearchMeta where
  page : Int
  perPage : Int
  total : Int
  totalPages : Int
  deriving DecidableEq, Repr

/-- The ways `SearchMessagesHandler` returns: 400 with an error text, 500, or
200 with `data` and `meta`. -/
inductive SearchResult where
  | badRequest (error : String)
  | searchFailed
  | found (data : List Message) (pageMeta : SearchMeta)
  deriving DecidableEq, Repr

/-- Outcome of `SearchMessagesHandler`: the query sent to the index, if the
request got that far, and the answer. -/
structure SearchOutcome where
  sent : Option SearchQuery
  result : SearchResult
  deriving DecidableEq, Repr

/-- `Service.SearchMessagesHandler`. -/
def SearchMessagesHandler (baseURL : String) (reply : SearchReply)
    (req : SearchParams) : SearchOutcome :=
  let appToken := req.token
  let chatNumberStr := req.number
  let query := Query req.q ""
  let pageStr := Query req.page "1"
  let perPageStr := Query req.perPage "20"
  if appToken = "" then ⟨none, .badRequest "app token is required"⟩
  else if chatNumberStr = "" then ⟨none, .badRequest "chat number is required"⟩
  else if query = "" then ⟨none, .badRequest "query parameter 'q' is required"⟩
  else
    match Atoi chatNumberStr with
    | none => ⟨none, .badRequest "chat number must be a valid integer"⟩
    | some chatNumber =>
      let page := SearchMessagesHandler.page pageStr
      let perPage := SearchMessagesHandler.perPage perPageStr
      match Client.Search baseURL reply appToken chatNumber query page perPage with
      | (sent, .error _) => ⟨some sent, .searchFailed⟩
      | (sent, .ok (messages, total)) =>
        ⟨some sent, .found messages
          ⟨page, perPage, total, SearchMessagesHandler.totalPages total perPage⟩⟩

end GoChat

namespace GoChat

/-! ## go-chat: module/chat/chat-handler.go, create message -/

/-- A create-message request: the two route parameters and the raw body. -/
structure MessageRequest where
  token : String
  number : String
  body : String
  deriving DecidableEq, Repr

/-- A call a handler of the ingestion API makes to a collaborator. -/
inductive ApiCall where
  | incr (key : String)
  | publish (queueType : String) (payload : Payload)
  deriving DecidableEq, Repr

/-- The ways `CreateMessageHandler` returns.  `publishFailed` and `created`
carry the local `messageNumber`. -/
inductive MessageResult where
  | badRequest (error : String)
  | allocFailed
  | publishFailed (messageNumber : Int)
  | created (messageNumber : Int)
  deriving DecidableEq, Repr

/-- The answer written on each return path of `CreateMessageHandler`. -/
def MessageResult.response : MessageResult → Response
  | .badRequest error => ⟨400, [("error", .str error)]⟩
  | .allocFailed => ⟨500, [("error", .str "failed to increment message counter")]⟩
  | .publishFailed _ => ⟨500, [("error", .str "failed to queue message")]⟩
  | .created n => ⟨200, [("number", .int n)]⟩

/-- Outcome of `CreateMessageHandler`: the state afterwards, the calls made in
order, and the answer. -/
structure MessageOutcome where
  state : ApiState
  calls : List ApiCall
  result : MessageResult
  deriving DecidableEq, Repr

/-- The map `payload` that `CreateMessageHandler` publishes. -/
def messagePayload (appToken : String) (chatNumber : Int) (content : String)
    (messageNumber : Int) : Payload :=
  [("app_token", .str appToken), ("chat_number", .int chatNumber),
   ("content", .str content), ("message_number", .int messageNumber)]

/-- `Service.CreateMessageHandler`.  `bodyParser` is the framework's
`ctx.BodyParser` into `model.Message`. -/
def CreateMessageHandler (marshal : Payload → Except String String)
    (bodyParser : String → Except String Message) (env : ChatEnv)
    (st : ApiState) (req : MessageRequest) : MessageOutcome :=
  let appToken := req.token
  let chatNumberStr := req.number
  if appToken = "" then ⟨st, [], .badRequest "app token is required"⟩
  else if chatNumberStr = "" then ⟨st, [], .badRequest "chat number is required"⟩
  else
    match Atoi chatNumberStr with
    | none => ⟨st, [], .badRequest "chat number must be a valid integer"⟩
    | some chatNumber =>
      match bodyParser req.body with
      | .error e => ⟨st, [], .badRequest e⟩
      | .ok input =>
        if input.Content = "" then ⟨st, [], .badRequest "content is required"⟩
        else
          match Repo.IncrementMessageCounter env.incrFault st.redis appToken
              chatNumber with
          | (r, .error _) =>
            ⟨{ st with redis := r },
              [.incr (messagesCountKey appToken chatNumber)], .allocFailed⟩
          | (r, .ok messageNumber) =>
            match AMQP.PublishMessage marshal env.publishFault st.channel
                (messagePayload appToken chatNumber input.Content messageNumber)
                MessagesQueue with
            | (ch, some _) =>
              ⟨{ redis := r, channel := ch },
                [.incr (messagesCountKey appToken chatNumber),
                 .publish MessagesQueue
                   (messagePayload appToken chatNumber input.Content messageNumber)],
                .publishFailed messageNumber⟩
            | (ch, none) =>
              ⟨{ redis := r, channel := ch },
                [.incr (messagesCountKey appToken chatNumber),
                 .publish MessagesQueue
                   (messagePayload appToken chatNumber input.Content messageNumber)],
                .created messageNumber⟩

end GoChat

namespace GoWorker

/-! ## The message event on its way from the API to the consumer -/

/-- The string under a key of a JSON object, the zero value when the key is
missing or holds something else. -/
def Payload.getString (p : Payload) (key : String) : String :=
  match p.lookup key with
  | some (.str s) => s
  | _ => ""

/-- The integer under a key of a JSON object, the zero value when the key is
missing or holds something else. -/
def Payload.getInt (p : Payload) (key : String) : Int :=
  match p.lookup key with
  | some (.int i) => i
  | some (.uint n) => n
  | _ => 0

/-- What `json.Unmarshal` into `MessagePayload` reads from the JSON of a map:
the four fields by their tags. -/
def MessagePayload.ofPayload (p : Payload) : MessagePayload :=
  ⟨Payload.getString p "app_token", Payload.getInt p "chat_number",
   Payload.getInt p "message_number", Payload.getString p "content"⟩

/-! ## go-worker: the response handling of `Client.BulkIndex` -/

/-- `Client.BulkIndex` with its log lines.  `parseErrors` stands for
`json.Unmarshal` of the response body followed by the read of its field
`errors`: a parse error, or the flag when it is there and a boolean. -/
def Client.BulkIndexLogged (parseErrors : String → Except String (Option Bool))
    (reply : HttpResult) : Option String × List String :=
  match reply with
  | .newRequestError e => (some ("failed to create request: " ++ e), [])
  | .doError e => (some ("failed to execute request: " ++ e), [])
  | .response status body =>
    if status ≥ 400 then
      (some ("bulk index failed (status " ++ toString status ++ "): " ++ body), [])
    else
      match parseErrors body with
      | .error e => (none, ["[ES] Failed to parse response: " ++ e])
      | .ok (some true) => (none, ["[ES] Bulk index had some errors: " ++ body])
      | .ok _ => (none, [])

/-! ## A sequential run of the indexing consumer -/

/-- What happens to the indexing worker in a sequential run: a delivery is
handled, or the ticker (or `Stop`) calls `flush`; each with the reply the bulk
request would get. -/
inductive IndexEvent where
  | delivery (d : Delivery) (reply : HttpResult)
  | tick (reply : HttpResult)
  deriving DecidableEq, Repr

/-- The worker in a run, with the number of buffered payloads whose delivery
was acked. -/
structure IndexRun where
  worker : IndexingWorker
  ackedBuffered : Nat
  deriving DecidableEq, Repr

/-- One event of a sequential run.  A successful bulk request empties the
buffer; a delivery that parsed and was answered nil without a flush adds one
acked payload to it; everything else leaves the count as it is. -/
def IndexRun.step
    (marshalAction : List (String × Payload) → Except String String)
    (marshal : Payload → Except String String)
    (unmarshal : String → Except String IndexPayload)
    (s : IndexRun) : IndexEvent → IndexRun
  | .delivery d reply =>
    let o := IndexingWorker.HandleMessage marshalAction marshal unmarshal reply []
      s.worker d
    ⟨o.worker,
      if o.timerResets > 0 then 0
      else
        match ParseMessageBody unmarshal d, o.err with
        | .ok _, none => s.ackedBuffered + 1
        | _, _ => s.ackedBuffered⟩
  | .tick reply =>
    let o := IndexingWorker.flush marshalAction marshal reply [] s.worker
    ⟨o.worker, if o.timerResets > 0 then 0 else s.ackedBuffered⟩

/-- A sequential run from a state. -/
def IndexRun.run
    (marshalAction : List (String × Payload) → Except String String)
    (marshal : Payload → Except String String)
    (unmarshal : String → Except String IndexPayload)
    (s : IndexRun) (events : List IndexEvent) : IndexRun :=
  events.foldl (IndexRun.step marshalAction marshal unmarshal) s

end GoWorker

namespace GoWorker

/-- A decoder that rejects the body "x" and reads every other body as
`samplePayload 1`. -/
def sampleUnmarshal (s : String) : Except String IndexPayload :=
  if s = "x" then .error "invalid character" else .ok (samplePayload 1)

/-- A run of 1000 deliveries of well-formed events in which the bulk request of
the size-triggered flush, at the 1000th, is answered 500. -/
def failedFlushEvents : List IndexEvent :=
  List.replicate 999 (.delivery ⟨"b"⟩ (.response 200 "")) ++
    [.delivery ⟨"b"⟩ (.response 500 "")]

end GoWorker

/-! # Theorems -/

/-! ## Key-value store lemmas -/

theorem Redis.get_set (r : Redis) (key key2 : String) (v : Int) :
    Redis.Get (Redis.Set r key v) key2 =
      if key = key2 then some v else Redis.Get r key2 := by
  induction r with
  | nil =>
    by_cases h : key = key2 <;> simp [Redis.Set, Redis.Get, h]
  | cons kv rest ih =>
    obtain ⟨k, w⟩ := kv
    by_cases hk : k = key
    · subst hk
      by_cases h : k = key2 <;> simp [Redis.Set, Redis.Get, h]
    · by_cases h : key = key2
      · subst h
        simp [Redis.Set, Redis.Get, hk, ih]
      · by_cases h2 : k = key2
        · subst h2
          simp [Redis.Set, Redis.Get, hk, h]
        · simp [Redis.Set, Redis.Get, hk, h, h2, ih]

theorem Redis.incr_reply (r : Redis) (key : String) :
    (Redis.Incr r key).2 = (Redis.Get r key).getD 0 + 1 := by
  unfold Redis.Incr
  cases h : Redis.Get r key <;> simp

theorem Redis.get_incr_self (r : Redis) (key : String) :
    Redis.Get (Redis.Incr r key).1 key = some ((Redis.Get r key).getD 0 + 1) := by
  unfold Redis.Incr
  cases h : Redis.Get r key <;> simp [Redis.get_set]

theorem Redis.get_incr_other (r : Redis) (key key2 : String) (h : key ≠ key2) :
    Redis.Get (Redis.Incr r key).1 key2 = Redis.Get r key2 := by
  unfold Redis.Incr
  cases hg : Redis.Get r key <;> simp [Redis.get_set, h]


namespace GoChat

/-! ## The allocator keys -/

theorem chatsCountKey_injective (t1 t2 : String)
    (h : chatsCountKey t1 = chatsCountKey t2) : t1 = t2 := by
  unfold chatsCountKey at h
  have h2 := congrArg String.data h
  simp only [String.data_append, List.append_assoc] at h2
  have h3 := List.append_cancel_left h2
  have h4 := List.append_cancel_right h3
  exact String.ext h4

theorem chatsCountKey_ne_messagesCountKey (t1 t2 : String) (c : Int) :
    chatsCountKey t1 ≠ messagesCountKey t2 c := by
  intro h
  unfold chatsCountKey messagesCountKey at h
  have h2 := congrArg (fun s => s.data.reverse) h
  simp [String.data_append] at h2

end GoChat

namespace GoChat

/-! ## Sequential allocation -/

theorem RepoCall.run_other (t : String) (c : RepoCall) (r : Redis)
    (h : c ≠ RepoCall.chat t) :
    Redis.Get (c.run r).1 (chatsCountKey t) = Redis.Get r (chatsCountKey t) := by
  cases c with
  | chat t2 =>
    have hne : chatsCountKey t2 ≠ chatsCountKey t := by
      intro hk
      exact h (by rw [chatsCountKey_injective _ _ hk])
    simp [RepoCall.run, Repo.IncrementChatCounter, Redis.IncrResult,
      Redis.get_incr_other _ _ _ hne]
  | message t2 n =>
    have hne : messagesCountKey t2 n ≠ chatsCountKey t :=
      fun hk => chatsCountKey_ne_messagesCountKey t t2 n hk.symm
    simp [RepoCall.run, Repo.IncrementMessageCounter, Redis.IncrResult,
      Redis.get_incr_other _ _ _ hne]

theorem chatCounterResults_from (t : String) (calls : List RepoCall) :
    ∀ r : Redis, chatCounterResults t (runCalls r calls) =
      (List.range (calls.count (RepoCall.chat t))).map
        (fun (i : Nat) => (Redis.Get r (chatsCountKey t)).getD 0 + 1 + (i : Int)) := by
  induction calls with
  | nil => intro r; simp [runCalls, chatCounterResults]
  | cons c cs ih =>
    intro r
    by_cases hc : c = RepoCall.chat t
    · subst hc
      have ih2 := ih ((RepoCall.chat t).run r).1
      unfold chatCounterResults at ih2 ⊢
      simp only [runCalls, List.filterMap_cons, if_true, List.count_cons_self]
      rw [ih2, List.range_succ_eq_map]
      simp [RepoCall.run, Repo.IncrementChatCounter, Redis.IncrResult,
        Except.toOption, Redis.get_incr_self, Redis.incr_reply]
      intro a _
      ring
    · have ih2 := ih (c.run r).1
      unfold chatCounterResults at ih2 ⊢
      simp only [runCalls, List.filterMap_cons, hc, if_false]
      rw [ih2, RepoCall.run_other t c r hc, List.count_cons_of_ne (Ne.symm hc)]

end GoChat

namespace GoChat

/-! ## Sequential create-chat requests -/

theorem publish_redis (marshal : Payload → Except String String)
    (env : ChatEnv) (st : ApiState) (t : String) (n : Int) :
    (CreateChatHandler.publish marshal env st t n).1.redis = st.redis := by
  unfold CreateChatHandler.publish
  split <;> rfl

theorem publish_consumed (marshal : Payload → Except String String)
    (env : ChatEnv) (st : ApiState) (t : String) (n : Int) :
    (CreateChatHandler.publish marshal env st t n).2.consumed = some n := by
  unfold CreateChatHandler.publish
  split <;> rfl

theorem CreateChatHandler_other (marshal : Payload → Except String String)
    (env : ChatEnv) (st : ApiState) (tok t : String) (h : tok ≠ t) :
    counterOf t (CreateChatHandler marshal env st tok).1 = counterOf t st := by
  have hne : chatsCountKey tok ≠ chatsCountKey t :=
    fun hk => h (chatsCountKey_injective _ _ hk)
  unfold CreateChatHandler CreateChatHandler.allocate
    Repo.IncrementChatCounter Redis.IncrResult counterOf
  by_cases htok : tok = ""
  · simp [htok]
  · cases env.incrFault <;>
      simp [htok, publish_redis, Redis.get_incr_other _ _ _ hne]

theorem CreateChatHandler_same (marshal : Payload → Except String String)
    (env : ChatEnv) (st : ApiState) (t : String) :
    ((CreateChatHandler marshal env st t).2.consumed = none ∧
      counterOf t (CreateChatHandler marshal env st t).1 = counterOf t st) ∨
    ((CreateChatHandler marshal env st t).2.consumed = some (counterOf t st + 1) ∧
      counterOf t (CreateChatHandler marshal env st t).1 = counterOf t st + 1) := by
  unfold CreateChatHandler CreateChatHandler.allocate
    Repo.IncrementChatCounter Redis.IncrResult counterOf
  by_cases htok : t = ""
  · simp [htok, ChatResult.consumed]
  · cases env.incrFault
    · simp [htok, publish_redis, publish_consumed, Redis.get_incr_self,
        Redis.incr_reply]
    · simp [htok, ChatResult.consumed]

theorem consumedNumbers_chain (marshal : Payload → Except String String)
    (t : String) (reqs : List (String × ChatEnv)) :
    ∀ st : ApiState, List.Chain (· < ·) (counterOf t st)
      (consumedNumbers t (runCreateChat marshal st reqs)) := by
  induction reqs with
  | nil => intro st; simp [runCreateChat, consumedNumbers]
  | cons req rest ih =>
    intro st
    obtain ⟨tok, env⟩ := req
    have ih2 := ih (CreateChatHandler marshal env st tok).1
    unfold consumedNumbers at ih2 ⊢
    by_cases h : tok = t
    · subst h
      rcases CreateChatHandler_same marshal env st tok with ⟨hc, hs⟩ | ⟨hc, hs⟩
      · simp only [runCreateChat, List.filterMap_cons, if_true, hc]
        rw [hs] at ih2
        exact ih2
      · simp only [runCreateChat, List.filterMap_cons, if_true, hc]
        rw [hs] at ih2
        exact List.Chain.cons (by omega) ih2
    · simp only [runCreateChat, List.filterMap_cons, h, if_false]
      rw [CreateChatHandler_other marshal env st tok t h] at ih2
      exact ih2

theorem returned_sublist_consumed (t : String) (run : List (String × ChatResult)) :
    List.Sublist (returnedNumbers t run) (consumedNumbers t run) := by
  induction run with
  | nil => simp [returnedNumbers, consumedNumbers]
  | cons tr rest ih =>
    obtain ⟨tok, res⟩ := tr
    unfold returnedNumbers consumedNumbers at ih ⊢
    by_cases h : tok = t
    · cases res
      · simpa only [List.filterMap_cons, h, if_true, ChatResult.returned,
          ChatResult.consumed] using ih
      · simpa only [List.filterMap_cons, h, if_true, ChatResult.returned,
          ChatResult.consumed] using ih
      · simp only [List.filterMap_cons, h, if_true, ChatResult.returned,
          ChatResult.consumed]
        exact List.Sublist.cons _ ih
      · simp only [List.filterMap_cons, h, if_true, ChatResult.returned,
          ChatResult.consumed]
        exact List.Sublist.cons₂ _ ih
    · simpa only [List.filterMap_cons, h, if_false] using ih

end GoChat

namespace GoChat

/-- C1: with INCR modelled as "absent key gives 1, otherwise value + 1", in every
sequence of allocator calls that starts with the chat counter of `token`
absent, the n-th `IncrementChatCounter` call on `token` returns n, whatever
calls on other tokens or on message counters are interleaved; and in every
sequence of `CreateChatHandler` calls, from every state and under every fault
pattern, the numbers the allocator gave to calls on `token` are strictly
increasing, the numbers handed to clients are among them and are pairwise
distinct, so a number consumed by a call whose publish failed is never handed
out again. -/
theorem C1_allocator_monotone_never_reissued
    (marshal : Payload → Except String String) (token : String) :
    (∀ (r : Redis) (calls : List RepoCall),
      Redis.Get r (chatsCountKey token) = none →
      chatCounterResults token (runCalls r calls) =
        (List.range (calls.count (RepoCall.chat token))).map
          (fun (i : Nat) => (i : Int) + 1)) ∧
    (∀ (st : ApiState) (reqs : List (String × ChatEnv)),
      (consumedNumbers token (runCreateChat marshal st reqs)).Pairwise (· < ·) ∧
      List.Sublist (returnedNumbers token (runCreateChat marshal st reqs))
        (consumedNumbers token (runCreateChat marshal st reqs)) ∧
      (returnedNumbers token (runCreateChat marshal st reqs)).Nodup) := by
  refine ⟨?_, ?_⟩
  · intro r calls habs
    rw [chatCounterResults_from, habs]
    apply List.map_congr_left
    intro a _
    simp
    ring
  · intro st reqs
    have hchain := consumedNumbers_chain marshal token reqs st
    have hpw : (consumedNumbers token (runCreateChat marshal st reqs)).Pairwise
        (· < ·) := (List.pairwise_cons.mp (List.chain_iff_pairwise.mp hchain)).2
    have hsub := returned_sublist_consumed token (runCreateChat marshal st reqs)
    refine ⟨hpw, hsub, ?_⟩
    exact (hpw.sublist hsub).imp (fun h => ne_of_lt h)

/-- C1 at a concrete run: three create-chat calls on `tok1`, the second one
with a failing publish, and a call on `tok2` in between. -/
theorem C1_allocator_monotone_never_reissued_witness :
    chatCounterResults "tok1" (runCalls []
        [RepoCall.chat "tok1", RepoCall.message "tok1" 1, RepoCall.chat "tok2",
          RepoCall.chat "tok1"]) = [1, 2] ∧
    (returnedNumbers "tok1" (runCreateChat (fun _ => .ok "") ⟨[], []⟩
        [("tok1", ⟨none, none⟩), ("tok1", ⟨none, some "closed"⟩),
          ("tok2", ⟨none, none⟩), ("tok1", ⟨none, none⟩)])).Nodup := by
  refine ⟨?_, ?_⟩
  · have h := (C1_allocator_monotone_never_reissued (fun _ => .ok "") "tok1").1 []
      [RepoCall.chat "tok1", RepoCall.message "tok1" 1, RepoCall.chat "tok2",
        RepoCall.chat "tok1"] rfl
    rw [h]
    decide
  · exact ((C1_allocator_monotone_never_reissued (fun _ => .ok "") "tok1").2 ⟨[], []⟩
      [("tok1", ⟨none, none⟩), ("tok1", ⟨none, some "closed"⟩),
        ("tok2", ⟨none, none⟩), ("tok1", ⟨none, none⟩)]).2.2

end GoChat

namespace GoChat

/-! ## Interleaved create-chat calls -/

theorem AllocInv.init (callers : Nat) : AllocInv callers 0 (fun _ => none) := by
  constructor
  · exact le_refl 0
  · intro i n h; simp at h
  · intro i j n h; simp at h
  · intro n h1 h2; omega

theorem AllocInv.alloc {callers : Nat} {c : Int} {num : Nat → Option Int}
    (inv : AllocInv callers c num) (i : Nat) (hi : i < callers)
    (hnone : num i = none) :
    AllocInv callers (c + 1) (Function.update num i (some (c + 1))) := by
  have hnn := inv.nonneg
  constructor
  · omega
  · intro j n h
    by_cases hj : j = i
    · subst hj
      simp at h
      omega
    · rw [Function.update_noteq hj] at h
      have := inv.bound j n h
      omega
  · intro j k n hj hk
    by_cases hji : j = i
    · by_cases hki : k = i
      · rw [hji, hki]
      · subst hji
        rw [Function.update_noteq hki] at hk
        simp at hj
        have := inv.bound k n hk
        omega
    · by_cases hki : k = i
      · subst hki
        rw [Function.update_noteq hji] at hj
        simp at hk
        have := inv.bound j n hj
        omega
      · rw [Function.update_noteq hji] at hj
        rw [Function.update_noteq hki] at hk
        exact inv.inj j k n hj hk
  · intro n h1 h2
    by_cases hn : n = c + 1
    · exact ⟨i, hi, by simp [hn]⟩
    · obtain ⟨j, hj, hnum⟩ := inv.surj n h1 (by omega)
      have hji : j ≠ i := by
        intro h
        rw [h, hnone] at hnum
        exact Option.noConfusion hnum
      exact ⟨j, hj, by rw [Function.update_noteq hji]; exact hnum⟩

theorem Sys.step_callers (marshal : Payload → Except String String)
    (token : String) (envs : Nat → ChatEnv) (s : Sys) (i : Nat) :
    (Sys.step marshal token envs s i).callers = s.callers := by
  unfold Sys.step
  split
  · split
    · split <;> rfl
    · rfl
    · rfl
  · rfl

theorem Sys.step_numbers (marshal : Payload → Except String String)
    (token : String) (envs : Nat → ChatEnv) (s : Sys) (i : Nat) :
    (counterOf token (Sys.step marshal token envs s i).api = counterOf token s.api ∧
      ∀ j, ((Sys.step marshal token envs s i).pcs j).number = (s.pcs j).number) ∨
    (i < s.callers ∧ (s.pcs i).number = none ∧
      counterOf token (Sys.step marshal token envs s i).api =
        counterOf token s.api + 1 ∧
      ∀ j, ((Sys.step marshal token envs s i).pcs j).number =
        Function.update (fun k => (s.pcs k).number) i
          (some (counterOf token s.api + 1)) j) := by
  unfold Sys.step
  by_cases hi : i < s.callers
  · simp only [hi, if_true]
    cases hpc : s.pcs i with
    | start =>
      simp only [CreateChatHandler.allocate, Repo.IncrementChatCounter,
        Redis.IncrResult]
      by_cases htok : token = ""
      · left
        simp only [htok, if_true, true_and]
        intro j
        by_cases hj : j = i
        · subst hj; simp [hpc, Pc.number, ChatResult.consumed]
        · simp [Function.update_noteq hj]
      · cases hf : (envs i).incrFault with
        | some e =>
          left
          simp only [htok, if_false, true_and]
          intro j
          by_cases hj : j = i
          · subst hj; simp [hpc, Pc.number, ChatResult.consumed]
          · simp [Function.update_noteq hj]
        | none =>
          right
          simp only [htok, if_false, hpc, Pc.number, true_and]
          refine ⟨?_, ?_⟩
          · simp [counterOf, Redis.get_incr_self]
          · intro j
            by_cases hj : j = i
            · subst hj; simp [Pc.number, Redis.incr_reply, counterOf]
            · simp [Function.update_noteq hj]
    | allocated n =>
      left
      simp only [counterOf, publish_redis, true_and]
      intro j
      by_cases hj : j = i
      · subst hj; simp [hpc, Pc.number, publish_consumed]
      · simp [Function.update_noteq hj]
    | done res =>
      left
      simp
  · left
    simp [hi]

end GoChat

namespace GoChat

theorem Sys.step_inv (marshal : Payload → Except String String)
    (token : String) (envs : Nat → ChatEnv) (s : Sys) (i : Nat)
    (inv : AllocInv s.callers (counterOf token s.api) (fun j => (s.pcs j).number)) :
    AllocInv (Sys.step marshal token envs s i).callers
      (counterOf token (Sys.step marshal token envs s i).api)
      (fun j => ((Sys.step marshal token envs s i).pcs j).number) := by
  rw [Sys.step_callers]
  rcases Sys.step_numbers marshal token envs s i with ⟨hc, hn⟩ | ⟨hi, hnone, hc, hn⟩
  · rw [hc, funext hn]
    exact inv
  · rw [hc, funext hn]
    exact inv.alloc i hi hnone

theorem Sys.run_callers (marshal : Payload → Except String String)
    (token : String) (envs : Nat → ChatEnv) (sched : List Nat) :
    ∀ s : Sys, (Sys.run marshal token envs s sched).callers = s.callers := by
  induction sched with
  | nil => intro s; rfl
  | cons i rest ih =>
    intro s
    show (Sys.run marshal token envs (Sys.step marshal token envs s i) rest).callers
      = s.callers
    rw [ih, Sys.step_callers]

theorem Sys.run_inv (marshal : Payload → Except String String)
    (token : String) (envs : Nat → ChatEnv) (sched : List Nat) :
    ∀ s : Sys,
      AllocInv s.callers (counterOf token s.api) (fun j => (s.pcs j).number) →
      AllocInv (Sys.run marshal token envs s sched).callers
        (counterOf token (Sys.run marshal token envs s sched).api)
        (fun j => ((Sys.run marshal token envs s sched).pcs j).number) := by
  induction sched with
  | nil => intro s inv; exact inv
  | cons i rest ih =>
    intro s inv
    exact ih (Sys.step marshal token envs s i) (Sys.step_inv marshal token envs s i inv)

theorem Pc.number_of_returned (pc : Pc) (n : Int) (h : pc.returned = some n) :
    pc.number = some n := by
  cases pc with
  | start => simp [Pc.returned] at h
  | allocated m => simp [Pc.returned] at h
  | done res =>
    cases res <;> simp_all [Pc.returned, Pc.number, ChatResult.returned,
      ChatResult.consumed]

theorem Sys.returned_nodup (s : Sys) (c : Int)
    (inv : AllocInv s.callers c (fun j => (s.pcs j).number)) :
    s.returned.Nodup := by
  unfold Sys.returned
  apply List.Nodup.filterMap _ (List.nodup_range _)
  intro i j n hi hj
  exact inv.inj i j n (Pc.number_of_returned _ _ hi) (Pc.number_of_returned _ _ hj)

theorem Sys.returned_perm (s : Sys) (c : Int)
    (inv : AllocInv s.callers c (fun j => (s.pcs j).number))
    (hall : ∀ i, i < s.callers → ∃ n, s.pcs i = Pc.done (ChatResult.created n)) :
    s.returned.Perm ((List.range s.callers).map (fun (i : Nat) => (i : Int) + 1)) := by
  have hnd := Sys.returned_nodup s c inv
  have hlen : s.returned.length = s.callers := by
    unfold Sys.returned
    have : List.filterMap (fun i => (s.pcs i).returned) (List.range s.callers) =
        List.map (fun i => ((s.pcs i).returned).getD 0) (List.range s.callers) := by
      rw [← List.filterMap_eq_map]
      apply List.filterMap_congr
      intro i hi
      obtain ⟨n, hn⟩ := hall i (List.mem_range.mp hi)
      simp [hn, Pc.returned, ChatResult.returned]
    rw [this]
    simp
  have hmem : ∀ x, x ∈ s.returned ↔ (1 ≤ x ∧ x ≤ c) := by
    intro x
    unfold Sys.returned
    rw [List.mem_filterMap]
    constructor
    · rintro ⟨i, _, hi⟩
      exact inv.bound i x (Pc.number_of_returned _ _ hi)
    · rintro ⟨h1, h2⟩
      obtain ⟨i, hi, hnum⟩ := inv.surj x h1 h2
      refine ⟨i, List.mem_range.mpr hi, ?_⟩
      obtain ⟨n, hn⟩ := hall i hi
      simp only [hn, Pc.number, ChatResult.consumed] at hnum
      simp only [hn, Pc.returned, ChatResult.returned]
      exact hnum
  have hnd2 : ((List.range c.toNat).map (fun (i : Nat) => (i : Int) + 1)).Nodup := by
    apply List.Nodup.map _ (List.nodup_range _)
    intro a b hab
    simp at hab
    exact hab
  have hperm : s.returned.Perm
      ((List.range c.toNat).map (fun (i : Nat) => (i : Int) + 1)) := by
    rw [List.perm_ext_iff_of_nodup hnd hnd2]
    intro x
    rw [hmem]
    simp only [List.mem_map, List.mem_range]
    have hnn := inv.nonneg
    constructor
    · rintro ⟨h1, h2⟩
      exact ⟨(x - 1).toNat, by omega, by omega⟩
    · rintro ⟨i, hi, rfl⟩
      omega
  have hc : c.toNat = s.callers := by
    have := hperm.length_eq
    simp [hlen] at this
    exact this.symm
  rw [hc] at hperm
  exact hperm

end GoChat

namespace GoChat

/-! ### Progress: every caller that gets its two steps is answered -/

theorem Sys.step_rank (marshal : Payload → Except String String)
    (token : String) (envs : Nat → ChatEnv) (s : Sys) (j i : Nat)
    (hi : i < s.callers) :
    min 2 ((s.pcs i).rank + (if j = i then 1 else 0)) ≤
      ((Sys.step marshal token envs s j).pcs i).rank := by
  unfold Sys.step
  by_cases hj : j = i
  · subst hj
    simp only [hi, if_true]
    cases hpc : s.pcs j with
    | start =>
      simp only [CreateChatHandler.allocate]
      split <;> simp [Pc.rank]
    | allocated n => simp [Pc.rank]
    | done res => simp [hpc, Pc.rank]
  · have hij : i ≠ j := fun h => hj h.symm
    by_cases hjc : j < s.callers
    · simp only [hjc, if_true, hj, if_false]
      cases hpc : s.pcs j with
      | start =>
        simp only [CreateChatHandler.allocate]
        split <;> simp [Function.update_noteq hij]
      | allocated n => simp [Function.update_noteq hij]
      | done res => simp
    · simp [hjc, hj]

theorem Sys.run_rank (marshal : Payload → Except String String)
    (token : String) (envs : Nat → ChatEnv) (i : Nat) (sched : List Nat) :
    ∀ s : Sys, i < s.callers →
      min 2 ((s.pcs i).rank + sched.count i) ≤
        ((Sys.run marshal token envs s sched).pcs i).rank := by
  induction sched with
  | nil => intro s _; simp [Sys.run]
  | cons j rest ih =>
    intro s hi
    have h1 := Sys.step_rank marshal token envs s j i hi
    have h2 := ih (Sys.step marshal token envs s j)
      (by rw [Sys.step_callers]; exact hi)
    show _ ≤ ((Sys.run marshal token envs (Sys.step marshal token envs s j) rest).pcs i).rank
    by_cases hj : j = i
    · subst hj
      simp only [List.count_cons_self, if_true] at h1 ⊢
      omega
    · rw [List.count_cons_of_ne (fun h => hj h.symm)]
      simp only [hj, if_false] at h1
      omega

theorem Sys.step_allCreated (marshal : Payload → Except String String)
    (token : String) (envs : Nat → ChatEnv) (s : Sys) (i : Nat)
    (htok : token ≠ "") (hm : ∀ p, ∃ body, marshal p = .ok body)
    (henv : ∀ k, envs k = ⟨none, none⟩) (h : s.AllCreated) :
    (Sys.step marshal token envs s i).AllCreated := by
  intro j res hj
  unfold Sys.step at hj
  by_cases hi : i < s.callers
  · simp only [hi, if_true] at hj
    cases hpc : s.pcs i with
    | start =>
      simp only [hpc, CreateChatHandler.allocate, Repo.IncrementChatCounter,
        Redis.IncrResult, htok, if_false, henv i] at hj
      by_cases hji : j = i
      · subst hji; simp at hj
      · rw [Function.update_noteq hji] at hj
        exact h j res hj
    | allocated n =>
      simp only [hpc] at hj
      by_cases hji : j = i
      · subst hji
        simp only [Function.update_same, Pc.done.injEq] at hj
        obtain ⟨body, hb⟩ := hm [("app_token", .str token), ("chat_number", .int n)]
        refine ⟨n, ?_⟩
        rw [← hj]
        simp [CreateChatHandler.publish, AMQP.PublishMessage, hb, henv j]
      · rw [Function.update_noteq hji] at hj
        exact h j res hj
    | done r =>
      simp only [hpc] at hj
      exact h j res hj
  · simp only [hi, if_false] at hj
    exact h j res hj

theorem Sys.run_allCreated (marshal : Payload → Except String String)
    (token : String) (envs : Nat → ChatEnv) (sched : List Nat)
    (htok : token ≠ "") (hm : ∀ p, ∃ body, marshal p = .ok body)
    (henv : ∀ k, envs k = ⟨none, none⟩) :
    ∀ s : Sys, s.AllCreated → (Sys.run marshal token envs s sched).AllCreated := by
  induction sched with
  | nil => intro s h; exact h
  | cons i rest ih =>
    intro s h
    exact ih _ (Sys.step_allCreated marshal token envs s i htok hm henv h)

theorem Pc.done_of_rank (pc : Pc) (h : 2 ≤ pc.rank) : ∃ res, pc = Pc.done res := by
  cases pc with
  | start => simp [Pc.rank] at h
  | allocated n => simp [Pc.rank] at h
  | done res => exact ⟨res, rfl⟩

end GoChat

namespace GoChat

/-- A caller that takes its two steps back to back does what one call of
`CreateChatHandler` does. -/
theorem Sys.step_step_eq_handler (marshal : Payload → Except String String)
    (token : String) (envs : Nat → ChatEnv) (s : Sys) (i : Nat)
    (hi : i < s.callers) (hstart : s.pcs i = Pc.start) :
    (Sys.step marshal token envs (Sys.step marshal token envs s i) i).api =
      (CreateChatHandler marshal (envs i) s.api token).1 ∧
    (Sys.step marshal token envs (Sys.step marshal token envs s i) i).pcs i =
      Pc.done (CreateChatHandler marshal (envs i) s.api token).2 := by
  unfold CreateChatHandler
  rcases hal : CreateChatHandler.allocate (envs i) s.api token with ⟨api, res | n⟩
  · have h1 : Sys.step marshal token envs s i =
        ⟨api, s.callers, Function.update s.pcs i (.done res)⟩ := by
      simp [Sys.step, hi, hstart, hal]
    rw [h1]
    simp [Sys.step, hi]
  · have h1 : Sys.step marshal token envs s i =
        ⟨api, s.callers, Function.update s.pcs i (.allocated n)⟩ := by
      simp [Sys.step, hi, hstart, hal]
    rw [h1]
    simp [Sys.step, hi]

/-- C2: N concurrent create-chat calls on one token whose counter key is absent
before, run as an arbitrary interleaving `sched` of their atomic steps.  (1) If
no collaborator fails and every call gets its two steps, the numbers returned
to the N callers are a permutation of 1, ..., N: no gap and no duplicate.
(2) The same holds in every run in which each of the N callers was answered
201.  (3) Under every fault pattern and every interleaving the returned numbers
are pairwise distinct. -/
theorem C2_concurrent_create_chat_returns_one_to_N
    (marshal : Payload → Except String String) (token : String)
    (envs : Nat → ChatEnv) (api : ApiState) (N : Nat) (sched : List Nat)
    (hfresh : Redis.Get api.redis (chatsCountKey token) = none) :
    (token ≠ "" → (∀ p, ∃ body, marshal p = .ok body) →
      (∀ k, envs k = ⟨none, none⟩) → (∀ i, i < N → 2 ≤ sched.count i) →
      (Sys.run marshal token envs (Sys.init api N) sched).returned.Perm
        ((List.range N).map (fun (i : Nat) => (i : Int) + 1))) ∧
    ((∀ i, i < N → ∃ n, (Sys.run marshal token envs (Sys.init api N) sched).pcs i
        = Pc.done (ChatResult.created n)) →
      (Sys.run marshal token envs (Sys.init api N) sched).returned.Perm
        ((List.range N).map (fun (i : Nat) => (i : Int) + 1))) ∧
    (Sys.run marshal token envs (Sys.init api N) sched).returned.Nodup := by
  have hc0 : counterOf token (Sys.init api N).api = 0 := by
    simp [counterOf, Sys.init, hfresh]
  have inv0 : AllocInv (Sys.init api N).callers (counterOf token (Sys.init api N).api)
      (fun j => ((Sys.init api N).pcs j).number) := by
    rw [hc0]
    exact AllocInv.init N
  have inv := Sys.run_inv marshal token envs sched (Sys.init api N) inv0
  have hN : (Sys.run marshal token envs (Sys.init api N) sched).callers = N :=
    Sys.run_callers marshal token envs sched (Sys.init api N)
  have hperm : (∀ i, i < N → ∃ n,
      (Sys.run marshal token envs (Sys.init api N) sched).pcs i
        = Pc.done (ChatResult.created n)) →
      (Sys.run marshal token envs (Sys.init api N) sched).returned.Perm
        ((List.range N).map (fun (i : Nat) => (i : Int) + 1)) := by
    intro hall
    have h := Sys.returned_perm _ _ inv (by rw [hN]; exact hall)
    rw [hN] at h
    exact h
  refine ⟨?_, hperm, Sys.returned_nodup _ _ inv⟩
  intro htok hm henv hsched
  apply hperm
  intro i hi
  have hrank := Sys.run_rank marshal token envs i sched (Sys.init api N) hi
  have h2 := hsched i hi
  obtain ⟨res, hres⟩ := Pc.done_of_rank _ (by omega :
    2 ≤ ((Sys.run marshal token envs (Sys.init api N) sched).pcs i).rank)
  have hgood := Sys.run_allCreated marshal token envs sched htok hm henv
    (Sys.init api N) (by intro j res hj; simp [Sys.init] at hj)
  obtain ⟨n, hn⟩ := hgood i res hres
  exact ⟨n, by rw [hres, hn]⟩

/-- C2 at a concrete run: three callers on `tok1`, steps interleaved. -/
theorem C2_concurrent_create_chat_returns_one_to_N_witness :
    (Sys.run (fun _ => .ok "") "tok1" (fun _ => ⟨none, none⟩)
      (Sys.init ⟨[], []⟩ 3) [2, 0, 2, 1, 1, 0]).returned.Perm [1, 2, 3] :=
  (C2_concurrent_create_chat_returns_one_to_N (fun _ => .ok "") "tok1"
    (fun _ => ⟨none, none⟩) ⟨[], []⟩ 3 [2, 0, 2, 1, 1, 0] rfl).1
    (by decide) (fun _ => ⟨"", rfl⟩) (fun _ => rfl) (by decide)

end GoChat

namespace GoWorker

/-! ## Repository lemmas -/

theorem filter_nil_of_find_none {α : Type} (p : α → Bool) (l : List α)
    (h : l.find? p = none) : l.filter p = [] := by
  rw [List.filter_eq_nil_iff]
  intro a ha hp
  have := List.find?_eq_none.mp h a ha
  exact this hp

theorem filter_pos_of_find_some {α : Type} (p : α → Bool) (l : List α) (a : α)
    (h : l.find? p = some a) : 1 ≤ (l.filter p).length := by
  have hmem : a ∈ l.filter p :=
    List.mem_filter.mpr ⟨List.mem_of_find?_eq_some h, List.find?_some h⟩
  exact List.length_pos_of_mem hmem

theorem findApplication_ok (db : Db) (token : String) (app : Application)
    (h : Repository.FindApplicationByToken none db token = .ok app) :
    db.applications.find? (Application.hasToken token) = some app := by
  unfold Repository.FindApplicationByToken at h
  simp only at h
  split at h
  · exact Except.noConfusion h
  · rename_i a ha
    rw [ha]
    injection h with h2
    rw [h2]

theorem findChat_ok (db : Db) (applicationID : Nat) (number : Int) (chat : Chat)
    (h : Repository.FindChatByApplicationAndNumber none db applicationID number
      = .ok chat) :
    db.chats.find? (Chat.hasKey applicationID number) = some chat := by
  unfold Repository.FindChatByApplicationAndNumber at h
  simp only at h
  split at h
  · exact Except.noConfusion h
  · rename_i a ha
    rw [ha]
    injection h with h2
    rw [h2]

theorem findChat_mem (fault : Option String) (db : Db) (applicationID : Nat)
    (number : Int) (chat : Chat)
    (h : Repository.FindChatByApplicationAndNumber fault db applicationID number
      = .ok chat) :
    chat ∈ db.chats ∧ chat.ApplicationID = applicationID ∧ chat.Number = number := by
  cases fault with
  | some e => simp [Repository.FindChatByApplicationAndNumber] at h
  | none =>
    have hf := findChat_ok db applicationID number chat h
    have hp := List.find?_some hf
    simp only [Chat.hasKey, decide_eq_true_eq] at hp
    exact ⟨List.mem_of_find?_eq_some hf, hp.1, hp.2⟩

end GoWorker

namespace GoWorker

/-- C3: a well-formed message event whose application and chat are in the
store, handled twice in sequence by `MessageWorker.HandleMessage` while the
relational store answers (the faults of the key-value store and of the broker
are arbitrary in both runs): afterwards exactly one `messages` row has the
event's (chat_id, number); the second run is acked, leaves the whole state as
the first run left it, and its only calls are the three lookups (no insert, no
delta increment, no indexing publish). -/
theorem C3_message_redelivery_idempotent
    (marshal : Payload → Except String String)
    (unmarshal : String → Except String MessagePayload)
    (env1 env2 : Env) (w : World) (d : Delivery) (p : MessagePayload)
    (app : Application) (chat : Chat)
    (hparse : ParseMessageBody unmarshal d = .ok p)
    (hwf : p.AppToken ≠ "" ∧ p.ChatNumber ≠ 0 ∧ p.MessageNumber ≠ 0 ∧ p.Content ≠ "")
    (hdb1 : env1.dbReachable) (hdb2 : env2.dbReachable)
    (happ : Repository.FindApplicationByToken none w.db p.AppToken = .ok app)
    (hchat : Repository.FindChatByApplicationAndNumber none w.db app.ID p.ChatNumber
      = .ok chat)
    (huniq : w.db.UniqueMessages) :
    ((MessageWorker.HandleMessage marshal unmarshal env2
        (MessageWorker.HandleMessage marshal unmarshal env1 w d).world d).world.db.messageRows
        chat.ID p.MessageNumber).length = 1 ∧
    ConsumeQueue.settle (MessageWorker.HandleMessage marshal unmarshal env2
        (MessageWorker.HandleMessage marshal unmarshal env1 w d).world d).err
      = Settlement.ack false ∧
    (MessageWorker.HandleMessage marshal unmarshal env2
        (MessageWorker.HandleMessage marshal unmarshal env1 w d).world d).world
      = (MessageWorker.HandleMessage marshal unmarshal env1 w d).world ∧
    (MessageWorker.HandleMessage marshal unmarshal env2
        (MessageWorker.HandleMessage marshal unmarshal env1 w d).world d).calls
      = [Call.findApplication p.AppToken, Call.findChat app.ID p.ChatNumber,
         Call.findMessage chat.ID p.MessageNumber] := by
  obtain ⟨hw1, hw2, hw3, hw4⟩ := hwf
  obtain ⟨ha1, hc1, hm1, he1, hl1⟩ := hdb1
  obtain ⟨ha2, hc2, hm2, he2, hl2⟩ := hdb2
  have hfa := findApplication_ok _ _ _ happ
  have hfc := findChat_ok _ _ _ _ hchat
  cases hfm : w.db.messages.find? (Message.hasKey chat.ID p.MessageNumber) with
  | some m =>
    have ho1 : MessageWorker.HandleMessage marshal unmarshal env1 w d =
        ⟨w, [Call.findApplication p.AppToken, Call.findChat app.ID p.ChatNumber,
          Call.findMessage chat.ID p.MessageNumber], none⟩ := by
      simp [MessageWorker.HandleMessage, hparse, hw1, hw2, hw3, hw4,
        Repository.FindApplicationByToken, ha1, hfa,
        Repository.FindChatByApplicationAndNumber, hc1, hfc,
        Repository.FindMessageByChatAndNumber, hm1, hfm]
    have ho2 : MessageWorker.HandleMessage marshal unmarshal env2 w d =
        ⟨w, [Call.findApplication p.AppToken, Call.findChat app.ID p.ChatNumber,
          Call.findMessage chat.ID p.MessageNumber], none⟩ := by
      simp [MessageWorker.HandleMessage, hparse, hw1, hw2, hw3, hw4,
        Repository.FindApplicationByToken, ha2, hfa,
        Repository.FindChatByApplicationAndNumber, hc2, hfc,
        Repository.FindMessageByChatAndNumber, hm2, hfm]
    rw [ho1]
    simp only
    rw [ho2]
    refine ⟨?_, rfl, rfl, rfl⟩
    have h1 := filter_pos_of_find_some _ _ _ hfm
    have h2 := huniq chat.ID p.MessageNumber
    show (w.db.messageRows chat.ID p.MessageNumber).length = 1
    unfold Db.messageRows at h2 ⊢
    omega
  | none =>
    have hfil := filter_nil_of_find_none _ _ hfm
    have ho1 : MessageWorker.HandleMessage marshal unmarshal env1 w d =
        ⟨{ db := { w.db with
              messages := w.db.messages ++
                [{ ID := w.db.messagesAutoInc + 1, ChatID := chat.ID,
                   Number := p.MessageNumber, Content := p.Content,
                   CreatedAt := env1.now, UpdatedAt := env1.now }],
              messagesAutoInc := w.db.messagesAutoInc + 1 },
           redis := incrementCounter env1.incrErr w.redis (deltaMessagesKey chat.ID),
           channel := (MessageWorker.queueForIndexing marshal env1.publishErr
             w.channel
             { ID := w.db.messagesAutoInc + 1, ChatID := chat.ID,
               Number := p.MessageNumber, Content := p.Content,
               CreatedAt := env1.now, UpdatedAt := env1.now } chat app).1 },
          [Call.findApplication p.AppToken, Call.findChat app.ID p.ChatNumber,
           Call.findMessage chat.ID p.MessageNumber,
           Call.createMessage
             { ID := 0, ChatID := chat.ID, Number := p.MessageNumber,
               Content := p.Content, CreatedAt := 0, UpdatedAt := 0 },
           Call.incr (deltaMessagesKey chat.ID),
           Call.publish IndexingQueue (indexPayload
             { ID := w.db.messagesAutoInc + 1, ChatID := chat.ID,
               Number := p.MessageNumber, Content := p.Content,
               CreatedAt := env1.now, UpdatedAt := env1.now } chat app)],
          none⟩ := by
      simp [MessageWorker.HandleMessage, hparse, hw1, hw2, hw3, hw4,
        Repository.FindApplicationByToken, ha1, hfa,
        Repository.FindChatByApplicationAndNumber, hc1, hfc,
        Repository.FindMessageByChatAndNumber, hm1, hfm,
        Repository.CreateMessage, he1, hl1, Db.messageRows, hfil]
    have hrow : Message.hasKey chat.ID p.MessageNumber
        { ID := w.db.messagesAutoInc + 1, ChatID := chat.ID,
          Number := p.MessageNumber, Content := p.Content,
          CreatedAt := env1.now, UpdatedAt := env1.now } = true := by
      simp [Message.hasKey]
    rw [ho1]
    simp only
    simp [MessageWorker.HandleMessage, hparse, hw1, hw2, hw3, hw4, hrow,
        Repository.FindApplicationByToken, ha2, hfa,
        Repository.FindChatByApplicationAndNumber, hc2, hfc,
        Repository.FindMessageByChatAndNumber, hm2, hfm, Db.messageRows, hfil,
        ConsumeQueue.settle]

end GoWorker

namespace GoWorker

/-- C3 on the sample store: message 1 of chat 1 of `tok1`, delivered twice. -/
theorem C3_message_redelivery_idempotent_witness :
    ((MessageWorker.HandleMessage (fun _ => .ok "") (fun _ => .ok ⟨"tok1", 1, 1, "hi"⟩)
        (Env.ok 101) (MessageWorker.HandleMessage (fun _ => .ok "")
          (fun _ => .ok ⟨"tok1", 1, 1, "hi"⟩) (Env.ok 100) sampleWorld ⟨""⟩).world
        ⟨""⟩).world.db.messageRows 3 1).length = 1 :=
  (C3_message_redelivery_idempotent (fun _ => .ok "")
    (fun _ => .ok ⟨"tok1", 1, 1, "hi"⟩) (Env.ok 100) (Env.ok 101) sampleWorld ⟨""⟩
    ⟨"tok1", 1, 1, "hi"⟩ ⟨7, "tok1", "App", 0, 0, 0⟩ ⟨3, 7, 1, 0, 50, 50⟩
    rfl (by decide) ⟨rfl, rfl, rfl, rfl, rfl⟩ ⟨rfl, rfl, rfl, rfl, rfl⟩
    rfl rfl
    (by intro c n; simp [Db.messageRows, sampleWorld, sampleDb])).1

end GoWorker

namespace GoWorker

/-- C4: a well-formed chat event whose application is in the store, handled
twice in sequence by `ChatWorker.HandleMessage` while the relational store
answers (the faults of the key-value store are arbitrary): afterwards exactly
one `chats` row has the event's (application_id, number); a row that had to be
created was inserted with `messages_count = 0`, and a row that was there before
leaves the store untouched; the two runs together call `INCR` on
`delta:app:<app_id>:chats` at most once; the second run is acked, leaves the
state as the first run left it, and its only calls are the two lookups. -/
theorem C4_chat_redelivery_idempotent
    (unmarshal : String → Except String ChatPayload)
    (env1 env2 : Env) (w : World) (d : Delivery) (p : ChatPayload)
    (app : Application)
    (hparse : ParseMessageBody unmarshal d = .ok p)
    (hwf : p.AppToken ≠ "" ∧ p.ChatNumber ≠ 0)
    (hdb1 : env1.dbReachable) (hdb2 : env2.dbReachable)
    (happ : Repository.FindApplicationByToken none w.db p.AppToken = .ok app)
    (huniq : w.db.UniqueChats) :
    ((ChatWorker.HandleMessage unmarshal env2
        (ChatWorker.HandleMessage unmarshal env1 w d).world d).world.db.chatRows
        app.ID p.ChatNumber).length = 1 ∧
    (w.db.chatRows app.ID p.ChatNumber = [] →
      ∃ row, (ChatWorker.HandleMessage unmarshal env2
          (ChatWorker.HandleMessage unmarshal env1 w d).world d).world.db.chatRows
          app.ID p.ChatNumber = [row] ∧ row.MessagesCount = 0) ∧
    (w.db.chatRows app.ID p.ChatNumber ≠ [] →
      (ChatWorker.HandleMessage unmarshal env2
        (ChatWorker.HandleMessage unmarshal env1 w d).world d).world = w) ∧
    ((ChatWorker.HandleMessage unmarshal env1 w d).calls ++
      (ChatWorker.HandleMessage unmarshal env2
        (ChatWorker.HandleMessage unmarshal env1 w d).world d).calls).count
        (Call.incr (deltaChatsKey app.ID)) ≤ 1 ∧
    ConsumeQueue.settle (ChatWorker.HandleMessage unmarshal env2
        (ChatWorker.HandleMessage unmarshal env1 w d).world d).err
      = Settlement.ack false ∧
    (ChatWorker.HandleMessage unmarshal env2
        (ChatWorker.HandleMessage unmarshal env1 w d).world d).world
      = (ChatWorker.HandleMessage unmarshal env1 w d).world ∧
    (ChatWorker.HandleMessage unmarshal env2
        (ChatWorker.HandleMessage unmarshal env1 w d).world d).calls
      = [Call.findApplication p.AppToken, Call.findChat app.ID p.ChatNumber] := by
  obtain ⟨hw1, hw2⟩ := hwf
  obtain ⟨ha1, hc1, hm1, he1, hl1⟩ := hdb1
  obtain ⟨ha2, hc2, hm2, he2, hl2⟩ := hdb2
  have hfa := findApplication_ok _ _ _ happ
  cases hfc : w.db.chats.find? (Chat.hasKey app.ID p.ChatNumber) with
  | some c =>
    have ho1 : ChatWorker.HandleMessage unmarshal env1 w d =
        ⟨w, [Call.findApplication p.AppToken, Call.findChat app.ID p.ChatNumber],
          none⟩ := by
      simp [ChatWorker.HandleMessage, hparse, hw1, hw2,
        Repository.FindApplicationByToken, ha1, hfa,
        Repository.FindChatByApplicationAndNumber, hc1, hfc]
    have ho2 : ChatWorker.HandleMessage unmarshal env2 w d =
        ⟨w, [Call.findApplication p.AppToken, Call.findChat app.ID p.ChatNumber],
          none⟩ := by
      simp [ChatWorker.HandleMessage, hparse, hw1, hw2,
        Repository.FindApplicationByToken, ha2, hfa,
        Repository.FindChatByApplicationAndNumber, hc2, hfc]
    rw [ho1]
    simp only
    rw [ho2]
    have h1 := filter_pos_of_find_some _ _ _ hfc
    have h2 := huniq app.ID p.ChatNumber
    refine ⟨?_, ?_, fun _ => rfl, by simp, rfl, rfl, rfl⟩
    · show (w.db.chatRows app.ID p.ChatNumber).length = 1
      unfold Db.chatRows at h2 ⊢
      omega
    · intro hnil
      unfold Db.chatRows at hnil
      rw [hnil] at h1
      simp at h1
  | none =>
    have hfil := filter_nil_of_find_none _ _ hfc
    have ho1 : ChatWorker.HandleMessage unmarshal env1 w d =
        ⟨{ db := { w.db with
              chats := w.db.chats ++
                [{ ID := w.db.chatsAutoInc + 1, ApplicationID := app.ID,
                   Number := p.ChatNumber, MessagesCount := 0,
                   CreatedAt := env1.now, UpdatedAt := env1.now }],
              chatsAutoInc := w.db.chatsAutoInc + 1 },
           redis := incrementCounter env1.incrErr w.redis (deltaChatsKey app.ID),
           channel := w.channel },
          [Call.findApplication p.AppToken, Call.findChat app.ID p.ChatNumber,
           Call.createChat
             { ID := 0, ApplicationID := app.ID, Number := p.ChatNumber,
               MessagesCount := 0, CreatedAt := 0, UpdatedAt := 0 },
           Call.incr (deltaChatsKey app.ID)],
          none⟩ := by
      simp [ChatWorker.HandleMessage, hparse, hw1, hw2,
        Repository.FindApplicationByToken, ha1, hfa,
        Repository.FindChatByApplicationAndNumber, hc1, hfc,
        Repository.CreateChat, he1, hl1, Db.chatRows, hfil]
    have hrow : Chat.hasKey app.ID p.ChatNumber
        { ID := w.db.chatsAutoInc + 1, ApplicationID := app.ID,
          Number := p.ChatNumber, MessagesCount := 0,
          CreatedAt := env1.now, UpdatedAt := env1.now } = true := by
      simp [Chat.hasKey]
    rw [ho1]
    simp only
    simp [ChatWorker.HandleMessage, hparse, hw1, hw2, hrow,
        Repository.FindApplicationByToken, ha2, hfa,
        Repository.FindChatByApplicationAndNumber, hc2, hfc, Db.chatRows, hfil,
        ConsumeQueue.settle]

end GoWorker

namespace GoWorker

/-- C4 on the sample store: chat 2 of `tok1`, not yet stored, delivered twice. -/
theorem C4_chat_redelivery_idempotent_witness :
    ((ChatWorker.HandleMessage (fun _ => .ok ⟨"tok1", 2⟩) (Env.ok 101)
        (ChatWorker.HandleMessage (fun _ => .ok ⟨"tok1", 2⟩) (Env.ok 100)
          sampleWorld ⟨""⟩).world ⟨""⟩).world.db.chatRows 7 2).length = 1 :=
  (C4_chat_redelivery_idempotent (fun _ => .ok ⟨"tok1", 2⟩) (Env.ok 100)
    (Env.ok 101) sampleWorld ⟨""⟩ ⟨"tok1", 2⟩ ⟨7, "tok1", "App", 0, 0, 0⟩
    rfl (by decide) ⟨rfl, rfl, rfl, rfl, rfl⟩ ⟨rfl, rfl, rfl, rfl, rfl⟩ rfl
    (fun _ _ => List.length_filter_le _ _)).1

end GoWorker

namespace GoWorker

theorem createMessage_rows (env : Env) (db : Db) (message : Message) (m : Message)
    (h : m ∈ (Repository.CreateMessage env db message).1.messages) :
    m ∈ db.messages ∨ m.ChatID = message.ChatID := by
  unfold Repository.CreateMessage at h
  cases he : env.execErr with
  | some e => simp [he] at h; exact Or.inl h
  | none =>
    simp only [he] at h
    split at h
    · cases hl : env.lastInsertIdErr with
      | some e =>
        simp [hl] at h
        rcases h with h | h
        · exact Or.inl h
        · right; rw [h]
      | none =>
        simp [hl] at h
        rcases h with h | h
        · exact Or.inl h
        · right; rw [h]
    · exact Or.inl h

/-- C5: for a well-formed message event whose application is found, if the chat
lookup by (app_id, chat_number) returns an error, `MessageWorker.HandleMessage`
returns the error "chat not found", which the consumer loop answers with
`Nack(false, true)` (requeue); the state is unchanged and the only calls are
the two lookups (no insert, no delta increment, no indexing publish).  And for
every delivery, every state and every fault pattern, each `messages` row that
the run adds carries the id of a `chats` row of the store that the chat lookup
of this run returned for the event's application and chat number. -/
theorem C5_message_without_chat_is_requeued
    (marshal : Payload → Except String String)
    (unmarshal : String → Except String MessagePayload)
    (env : Env) (w : World) (d : Delivery) :
    (∀ (p : MessagePayload) (app : Application) (e : String),
      ParseMessageBody unmarshal d = .ok p →
      (p.AppToken ≠ "" ∧ p.ChatNumber ≠ 0 ∧ p.MessageNumber ≠ 0 ∧ p.Content ≠ "") →
      Repository.FindApplicationByToken env.findApplicationErr w.db p.AppToken
        = .ok app →
      Repository.FindChatByApplicationAndNumber env.findChatErr w.db app.ID
        p.ChatNumber = .error e →
      (MessageWorker.HandleMessage marshal unmarshal env w d).err
        = some "chat not found" ∧
      ConsumeQueue.settle (MessageWorker.HandleMessage marshal unmarshal env w d).err
        = Settlement.nack false true ∧
      (MessageWorker.HandleMessage marshal unmarshal env w d).world = w ∧
      (MessageWorker.HandleMessage marshal unmarshal env w d).calls
        = [Call.findApplication p.AppToken, Call.findChat app.ID p.ChatNumber]) ∧
    (∀ m, m ∈ (MessageWorker.HandleMessage marshal unmarshal env w d).world.db.messages →
      m ∈ w.db.messages ∨
      ∃ p app chat, ParseMessageBody unmarshal d = .ok p ∧
        Repository.FindApplicationByToken env.findApplicationErr w.db p.AppToken
          = .ok app ∧
        Repository.FindChatByApplicationAndNumber env.findChatErr w.db app.ID
          p.ChatNumber = .ok chat ∧
        chat ∈ w.db.chats ∧ chat.ApplicationID = app.ID ∧
        chat.Number = p.ChatNumber ∧ m.ChatID = chat.ID) := by
  refine ⟨?_, ?_⟩
  · intro p app e hparse hwf happ hchat
    obtain ⟨hw1, hw2, hw3, hw4⟩ := hwf
    simp [MessageWorker.HandleMessage, hparse, hw1, hw2, hw3, hw4, happ, hchat,
      ConsumeQueue.settle]
  · intro m hm
    unfold MessageWorker.HandleMessage at hm
    cases hparse : ParseMessageBody unmarshal d with
    | error e => simp [hparse] at hm; exact Or.inl hm
    | ok p =>
      simp only [hparse] at hm
      split at hm
      · exact Or.inl hm
      · cases happ : Repository.FindApplicationByToken env.findApplicationErr w.db
            p.AppToken with
        | error e => simp [happ] at hm; exact Or.inl hm
        | ok app =>
          simp only [happ] at hm
          cases hchat : Repository.FindChatByApplicationAndNumber env.findChatErr
              w.db app.ID p.ChatNumber with
          | error e => simp [hchat] at hm; exact Or.inl hm
          | ok chat =>
            simp only [hchat] at hm
            have hmem := findChat_mem _ _ _ _ _ hchat
            have hrows : m ∈ (Repository.CreateMessage env w.db
                { ID := 0, ChatID := chat.ID, Number := p.MessageNumber,
                  Content := p.Content, CreatedAt := 0, UpdatedAt := 0 }).1.messages →
                m ∈ w.db.messages ∨ m.ChatID = chat.ID :=
              createMessage_rows env w.db _ m
            split at hm
            · exact Or.inl hm
            · split at hm
              · rename_i db e hcm
                rw [hcm] at hrows
                rcases hrows hm with h | h
                · exact Or.inl h
                · exact Or.inr ⟨p, app, chat, rfl, happ, hchat, hmem.1, hmem.2.1,
                    hmem.2.2, h⟩
              · rename_i db created hcm
                rw [hcm] at hrows
                rcases hrows hm with h | h
                · exact Or.inl h
                · exact Or.inr ⟨p, app, chat, rfl, happ, hchat, hmem.1, hmem.2.1,
                    hmem.2.2, h⟩

end GoWorker

namespace GoWorker

/-- C5 on the sample store: a message for chat 9 of `tok1`, which is not
stored, is answered with a requeueing nack. -/
theorem C5_message_without_chat_is_requeued_witness :
    ConsumeQueue.settle (MessageWorker.HandleMessage (fun _ => .ok "")
        (fun _ => .ok ⟨"tok1", 9, 1, "hi"⟩) (Env.ok 100) sampleWorld ⟨""⟩).err
      = Settlement.nack false true :=
  ((C5_message_without_chat_is_requeued (fun _ => .ok "")
    (fun _ => .ok ⟨"tok1", 9, 1, "hi"⟩) (Env.ok 100) sampleWorld ⟨""⟩).1
    ⟨"tok1", 9, 1, "hi"⟩ ⟨7, "tok1", "App", 0, 0, 0⟩ "chat not found"
    rfl (by decide) rfl rfl).2.1

end GoWorker

namespace GoWorker

end GoWorker

namespace GoWorker

end GoWorker

namespace GoWorker

/-- C7, counterexample: the chat payload with token `tok1` and chat number -1
has a chat number that is not greater than 0, yet on the sample store the
handler looks up the application and the chat and inserts a `chats` row with
number -1. -/
theorem C7_negative_chat_number_counterexample :
    ¬ ((⟨"tok1", -1⟩ : ChatPayload).ChatNumber > 0) ∧
    (ChatWorker.HandleMessage (fun _ => .ok ⟨"tok1", -1⟩) (Env.ok 100) sampleWorld
        ⟨""⟩).calls =
      [Call.findApplication "tok1", Call.findChat 7 (-1),
       Call.createChat ⟨0, 7, -1, 0, 0, 0⟩, Call.incr "delta:app:7:chats"] ∧
    (ChatWorker.HandleMessage (fun _ => .ok ⟨"tok1", -1⟩) (Env.ok 100) sampleWorld
        ⟨""⟩).world.db.chatRows 7 (-1) = [⟨4, 7, -1, 0, 100, 100⟩] := by
  decide

/-- C7, amended: for every chat payload whose `app_token` is empty or whose
`chat_number` is 0, `ChatWorker.HandleMessage` returns nil (ack), makes no call
at all (no application lookup, no chat lookup, no insert) and leaves the state
unchanged; a payload with a non-empty token and a non-zero chat number, a
negative one included, passes the check: its first call is the application
lookup. -/
theorem C7_chat_payload_presence_check
    (unmarshal : String → Except String ChatPayload)
    (env : Env) (w : World) (d : Delivery) (p : ChatPayload)
    (hparse : ParseMessageBody unmarshal d = .ok p) :
    ((p.AppToken = "" ∨ p.ChatNumber = 0) →
      (ChatWorker.HandleMessage unmarshal env w d).err = none ∧
      ConsumeQueue.settle (ChatWorker.HandleMessage unmarshal env w d).err
        = Settlement.ack false ∧
      (ChatWorker.HandleMessage unmarshal env w d).calls = [] ∧
      (ChatWorker.HandleMessage unmarshal env w d).world = w) ∧
    ((p.AppToken ≠ "" ∧ p.ChatNumber ≠ 0) →
      (ChatWorker.HandleMessage unmarshal env w d).calls.head?
        = some (Call.findApplication p.AppToken)) := by
  refine ⟨?_, ?_⟩
  · intro h
    simp [ChatWorker.HandleMessage, hparse, h, ConsumeQueue.settle]
  · rintro ⟨h1, h2⟩
    simp only [ChatWorker.HandleMessage, hparse, h1, h2, or_self, if_false]
    cases Repository.FindApplicationByToken env.findApplicationErr w.db p.AppToken with
    | error e => rfl
    | ok app =>
      simp only
      cases Repository.FindChatByApplicationAndNumber env.findChatErr w.db app.ID
          p.ChatNumber with
      | ok c => rfl
      | error e =>
        simp only
        split <;> rfl

/-- C7 amended, on the sample store: chat number 0 is dropped without a call,
chat number -1 reaches the application lookup. -/
theorem C7_chat_payload_presence_check_witness :
    (ChatWorker.HandleMessage (fun _ => .ok ⟨"tok1", 0⟩) (Env.ok 100) sampleWorld
        ⟨""⟩).calls = [] ∧
    (ChatWorker.HandleMessage (fun _ => .ok ⟨"tok1", -1⟩) (Env.ok 100) sampleWorld
        ⟨""⟩).calls.head? = some (Call.findApplication "tok1") :=
  ⟨((C7_chat_payload_presence_check (fun _ => .ok ⟨"tok1", 0⟩) (Env.ok 100)
      sampleWorld ⟨""⟩ ⟨"tok1", 0⟩ rfl).1 (Or.inr rfl)).2.2.1,
   (C7_chat_payload_presence_check (fun _ => .ok ⟨"tok1", -1⟩) (Env.ok 100)
      sampleWorld ⟨""⟩ ⟨"tok1", -1⟩ rfl).2 (by decide)⟩

/-- Whatever error the application lookup returns, `ChatWorker.HandleMessage`
returns nil and changes nothing. -/
theorem ChatWorker.applicationError_acked_chat
    (unmarshal : String → Except String ChatPayload)
    (env : Env) (w : World) (d : Delivery) (p : ChatPayload) (e : String)
    (hparse : ParseMessageBody unmarshal d = .ok p)
    (happ : Repository.FindApplicationByToken env.findApplicationErr w.db p.AppToken
      = .error e) :
    (ChatWorker.HandleMessage unmarshal env w d).err = none ∧
    (ChatWorker.HandleMessage unmarshal env w d).world = w := by
  by_cases h : p.AppToken = "" ∨ p.ChatNumber = 0
  · simp [ChatWorker.HandleMessage, hparse, h]
  · simp [ChatWorker.HandleMessage, hparse, h, happ]

/-- Whatever error the application lookup returns, `MessageWorker.HandleMessage`
returns nil and changes nothing. -/
theorem MessageWorker.applicationError_acked_message
    (marshal : Payload → Except String String)
    (unmarshal : String → Except String MessagePayload)
    (env : Env) (w : World) (d : Delivery) (p : MessagePayload) (e : String)
    (hparse : ParseMessageBody unmarshal d = .ok p)
    (happ : Repository.FindApplicationByToken env.findApplicationErr w.db p.AppToken
      = .error e) :
    (MessageWorker.HandleMessage marshal unmarshal env w d).err = none ∧
    (MessageWorker.HandleMessage marshal unmarshal env w d).world = w := by
  by_cases h : p.AppToken = "" ∨ p.ChatNumber = 0 ∨ p.MessageNumber = 0 ∨
      p.Content = ""
  · simp [MessageWorker.HandleMessage, hparse, h]
  · simp [MessageWorker.HandleMessage, hparse, h, happ]

/-- C8, the code at the failing input: the application query fails in
transport ("invalid connection", not "no such row"); both handlers return nil,
so the consumer loop acks the delivery and the event is dropped. -/
theorem C8_lookup_failure_is_acked :
    ConsumeQueue.settle (ChatWorker.HandleMessage (fun _ => .ok ⟨"tok1", 2⟩)
        { Env.ok 100 with findApplicationErr := some "invalid connection" }
        sampleWorld ⟨""⟩).err = Settlement.ack false ∧
    ConsumeQueue.settle (MessageWorker.HandleMessage (fun _ => .ok "")
        (fun _ => .ok ⟨"tok1", 1, 1, "hi"⟩)
        { Env.ok 100 with findApplicationErr := some "invalid connection" }
        sampleWorld ⟨""⟩).err = Settlement.ack false ∧
    (ChatWorker.HandleMessage (fun _ => .ok ⟨"tok1", 2⟩)
        { Env.ok 100 with findApplicationErr := some "invalid connection" }
        sampleWorld ⟨""⟩).world = sampleWorld ∧
    (MessageWorker.HandleMessage (fun _ => .ok "")
        (fun _ => .ok ⟨"tok1", 1, 1, "hi"⟩)
        { Env.ok 100 with findApplicationErr := some "invalid connection" }
        sampleWorld ⟨""⟩).world = sampleWorld := by
  decide

end GoWorker

namespace GoWorker

/-- C9: a well-formed message event whose application and chat are found,
whose message lookup returns no row and whose `CreateMessage` succeeds with the
row `created`.  Whatever `json.Marshal`, the `INCR` and the publish do, the
handler returns nil (ack); it makes exactly one `INCR`, on
`delta:chat:<chat_id>:messages`, and exactly one publish, to `indexing_queue`,
of the map with the nine fields message_id, application_id, application_token,
application_name, chat_id, chat_number, message_number, content, created_at,
filled from the inserted message, the found chat and the found application.
The inserted message carries the chat id, the message number and the content of
the event.  The key rises by 1 when the store takes the `INCR`; the channel
gets one persistent message for `indexing_queue` when marshal and publish
succeed, and is unchanged otherwise. -/
theorem C9_message_insert_secondary_effects
    (marshal : Payload → Except String String)
    (unmarshal : String → Except String MessagePayload)
    (env : Env) (w : World) (d : Delivery) (p : MessagePayload)
    (app : Application) (chat : Chat) (e0 : String) (created : Message)
    (hparse : ParseMessageBody unmarshal d = .ok p)
    (hwf : p.AppToken ≠ "" ∧ p.ChatNumber ≠ 0 ∧ p.MessageNumber ≠ 0 ∧ p.Content ≠ "")
    (happ : Repository.FindApplicationByToken env.findApplicationErr w.db p.AppToken
      = .ok app)
    (hchat : Repository.FindChatByApplicationAndNumber env.findChatErr w.db app.ID
      p.ChatNumber = .ok chat)
    (hmsg : Repository.FindMessageByChatAndNumber env.findMessageErr w.db chat.ID
      p.MessageNumber = .error e0)
    (hins : (Repository.CreateMessage env w.db
      ⟨0, chat.ID, p.MessageNumber, p.Content, 0, 0⟩).2 = .ok created) :
    (MessageWorker.HandleMessage marshal unmarshal env w d).err = none ∧
    ConsumeQueue.settle (MessageWorker.HandleMessage marshal unmarshal env w d).err
      = Settlement.ack false ∧
    (MessageWorker.HandleMessage marshal unmarshal env w d).calls =
      [Call.findApplication p.AppToken, Call.findChat app.ID p.ChatNumber,
       Call.findMessage chat.ID p.MessageNumber,
       Call.createMessage ⟨0, chat.ID, p.MessageNumber, p.Content, 0, 0⟩,
       Call.incr ("delta:chat:" ++ toString chat.ID ++ ":messages"),
       Call.publish "indexing_queue"
         [("message_id", .uint created.ID),
          ("application_id", .uint app.ID),
          ("application_token", .str app.Token),
          ("application_name", .str app.Name),
          ("chat_id", .uint chat.ID),
          ("chat_number", .int chat.Number),
          ("message_number", .int created.Number),
          ("content", .str created.Content),
          ("created_at", .time created.CreatedAt)]] ∧
    (created.ChatID = chat.ID ∧ created.Number = p.MessageNumber ∧
      created.Content = p.Content ∧ created.CreatedAt = env.now ∧
      created ∈ (MessageWorker.HandleMessage marshal unmarshal env w d).world.db.messages) ∧
    (env.incrErr = none →
      Redis.Get (MessageWorker.HandleMessage marshal unmarshal env w d).world.redis
          (deltaMessagesKey chat.ID)
        = some ((Redis.Get w.redis (deltaMessagesKey chat.ID)).getD 0 + 1)) ∧
    (∀ body, marshal (indexPayload created chat app) = .ok body →
      env.publishErr = none →
      (MessageWorker.HandleMessage marshal unmarshal env w d).world.channel =
        w.channel ++ [⟨"", "indexing_queue", false, false,
          ⟨amqpPersistent, "application/json", body⟩⟩]) ∧
    (((∃ e, marshal (indexPayload created chat app) = .error e) ∨
        env.publishErr ≠ none) →
      (MessageWorker.HandleMessage marshal unmarshal env w d).world.channel
        = w.channel) := by
  obtain ⟨hw1, hw2, hw3, hw4⟩ := hwf
  rcases hcm : Repository.CreateMessage env w.db
    ⟨0, chat.ID, p.MessageNumber, p.Content, 0, 0⟩ with ⟨db, res⟩
  rw [hcm] at hins
  simp only at hins
  subst hins
  have hrun : MessageWorker.HandleMessage marshal unmarshal env w d =
      ⟨{ db := db,
         redis := incrementCounter env.incrErr w.redis (deltaMessagesKey chat.ID),
         channel := (MessageWorker.queueForIndexing marshal env.publishErr
           w.channel created chat app).1 },
        [.findApplication p.AppToken, .findChat app.ID p.ChatNumber,
         .findMessage chat.ID p.MessageNumber,
         .createMessage ⟨0, chat.ID, p.MessageNumber, p.Content, 0, 0⟩,
         .incr (deltaMessagesKey chat.ID),
         .publish IndexingQueue (indexPayload created chat app)],
        none⟩ := by
    simp [MessageWorker.HandleMessage, hparse, hw1, hw2, hw3, hw4, happ, hchat,
      hmsg, hcm]
  have hcreated : created.ChatID = chat.ID ∧ created.Number = p.MessageNumber ∧
      created.Content = p.Content ∧ created.CreatedAt = env.now ∧
      created ∈ db.messages := by
    unfold Repository.CreateMessage at hcm
    cases he : env.execErr with
    | some e => simp [he] at hcm
    | none =>
      simp only [he] at hcm
      split at hcm
      · cases hl : env.lastInsertIdErr with
        | some e => simp [hl] at hcm
        | none =>
          simp only [hl, Prod.mk.injEq, Except.ok.injEq] at hcm
          obtain ⟨hdb, hc⟩ := hcm
          subst hdb
          subst hc
          simp
      · simp at hcm
  rw [hrun]
  refine ⟨rfl, rfl, rfl, hcreated, ?_, ?_, ?_⟩
  · intro hi
    simp [incrementCounter, Redis.IncrResult, hi, Redis.get_incr_self]
  · intro body hb hp
    simp [MessageWorker.queueForIndexing, AMQP.Publish, hb, hp, IndexingQueue]
  · rintro (⟨e, hb⟩ | hp)
    · simp [MessageWorker.queueForIndexing, AMQP.Publish, hb]
    · cases hpe : env.publishErr with
      | none => exact absurd hpe hp
      | some e =>
        simp only [MessageWorker.queueForIndexing, AMQP.Publish, hpe]
        split <;> rfl

/-- C9 on the sample store: message 1 of chat 1 of `tok1` is inserted while the
key-value store and the broker are both failing; the delivery is acked. -/
theorem C9_message_insert_secondary_effects_witness :
    ConsumeQueue.settle (MessageWorker.HandleMessage (fun _ => .ok "")
        (fun _ => .ok ⟨"tok1", 1, 1, "hi"⟩)
        { Env.ok 100 with incrErr := some "timeout", publishErr := some "closed" }
        sampleWorld ⟨""⟩).err = Settlement.ack false :=
  (C9_message_insert_secondary_effects (fun _ => .ok "")
    (fun _ => .ok ⟨"tok1", 1, 1, "hi"⟩)
    { Env.ok 100 with incrErr := some "timeout", publishErr := some "closed" }
    sampleWorld ⟨""⟩ ⟨"tok1", 1, 1, "hi"⟩ ⟨7, "tok1", "App", 0, 0, 0⟩
    ⟨3, 7, 1, 0, 50, 50⟩ "message not found" ⟨1, 3, 1, "hi", 100, 100⟩
    rfl (by decide) rfl rfl rfl rfl).2.1

/-- The worker's `Publish`: an error when the payload cannot be marshalled or
the channel fails, otherwise one persistent JSON message on the default
exchange, routed by queue name. -/
theorem AMQP.Publish_message (marshal : Payload → Except String String)
    (fault : Option String) (ch : Channel) (queueType : String) (payload : Payload) :
    (∀ e, marshal payload = .error e →
      AMQP.Publish marshal fault ch queueType payload = (ch, some e)) ∧
    (∀ body e, marshal payload = .ok body → fault = some e →
      AMQP.Publish marshal fault ch queueType payload = (ch, some e)) ∧
    (∀ body, marshal payload = .ok body → fault = none →
      AMQP.Publish marshal fault ch queueType payload =
        (ch ++ [⟨"", queueType, false, false,
          ⟨amqpPersistent, "application/json", body⟩⟩], none)) := by
  refine ⟨?_, ?_, ?_⟩
  · intro e h; simp [AMQP.Publish, h]
  · intro body e h hf; simp [AMQP.Publish, h, hf]
  · intro body h hf; simp [AMQP.Publish, h, hf]

/-- The ingestion API's `PublishMessage`: as the worker's `Publish`, except
that the delivery mode of the message is 0. -/
theorem PublishMessage_message (marshal : Payload → Except String String)
    (fault : Option String) (ch : Channel) (queueType : String) (payload : Payload) :
    (∀ e, marshal payload = .error e →
      GoChat.AMQP.PublishMessage marshal fault ch payload queueType = (ch, some e)) ∧
    (∀ body e, marshal payload = .ok body → fault = some e →
      GoChat.AMQP.PublishMessage marshal fault ch payload queueType = (ch, some e)) ∧
    (∀ body, marshal payload = .ok body → fault = none →
      GoChat.AMQP.PublishMessage marshal fault ch payload queueType =
        (ch ++ [⟨"", queueType, false, false, ⟨0, "application/json", body⟩⟩],
          none)) := by
  refine ⟨?_, ?_, ?_⟩
  · intro e h; simp [GoChat.AMQP.PublishMessage, h]
  · intro body e h hf; simp [GoChat.AMQP.PublishMessage, h, hf]
  · intro body h hf; simp [GoChat.AMQP.PublishMessage, h, hf]

/-- C10, the code at the failing input: for the chat event of `tok1`, chat 1,
the ingestion API's `PublishMessage` hands the broker a message whose delivery
mode is 0 (the zero value), not `amqp.Persistent`; the worker's `Publish` of
the same payload sets `amqp.Persistent`.  Everything else agrees: empty
exchange, routing key equal to the queue name, mandatory and immediate false,
content type application/json, the marshalled payload as body. -/
theorem C10_api_publish_not_persistent :
    (GoChat.AMQP.PublishMessage (fun _ => .ok "body") none []
        [("app_token", .str "tok1"), ("chat_number", .int 1)] GoChat.ChatsQueue) =
      ([⟨"", "chats_queue", false, false, ⟨0, "application/json", "body"⟩⟩], none) ∧
    (0 : Nat) ≠ amqpPersistent ∧
    (AMQP.Publish (fun _ => .ok "body") none [] ChatsQueue
        [("app_token", .str "tok1"), ("chat_number", .int 1)]) =
      ([⟨"", "chats_queue", false, false,
        ⟨amqpPersistent, "application/json", "body"⟩⟩], none) := by
  decide

end GoWorker

namespace GoWorker

/-! ## The indexing consumer -/

/-- C11: `flush` on a non-empty buffer B issues one bulk request for index
`messages`.  If `BulkIndex` fails with `e`, `flush` returns `e` and the buffer
afterwards is B followed by the payloads that arrived during the request, both
in their order; if it succeeds, `flush` returns nil and the buffer holds the
arrivals only, so it is empty in a sequential run.  On an empty buffer `flush`
issues no request, returns nil and leaves the worker as it is. -/
theorem C11_flush_rollback
    (marshalAction : List (String × Payload) → Except String String)
    (marshal : Payload → Except String String) (reply : HttpResult)
    (arrivals : List IndexPayload) (w : IndexingWorker) :
    (w.batch ≠ [] → ∀ e, Client.BulkIndex reply = some e →
      (IndexingWorker.flush marshalAction marshal reply arrivals w).err = some e ∧
      (IndexingWorker.flush marshalAction marshal reply arrivals w).worker.batch
        = w.batch ++ arrivals ∧
      (IndexingWorker.flush marshalAction marshal reply arrivals w).bulkCalls
        = [("messages", flush.bulkBody marshalAction marshal w.batch)]) ∧
    (w.batch ≠ [] → Client.BulkIndex reply = none →
      (IndexingWorker.flush marshalAction marshal reply arrivals w).err = none ∧
      (IndexingWorker.flush marshalAction marshal reply arrivals w).worker.batch
        = arrivals ∧
      (arrivals = [] →
        (IndexingWorker.flush marshalAction marshal reply arrivals w).worker.batch
          = []) ∧
      (IndexingWorker.flush marshalAction marshal reply arrivals w).bulkCalls
        = [("messages", flush.bulkBody marshalAction marshal w.batch)]) ∧
    (w.batch = [] →
      (IndexingWorker.flush marshalAction marshal reply arrivals w).err = none ∧
      (IndexingWorker.flush marshalAction marshal reply arrivals w).bulkCalls = [] ∧
      (IndexingWorker.flush marshalAction marshal reply arrivals w).worker = w) := by
  refine ⟨?_, ?_, ?_⟩
  · intro hne e he
    have hlen : w.batch.length ≠ 0 := fun h => hne (List.length_eq_zero.mp h)
    simp [IndexingWorker.flush, hlen, he]
  · intro hne he
    have hlen : w.batch.length ≠ 0 := fun h => hne (List.length_eq_zero.mp h)
    simp [IndexingWorker.flush, hlen, he]
  · intro h
    simp [IndexingWorker.flush, h]

end GoWorker

namespace GoWorker

/-- C11 at a concrete run: the bulk request fails while a second payload
arrives; the drained payload is back in front of it. -/
theorem C11_flush_rollback_witness :
    (IndexingWorker.flush (fun _ => .ok "a") (fun _ => .ok "d") (.doError "timeout")
      [samplePayload 2] ⟨[samplePayload 1], 1000⟩).worker.batch
      = [samplePayload 1, samplePayload 2] :=
  ((C11_flush_rollback (fun _ => .ok "a") (fun _ => .ok "d") (.doError "timeout")
    [samplePayload 2] ⟨[samplePayload 1], 1000⟩).1 (by decide)
    "failed to execute request: timeout" rfl).2.1

theorem flush_batchSize
    (marshalAction : List (String × Payload) → Except String String)
    (marshal : Payload → Except String String) (reply : HttpResult)
    (arrivals : List IndexPayload) (w : IndexingWorker) :
    (IndexingWorker.flush marshalAction marshal reply arrivals w).worker.batchSize
      = w.batchSize := by
  unfold IndexingWorker.flush
  split
  · rfl
  · simp only
    split <;> rfl

/-- C12: `IndexingWorker.HandleMessage` on a delivery whose body does not
parse returns nil (ack), leaves the worker unchanged and issues no request.
On a delivery that parses to `p`: when the buffer with `p` appended is shorter
than the batch size, it returns nil, the buffer is the old one with `p` at its
end, and no request is issued; when it has reached the batch size, the outcome
is that of `flush` on the buffer with `p` appended, so one bulk request for the
whole buffer is issued and the result of `BulkIndex` is returned.  A bulk
request is issued if and only if the length after the append is at least the
batch size, which `NewIndexingWorker` sets to 1000 and no run changes. -/
theorem C12_indexing_handle_message
    (marshalAction : List (String × Payload) → Except String String)
    (marshal : Payload → Except String String)
    (unmarshal : String → Except String IndexPayload) (reply : HttpResult)
    (arrivals : List IndexPayload) (w : IndexingWorker) (d : Delivery) :
    (∀ e, ParseMessageBody unmarshal d = .error e →
      (IndexingWorker.HandleMessage marshalAction marshal unmarshal reply arrivals
        w d).err = none ∧
      ConsumeQueue.settle (IndexingWorker.HandleMessage marshalAction marshal
        unmarshal reply arrivals w d).err = Settlement.ack false ∧
      (IndexingWorker.HandleMessage marshalAction marshal unmarshal reply arrivals
        w d).worker = w ∧
      (IndexingWorker.HandleMessage marshalAction marshal unmarshal reply arrivals
        w d).bulkCalls = []) ∧
    (∀ p, ParseMessageBody unmarshal d = .ok p →
      (w.batch.length + 1 < w.batchSize →
        (IndexingWorker.HandleMessage marshalAction marshal unmarshal reply
          arrivals w d).err = none ∧
        (IndexingWorker.HandleMessage marshalAction marshal unmarshal reply
          arrivals w d).worker.batch = w.batch ++ [p] ∧
        (IndexingWorker.HandleMessage marshalAction marshal unmarshal reply
          arrivals w d).bulkCalls = []) ∧
      (w.batchSize ≤ w.batch.length + 1 →
        IndexingWorker.HandleMessage marshalAction marshal unmarshal reply
          arrivals w d =
          IndexingWorker.flush marshalAction marshal reply arrivals
            { w with batch := w.batch ++ [p] } ∧
        (IndexingWorker.HandleMessage marshalAction marshal unmarshal reply
          arrivals w d).bulkCalls =
          [("messages", flush.bulkBody marshalAction marshal (w.batch ++ [p]))] ∧
        (IndexingWorker.HandleMessage marshalAction marshal unmarshal reply
          arrivals w d).err = Client.BulkIndex reply) ∧
      ((IndexingWorker.HandleMessage marshalAction marshal unmarshal reply
          arrivals w d).bulkCalls ≠ [] ↔ w.batchSize ≤ w.batch.length + 1)) ∧
    NewIndexingWorker.batchSize = 1000 ∧
    (IndexingWorker.HandleMessage marshalAction marshal unmarshal reply arrivals
      w d).worker.batchSize = w.batchSize := by
  have hflush : ∀ p,
      (IndexingWorker.flush marshalAction marshal reply arrivals
          { w with batch := w.batch ++ [p] }).bulkCalls =
        [("messages", flush.bulkBody marshalAction marshal (w.batch ++ [p]))] ∧
      (IndexingWorker.flush marshalAction marshal reply arrivals
          { w with batch := w.batch ++ [p] }).err = Client.BulkIndex reply := by
    intro p
    unfold IndexingWorker.flush
    cases hb : Client.BulkIndex reply <;> simp
  refine ⟨?_, ?_, rfl, ?_⟩
  · intro e he
    simp [IndexingWorker.HandleMessage, he, ConsumeQueue.settle]
  · intro p hp
    refine ⟨?_, ?_, ?_⟩
    · intro hlt
      have : ¬ (w.batchSize ≤ w.batch.length + 1) := by omega
      simp [IndexingWorker.HandleMessage, hp, this]
    · intro hge
      have heq : IndexingWorker.HandleMessage marshalAction marshal unmarshal reply
          arrivals w d =
          IndexingWorker.flush marshalAction marshal reply arrivals
            { w with batch := w.batch ++ [p] } := by
        simp [IndexingWorker.HandleMessage, hp, hge]
      rw [heq]
      exact ⟨rfl, (hflush p).1, (hflush p).2⟩
    · by_cases hge : w.batchSize ≤ w.batch.length + 1
      · have heq : IndexingWorker.HandleMessage marshalAction marshal unmarshal
            reply arrivals w d =
            IndexingWorker.flush marshalAction marshal reply arrivals
              { w with batch := w.batch ++ [p] } := by
          simp [IndexingWorker.HandleMessage, hp, hge]
        rw [heq, (hflush p).1]
        simp [hge]
      · simp [IndexingWorker.HandleMessage, hp, hge]
  · unfold IndexingWorker.HandleMessage
    split
    · rfl
    · simp only
      split
      · rw [flush_batchSize]
      · rfl

end GoWorker

namespace GoWorker

/-- C12 at concrete runs: the first payload of a new worker is buffered without
a request; the thousandth one triggers the flush, whose result is returned. -/
theorem C12_indexing_handle_message_witness :
    (IndexingWorker.HandleMessage (fun _ => .ok "a") (fun _ => .ok "d")
      (fun _ => .ok (samplePayload 1)) (.response 200 "") [] NewIndexingWorker
      ⟨""⟩).bulkCalls = [] ∧
    (IndexingWorker.HandleMessage (fun _ => .ok "a") (fun _ => .ok "d")
      (fun _ => .ok (samplePayload 1)) (.response 503 "") []
      ⟨List.replicate 999 (samplePayload 2), 1000⟩ ⟨""⟩).err
      = Client.BulkIndex (.response 503 "") :=
  ⟨(((C12_indexing_handle_message (fun _ => .ok "a") (fun _ => .ok "d")
      (fun _ => .ok (samplePayload 1)) (.response 200 "") [] NewIndexingWorker
      ⟨""⟩).2.1 (samplePayload 1) rfl).1 (by decide)).2.2,
   (((C12_indexing_handle_message (fun _ => .ok "a") (fun _ => .ok "d")
      (fun _ => .ok (samplePayload 1)) (.response 503 "") []
      ⟨List.replicate 999 (samplePayload 2), 1000⟩ ⟨""⟩).2.1 (samplePayload 1)
      rfl).2.1 (by
        show 1000 ≤ (List.replicate 999 (samplePayload 2)).length + 1
        rw [List.length_replicate])).2.2⟩

/-! ### The bulk body -/

theorem bulkBody_foldl
    (marshalAction : List (String × Payload) → Except String String)
    (marshal : Payload → Except String String) (messages : List IndexPayload) :
    ∀ acc : String,
      messages.foldl
        (fun bulkBody msg =>
          bulkBody ++ jsonString (marshalAction (flush.action msg)) ++ "\n" ++
            jsonString (marshal (flush.doc msg)) ++ "\n") acc =
      acc ++ joinLines (flush.bulkLines marshalAction marshal messages) := by
  induction messages with
  | nil => intro acc; simp [flush.bulkLines, joinLines]
  | cons m ms ih =>
    intro acc
    simp only [List.foldl_cons]
    rw [ih]
    simp [flush.bulkLines, joinLines, String.append_assoc]

theorem bulkBody_eq_joinLines
    (marshalAction : List (String × Payload) → Except String String)
    (marshal : Payload → Except String String) (messages : List IndexPayload) :
    flush.bulkBody marshalAction marshal messages =
      joinLines (flush.bulkLines marshalAction marshal messages) := by
  unfold flush.bulkBody
  rw [bulkBody_foldl]
  simp

theorem bulkLines_length
    (marshalAction : List (String × Payload) → Except String String)
    (marshal : Payload → Except String String) (messages : List IndexPayload) :
    (flush.bulkLines marshalAction marshal messages).length = 2 * messages.length := by
  induction messages with
  | nil => rfl
  | cons m ms ih =>
    simp only [flush.bulkLines, List.length_cons] at ih ⊢
    omega

theorem bulkLines_get
    (marshalAction : List (String × Payload) → Except String String)
    (marshal : Payload → Except String String) (messages : List IndexPayload) :
    ∀ (i : Nat) (msg : IndexPayload), messages[i]? = some msg →
      (flush.bulkLines marshalAction marshal messages)[2 * i]? =
        some (jsonString (marshalAction (flush.action msg))) ∧
      (flush.bulkLines marshalAction marshal messages)[2 * i + 1]? =
        some (jsonString (marshal (flush.doc msg))) := by
  induction messages with
  | nil => intro i msg h; simp at h
  | cons m ms ih =>
    intro i msg h
    cases i with
    | zero =>
      simp only [List.getElem?_cons_zero, Option.some.injEq] at h
      subst h
      simp [flush.bulkLines]
    | succ j =>
      simp only [List.getElem?_cons_succ] at h
      have := ih j msg h
      have e1 : 2 * (j + 1) = (2 * j) + 1 + 1 := by ring
      have e2 : 2 * (j + 1) + 1 = (2 * j + 1) + 1 + 1 := by ring
      rw [e2, e1]
      simpa [flush.bulkLines] using this

end GoWorker

namespace GoWorker

theorem splitChars_ne_nil (sep : Char) (s : List Char) : splitChars sep s ≠ [] := by
  cases s with
  | nil => simp [splitChars]
  | cons c cs =>
    unfold splitChars
    split
    · simp
    · split <;> simp

theorem splitChars_no_sep (sep : Char) (l : List Char) (h : sep ∉ l) :
    splitChars sep l = [l] := by
  induction l with
  | nil => rfl
  | cons c cs ih =>
    have hc : c ≠ sep := fun e => h (by simp [e])
    have hcs : sep ∉ cs := fun e => h (List.mem_cons_of_mem _ e)
    simp [splitChars, hc, ih hcs]

theorem splitChars_append (sep : Char) (l rest : List Char) (h : sep ∉ l) :
    splitChars sep (l ++ sep :: rest) = l :: splitChars sep rest := by
  induction l with
  | nil => simp [splitChars]
  | cons c cs ih =>
    have hc : c ≠ sep := fun e => h (by simp [e])
    have hcs : sep ∉ cs := fun e => h (List.mem_cons_of_mem _ e)
    simp [splitChars, hc, ih hcs]

theorem splitChars_joinLines (lines : List String)
    (h : ∀ l, l ∈ lines → '\n' ∉ l.data) :
    splitChars '\n' (joinLines lines).data = lines.map String.data ++ [[]] := by
  induction lines with
  | nil => rfl
  | cons l ls ih =>
    have h1 : '\n' ∉ l.data := h l (by simp)
    have h2 : ∀ x, x ∈ ls → '\n' ∉ x.data := fun x hx => h x (List.mem_cons_of_mem _ hx)
    have hd : (joinLines (l :: ls)).data = l.data ++ '\n' :: (joinLines ls).data := by
      simp [joinLines, String.data_append]
    rw [hd, splitChars_append _ _ _ h1, ih h2]
    simp

/-- C14: the bulk body that `flush` builds for a batch of n payloads is its 2n
lines, each followed by a newline: for the i-th payload (counting from 0) line
2i is the JSON of the action `index` with `_id` and `routing`, line 2i + 1 is
the JSON of its source document, in buffer order; cutting the body at the
newlines gives back exactly these lines when no JSON text holds a newline.  The
source document has exactly the six fields application_token,
application_name, chat_number, message_number, content, created_at, so
message_id, application_id and chat_id are not in it.  This is the body `flush`
sends. -/
theorem C14_bulk_body_lines
    (marshalAction : List (String × Payload) → Except String String)
    (marshal : Payload → Except String String) (messages : List IndexPayload) :
    flush.bulkBody marshalAction marshal messages =
      joinLines (flush.bulkLines marshalAction marshal messages) ∧
    (flush.bulkLines marshalAction marshal messages).length = 2 * messages.length ∧
    (∀ (i : Nat) (msg : IndexPayload), messages[i]? = some msg →
      (flush.bulkLines marshalAction marshal messages)[2 * i]? =
        some (jsonString (marshalAction
          [("index", [("_id", .str (flush.docID msg)),
                      ("routing", .str (flush.routing msg))])])) ∧
      (flush.bulkLines marshalAction marshal messages)[2 * i + 1]? =
        some (jsonString (marshal (flush.doc msg))) ∧
      (flush.doc msg).map Prod.fst =
        ["application_token", "application_name", "chat_number",
         "message_number", "content", "created_at"]) ∧
    ((∀ l, l ∈ flush.bulkLines marshalAction marshal messages → '\n' ∉ l.data) →
      splitChars '\n' (flush.bulkBody marshalAction marshal messages).data =
        (flush.bulkLines marshalAction marshal messages).map String.data ++ [[]]) ∧
    (∀ (reply : HttpResult) (arrivals : List IndexPayload) (batchSize : Nat),
      messages ≠ [] →
      (IndexingWorker.flush marshalAction marshal reply arrivals
        ⟨messages, batchSize⟩).bulkCalls =
        [("messages", flush.bulkBody marshalAction marshal messages)]) := by
  refine ⟨bulkBody_eq_joinLines _ _ _, bulkLines_length _ _ _, ?_, ?_, ?_⟩
  · intro i msg h
    have := bulkLines_get marshalAction marshal messages i msg h
    exact ⟨this.1, this.2, rfl⟩
  · intro h
    rw [bulkBody_eq_joinLines]
    exact splitChars_joinLines _ h
  · intro reply arrivals batchSize hne
    have hlen : messages.length ≠ 0 := fun h => hne (List.length_eq_zero.mp h)
    unfold IndexingWorker.flush
    cases Client.BulkIndex reply <;> simp [hlen]

/-- C14 at a concrete batch of two payloads: four lines, and the body cut at
the newlines. -/
theorem C14_bulk_body_lines_witness :
    (flush.bulkLines (fun _ => .ok "a") (fun _ => .ok "d")
      [samplePayload 1, samplePayload 2])[2 * 1 + 1]? = some "d" ∧
    splitChars '\n' (flush.bulkBody (fun _ => .ok "a") (fun _ => .ok "d")
      [samplePayload 1, samplePayload 2]).data =
      ["a".data, "d".data, "a".data, "d".data, []] :=
  ⟨((C14_bulk_body_lines (fun _ => .ok "a") (fun _ => .ok "d")
      [samplePayload 1, samplePayload 2]).2.2.1 1 (samplePayload 2) rfl).2.1,
   (C14_bulk_body_lines (fun _ => .ok "a") (fun _ => .ok "d")
      [samplePayload 1, samplePayload 2]).2.2.2.1 (by decide)⟩

end GoWorker

namespace GoWorker

theorem flush_sends_bulkBody
    (marshalAction : List (String × Payload) → Except String String)
    (marshal : Payload → Except String String) (reply : HttpResult)
    (arrivals : List IndexPayload) (w : IndexingWorker) (h : w.batch ≠ []) :
    (IndexingWorker.flush marshalAction marshal reply arrivals w).bulkCalls =
      [("messages", flush.bulkBody marshalAction marshal w.batch)] := by
  have hlen : w.batch.length ≠ 0 := fun h0 => h (List.length_eq_zero.mp h0)
  unfold IndexingWorker.flush
  cases Client.BulkIndex reply <;> simp [hlen]

theorem bulkLines_no_newline
    (marshalAction : List (String × Payload) → Except String String)
    (marshal : Payload → Except String String) (messages : List IndexPayload)
    (hnl : ∀ m, m ∈ messages →
      '\n' ∉ (jsonString (marshalAction (flush.action m))).data ∧
      '\n' ∉ (jsonString (marshal (flush.doc m))).data) :
    ∀ l, l ∈ flush.bulkLines marshalAction marshal messages → '\n' ∉ l.data := by
  induction messages with
  | nil => intro l hl; simp [flush.bulkLines] at hl
  | cons m ms ih =>
    intro l hl
    simp only [flush.bulkLines, List.mem_cons] at hl
    rcases hl with hl | hl | hl
    · rw [hl]; exact (hnl m (by simp)).1
    · rw [hl]; exact (hnl m (by simp)).2
    · exact ih (fun x hx => hnl x (List.mem_cons_of_mem _ hx)) l hl

/-- The action line of the i-th payload in the body that `flush` sends. -/
theorem flush_sent_action_line
    (marshalAction : List (String × Payload) → Except String String)
    (marshal : Payload → Except String String) (messages : List IndexPayload)
    (hnl : ∀ m, m ∈ messages →
      '\n' ∉ (jsonString (marshalAction (flush.action m))).data ∧
      '\n' ∉ (jsonString (marshal (flush.doc m))).data)
    (i : Nat) (msg : IndexPayload) (h : messages[i]? = some msg) :
    (splitChars '\n' (flush.bulkBody marshalAction marshal messages).data)[2 * i]? =
      some (jsonString (marshalAction (flush.action msg))).data := by
  rw [bulkBody_eq_joinLines,
    splitChars_joinLines _ (bulkLines_no_newline marshalAction marshal messages hnl)]
  have hi : i < messages.length := by
    rcases Nat.lt_or_ge i messages.length with hlt | hge
    · exact hlt
    · rw [List.getElem?_eq_none hge] at h; cases h
  have hlt : 2 * i <
      ((flush.bulkLines marshalAction marshal messages).map String.data).length := by
    rw [List.length_map, bulkLines_length]
    omega
  rw [List.getElem?_append_left hlt, List.getElem?_map,
    (bulkLines_get marshalAction marshal messages i msg h).1]
  rfl

/-- C13: `flush` on a buffer sends one bulk request whose body, cut at the
newlines, has as line 2i the action of the i-th buffered payload (no JSON text
of the batch holding a newline): the JSON of `index` with the id
"<application_token>:<chat_number>:<message_number>" and the routing
"<application_token>:<chat_number>".  Two buffered payloads with the same token
and chat number get action lines with one and the same routing string; and that
routing string is what `Client.Search` of the ingestion API, called with the
token and chat number of the payload, appends to the search URL after
`routing=`. -/
theorem C13_document_id_and_routing
    (marshalAction : List (String × Payload) → Except String String)
    (marshal : Payload → Except String String) (reply : HttpResult)
    (arrivals : List IndexPayload) (w : IndexingWorker)
    (hnl : ∀ m, m ∈ w.batch →
      '\n' ∉ (jsonString (marshalAction (flush.action m))).data ∧
      '\n' ∉ (jsonString (marshal (flush.doc m))).data) :
    (∀ (i : Nat) (msg : IndexPayload), w.batch[i]? = some msg →
      ∃ body : String,
        (IndexingWorker.flush marshalAction marshal reply arrivals w).bulkCalls =
          [("messages", body)] ∧
        (splitChars '\n' body.data)[2 * i]? =
          some (jsonString (marshalAction
            [("index",
              [("_id", .str (msg.ApplicationToken ++ ":" ++
                  toString msg.ChatNumber ++ ":" ++ toString msg.MessageNumber)),
               ("routing", .str (msg.ApplicationToken ++ ":" ++
                  toString msg.ChatNumber))])])).data) ∧
    (∀ (i j : Nat) (m1 m2 : IndexPayload), w.batch[i]? = some m1 →
      w.batch[j]? = some m2 → m1.ApplicationToken = m2.ApplicationToken →
      m1.ChatNumber = m2.ChatNumber →
      ∃ body routing : String,
        (IndexingWorker.flush marshalAction marshal reply arrivals w).bulkCalls =
          [("messages", body)] ∧
        (splitChars '\n' body.data)[2 * i]? =
          some (jsonString (marshalAction
            [("index", [("_id", .str (flush.docID m1)),
                        ("routing", .str routing)])])).data ∧
        (splitChars '\n' body.data)[2 * j]? =
          some (jsonString (marshalAction
            [("index", [("_id", .str (flush.docID m2)),
                        ("routing", .str routing)])])).data) ∧
    (∀ (i : Nat) (msg : IndexPayload) (baseURL : String)
        (searchReply : GoChat.SearchReply) (query : String) (page pageSize : Int),
      w.batch[i]? = some msg →
      ∃ body routing : String,
        (IndexingWorker.flush marshalAction marshal reply arrivals w).bulkCalls =
          [("messages", body)] ∧
        (splitChars '\n' body.data)[2 * i]? =
          some (jsonString (marshalAction
            [("index", [("_id", .str (flush.docID msg)),
                        ("routing", .str routing)])])).data ∧
        (GoChat.Client.Search baseURL searchReply msg.ApplicationToken
          msg.ChatNumber query page pageSize).1.url =
          baseURL ++ "/messages/_search?routing=" ++ routing ∧
        (GoChat.Client.Search baseURL searchReply msg.ApplicationToken
          msg.ChatNumber query page pageSize).1.routing = routing) := by
  have hne : ∀ (i : Nat) (msg : IndexPayload), w.batch[i]? = some msg →
      w.batch ≠ [] := by
    intro i msg h hnil
    rw [hnil] at h
    simp at h
  refine ⟨?_, ?_, ?_⟩
  · intro i msg h
    exact ⟨_, flush_sends_bulkBody marshalAction marshal reply arrivals w
      (hne i msg h), flush_sent_action_line marshalAction marshal w.batch hnl i msg h⟩
  · intro i j m1 m2 h1 h2 ht hc
    refine ⟨_, flush.routing m1,
      flush_sends_bulkBody marshalAction marshal reply arrivals w (hne i m1 h1),
      flush_sent_action_line marshalAction marshal w.batch hnl i m1 h1, ?_⟩
    have hr : flush.routing m1 = flush.routing m2 := by
      simp [flush.routing, ht, hc]
    rw [hr]
    exact flush_sent_action_line marshalAction marshal w.batch hnl j m2 h2
  · intro i msg baseURL searchReply query page pageSize h
    exact ⟨_, flush.routing msg,
      flush_sends_bulkBody marshalAction marshal reply arrivals w (hne i msg h),
      flush_sent_action_line marshalAction marshal w.batch hnl i msg h, rfl, rfl⟩

/-- C13 at a concrete buffer: `flush` on messages 1 and 2 of chat 1 of `tok1`
sends a body whose third line is the action of message 2, with id `tok1:1:2`
and routing `tok1:1`. -/
theorem C13_document_id_and_routing_witness :
    (∃ body : String,
      (IndexingWorker.flush sampleMarshalAction (fun _ => .ok "d")
        (.response 200 "") [] ⟨[samplePayload 1, samplePayload 2], 1000⟩).bulkCalls
        = [("messages", body)] ∧
      (splitChars '\n' body.data)[2 * 1]? = some "tok1:1:2 tok1:1".data) ∧
    (IndexingWorker.flush sampleMarshalAction (fun _ => .ok "d")
      (.response 200 "") [] ⟨[samplePayload 1, samplePayload 2], 1000⟩).bulkCalls
      = [("messages", "tok1:1:1 tok1:1\nd\ntok1:1:2 tok1:1\nd\n")] :=
  ⟨(C13_document_id_and_routing sampleMarshalAction (fun _ => .ok "d")
    (.response 200 "") [] ⟨[samplePayload 1, samplePayload 2], 1000⟩
    (by decide)).1 1 (samplePayload 2) rfl, by decide⟩

end GoWorker

/-! ## Printing and reading unsigned numbers -/

theorem digitValue_digitChar (m : Nat) (h : m < 10) :
    digitValue (Nat.digitChar m) = some m := by
  interval_cases m <;> rfl

theorem parseDigits_toDigitsCore (fuel : Nat) :
    ∀ n, n < fuel → ∃ k, ∀ (ds : List Char) (acc : Nat),
      parseDigits (Nat.toDigitsCore 10 fuel n ds) acc =
        parseDigits ds (acc * 10 ^ k + n) := by
  induction fuel with
  | zero => intro n h; omega
  | succ f ih =>
    intro n hn
    by_cases h0 : n / 10 = 0
    · refine ⟨1, ?_⟩
      intro ds acc
      have hlt : n < 10 := by omega
      have hmod : n % 10 = n := Nat.mod_eq_of_lt hlt
      simp [Nat.toDigitsCore, h0, parseDigits, hmod, digitValue_digitChar n hlt]
    · have hlt : n / 10 < f := by omega
      obtain ⟨k, hk⟩ := ih (n / 10) hlt
      refine ⟨k + 1, ?_⟩
      intro ds acc
      have hd := digitValue_digitChar (n % 10) (Nat.mod_lt _ (by decide))
      simp only [Nat.toDigitsCore, h0, if_false, hk, parseDigits, hd]
      congr 1
      have := Nat.div_add_mod n 10
      rw [pow_succ]
      nlinarith [Nat.div_add_mod n 10]

theorem toDigitsCore_chars (fuel : Nat) :
    ∀ (n : Nat) (ds : List Char) (c : Char),
      c ∈ Nat.toDigitsCore 10 fuel n ds → c ∈ ds ∨ (digitValue c).isSome = true := by
  induction fuel with
  | zero => intro n ds c h; exact Or.inl h
  | succ f ih =>
    intro n ds c h
    have hd := digitValue_digitChar (n % 10) (Nat.mod_lt _ (by decide))
    by_cases h0 : n / 10 = 0
    · simp only [Nat.toDigitsCore, h0, if_true, List.mem_cons] at h
      rcases h with h | h
      · right; rw [h, hd]; rfl
      · exact Or.inl h
    · simp only [Nat.toDigitsCore, h0, if_false] at h
      rcases ih _ _ _ h with h | h
      · rcases List.mem_cons.mp h with h | h
        · right; rw [h, hd]; rfl
        · exact Or.inl h
      · exact Or.inr h

theorem toDigitsCore_ne_nil (fuel n : Nat) (ds : List Char) :
    Nat.toDigitsCore 10 (fuel + 1) n ds ≠ [] := by
  induction fuel generalizing n ds with
  | zero =>
    simp only [Nat.toDigitsCore]
    split <;> simp
  | succ f ih =>
    rw [Nat.toDigitsCore]
    by_cases h0 : n / 10 = 0
    · simp [h0]
    · simp only [h0, if_false]
      exact ih _ _

theorem toString_nat_data (n : Nat) : (toString n).data = Nat.toDigits 10 n := rfl

theorem parseDigits_toDigits (n : Nat) : parseDigits (Nat.toDigits 10 n) 0 = some n := by
  obtain ⟨k, hk⟩ := parseDigits_toDigitsCore (n + 1) n (Nat.lt_succ_self n)
  have := hk [] 0
  simpa [Nat.toDigits, parseDigits] using this

theorem toDigits_no_colon (n : Nat) : ':' ∉ Nat.toDigits 10 n := by
  intro h
  rcases toDigitsCore_chars (n + 1) n [] ':' h with h | h
  · simp at h
  · exact absurd h (by decide)

theorem ParseUint_toDigits (n : Nat) (h : n < 2 ^ 64) :
    ParseUint (Nat.toDigits 10 n) = .ok n := by
  have hne : Nat.toDigits 10 n ≠ [] := toDigitsCore_ne_nil n n []
  cases hd : Nat.toDigits 10 n with
  | nil => exact absurd hd hne
  | cons c cs =>
    have hp := parseDigits_toDigits n
    rw [hd] at hp
    have h2 : n < 18446744073709551616 := by norm_num at h; exact h
    simp [ParseUint, hp, h2]

namespace GoWorker

/-- The keys the consumers write are read back by the reconciler: the id
extraction returns the id that was printed into the key. -/
theorem extractID_deltaChatsKey (id : Nat) (h : id < 2 ^ 64) :
    extractID (deltaChatsKey id) = .ok id := by
  have hd : (deltaChatsKey id).data =
      "delta".data ++ ':' :: ("app".data ++ ':' ::
        (Nat.toDigits 10 id ++ ':' :: "chats".data)) := by
    simp [deltaChatsKey, String.data_append, toString_nat_data]
  unfold extractID
  rw [hd, splitChars_append _ _ _ (by decide), splitChars_append _ _ _ (by decide),
    splitChars_append _ _ _ (toDigits_no_colon id),
    splitChars_no_sep _ _ (by decide)]
  exact ParseUint_toDigits id h

theorem extractID_deltaMessagesKey (id : Nat) (h : id < 2 ^ 64) :
    extractID (deltaMessagesKey id) = .ok id := by
  have hd : (deltaMessagesKey id).data =
      "delta".data ++ ':' :: ("chat".data ++ ':' ::
        (Nat.toDigits 10 id ++ ':' :: "messages".data)) := by
    simp [deltaMessagesKey, String.data_append, toString_nat_data]
  unfold extractID
  rw [hd, splitChars_append _ _ _ (by decide), splitChars_append _ _ _ (by decide),
    splitChars_append _ _ _ (toDigits_no_colon id),
    splitChars_no_sep _ _ (by decide)]
  exact ParseUint_toDigits id h

end GoWorker

/-! ## Key-value store lemmas for the reconciler -/

theorem Redis.get_del_self (r : Redis) (key : String) :
    Redis.Get (Redis.Del r key) key = none := by
  induction r with
  | nil => rfl
  | cons kv rest ih =>
    obtain ⟨k, v⟩ := kv
    by_cases h : k = key
    · simp [Redis.Del, h, ih]
    · simp [Redis.Del, h, Redis.Get, ih]

theorem Redis.get_del_other (r : Redis) (key key2 : String) (hne : key ≠ key2) :
    Redis.Get (Redis.Del r key) key2 = Redis.Get r key2 := by
  induction r with
  | nil => rfl
  | cons kv rest ih =>
    obtain ⟨k, v⟩ := kv
    by_cases h : k = key
    · subst h
      simp [Redis.Del, Redis.Get, ih, hne]
    · simp [Redis.Del, h, Redis.Get, ih]

theorem Redis.get_incrBy_self (r : Redis) (key : String) (d : Int) :
    Redis.Get (Redis.IncrBy r key d) key = some ((Redis.Get r key).getD 0 + d) := by
  simp [Redis.IncrBy, Redis.get_set]

namespace GoWorker

/-! ## The reconciler -/

theorem find_application_map (l : List Application) (appID : Nat) (delta c : Int)
    (h : (l.find? fun a => a.ID = appID).map (·.ChatsCount) = some c) :
    ((l.map fun a =>
        if a.ID = appID then { a with ChatsCount := a.ChatsCount + delta } else a).find?
      fun a => a.ID = appID).map (·.ChatsCount) = some (c + delta) := by
  induction l with
  | nil => simp at h
  | cons a rest ih =>
    by_cases ha : a.ID = appID
    · simp only [List.find?_cons, ha, decide_True, Option.map_some', Option.some.injEq]
        at h
      simp [List.find?_cons, ha, h]
    · simp only [List.find?_cons, ha, decide_False] at h
      simp only [List.map_cons, ha, if_false, List.find?_cons, decide_False]
      exact ih h

theorem find_chat_map (l : List Chat) (chatID : Nat) (delta c : Int)
    (h : (l.find? fun a => a.ID = chatID).map (·.MessagesCount) = some c) :
    ((l.map fun a =>
        if a.ID = chatID then { a with MessagesCount := a.MessagesCount + delta }
        else a).find?
      fun a => a.ID = chatID).map (·.MessagesCount) = some (c + delta) := by
  induction l with
  | nil => simp at h
  | cons a rest ih =>
    by_cases ha : a.ID = chatID
    · simp only [List.find?_cons, ha, decide_True, Option.map_some', Option.some.injEq]
        at h
      simp [List.find?_cons, ha, h]
    · simp only [List.find?_cons, ha, decide_False] at h
      simp only [List.map_cons, ha, if_false, List.find?_cons, decide_False]
      exact ih h

theorem chatsCountOf_increment (db : Db) (appID : Nat) (delta c : Int)
    (h : db.chatsCountOf appID = some c) :
    (Repository.IncrementApplicationChatCount none db appID delta).1.chatsCountOf appID
      = some (c + delta) :=
  find_application_map db.applications appID delta c h

theorem messagesCountOf_increment (db : Db) (chatID : Nat) (delta c : Int)
    (h : db.messagesCountOf chatID = some c) :
    (Repository.IncrementChatMessageCount none db chatID delta).1.messagesCountOf chatID
      = some (c + delta) :=
  find_chat_map db.chats chatID delta c h

end GoWorker

namespace GoWorker

/-- C15: `processKey` on the key `delta:app:<id>:chats` (first part) or
`delta:chat:<id>:messages` (second part) that holds a non-zero value d, for an
id in the `uint` range whose row exists with counter c, the script reaching the
store.  When the UPDATE succeeds, `processKey` returns nil, the counter is
c + d and the key is gone.  When the UPDATE fails, `processKey` returns an
error, the relational store is unchanged, `INCRBY key d` is called, and the key
holds d again when the store takes that command.  In both cases the counter
plus the value of the key is c + d, as before. -/
theorem C15_processKey_preserves_accounting
    (env : ReconEnv) (w : World) (id : Nat) (d c : Int)
    (hid : id < 2 ^ 64) (hd : d ≠ 0) :
    (Redis.Get w.redis (deltaChatsKey id) = some d →
      env.evalErr (deltaChatsKey id) = none →
      w.db.chatsCountOf id = some c →
      (env.updateErr "application" id = none →
        (processKey env w (deltaChatsKey id) appChatConfig).err = none ∧
        (processKey env w (deltaChatsKey id) appChatConfig).world.db.chatsCountOf id
          = some (c + d) ∧
        Redis.Get (processKey env w (deltaChatsKey id) appChatConfig).world.redis
          (deltaChatsKey id) = none) ∧
      (∀ e, env.updateErr "application" id = some e →
        (processKey env w (deltaChatsKey id) appChatConfig).err ≠ none ∧
        (processKey env w (deltaChatsKey id) appChatConfig).world.db = w.db ∧
        (processKey env w (deltaChatsKey id) appChatConfig).calls =
          [.getDel (deltaChatsKey id), .update "application" id d,
           .incrBy (deltaChatsKey id) d] ∧
        (env.incrByErr (deltaChatsKey id) = none →
          Redis.Get (processKey env w (deltaChatsKey id) appChatConfig).world.redis
            (deltaChatsKey id) = some d)) ∧
      ((env.updateErr "application" id = none ∨
          env.incrByErr (deltaChatsKey id) = none) →
        ((processKey env w (deltaChatsKey id)
            appChatConfig).world.db.chatsCountOf id).getD 0 +
          (Redis.Get (processKey env w (deltaChatsKey id) appChatConfig).world.redis
            (deltaChatsKey id)).getD 0 = c + d)) ∧
    (Redis.Get w.redis (deltaMessagesKey id) = some d →
      env.evalErr (deltaMessagesKey id) = none →
      w.db.messagesCountOf id = some c →
      (env.updateErr "chat" id = none →
        (processKey env w (deltaMessagesKey id) chatMessageConfig).err = none ∧
        (processKey env w (deltaMessagesKey id)
          chatMessageConfig).world.db.messagesCountOf id = some (c + d) ∧
        Redis.Get (processKey env w (deltaMessagesKey id) chatMessageConfig).world.redis
          (deltaMessagesKey id) = none) ∧
      (∀ e, env.updateErr "chat" id = some e →
        (processKey env w (deltaMessagesKey id) chatMessageConfig).err ≠ none ∧
        (processKey env w (deltaMessagesKey id) chatMessageConfig).world.db = w.db ∧
        (processKey env w (deltaMessagesKey id) chatMessageConfig).calls =
          [.getDel (deltaMessagesKey id), .update "chat" id d,
           .incrBy (deltaMessagesKey id) d] ∧
        (env.incrByErr (deltaMessagesKey id) = none →
          Redis.Get (processKey env w (deltaMessagesKey id)
            chatMessageConfig).world.redis (deltaMessagesKey id) = some d)) ∧
      ((env.updateErr "chat" id = none ∨
          env.incrByErr (deltaMessagesKey id) = none) →
        ((processKey env w (deltaMessagesKey id)
            chatMessageConfig).world.db.messagesCountOf id).getD 0 +
          (Redis.Get (processKey env w (deltaMessagesKey id)
            chatMessageConfig).world.redis (deltaMessagesKey id)).getD 0 = c + d)) := by
  refine ⟨?_, ?_⟩
  · intro hval heval hrow
    have hx := extractID_deltaChatsKey id hid
    cases hu : env.updateErr "application" id with
    | none =>
      have hrun : processKey env w (deltaChatsKey id) appChatConfig =
          ⟨{ w with
              db := (Repository.IncrementApplicationChatCount none w.db id d).1,
              redis := Redis.Del w.redis (deltaChatsKey id) },
            [.getDel (deltaChatsKey id), .update "application" id d], none⟩ := by
        simp [processKey, atomicGetDel, heval, hval, hd, appChatConfig, hx, hu,
          Repository.IncrementApplicationChatCount]
      have hcnt := chatsCountOf_increment w.db id d c hrow
      rw [hrun]
      refine ⟨fun _ => ⟨rfl, hcnt, Redis.get_del_self _ _⟩, ?_, ?_⟩
      · intro e he; exact absurd he (by simp)
      · intro _
        simp only [hcnt, Redis.get_del_self, Option.getD_some, Option.getD_none]
        omega
    | some e0 =>
      have hrun : processKey env w (deltaChatsKey id) appChatConfig =
          ⟨{ w with
              redis := match env.incrByErr (deltaChatsKey id) with
                | some _ => Redis.Del w.redis (deltaChatsKey id)
                | none => Redis.IncrBy (Redis.Del w.redis (deltaChatsKey id))
                    (deltaChatsKey id) d },
            [.getDel (deltaChatsKey id), .update "application" id d,
             .incrBy (deltaChatsKey id) d],
            some ("failed to update application " ++ toString id ++ ": " ++ e0)⟩ := by
        simp [processKey, atomicGetDel, heval, hval, hd, appChatConfig, hx, hu,
          Repository.IncrementApplicationChatCount, String.append_assoc]
      rw [hrun]
      refine ⟨fun h => absurd h (by simp), ?_, ?_⟩
      · intro e _
        refine ⟨by simp, rfl, rfl, ?_⟩
        intro hi
        simp [hi, Redis.get_incrBy_self, Redis.get_del_self]
      · intro h
        rcases h with h | h
        · exact absurd h (by simp)
        · simp [h, hrow, Redis.get_incrBy_self, Redis.get_del_self]
  · intro hval heval hrow
    have hx := extractID_deltaMessagesKey id hid
    cases hu : env.updateErr "chat" id with
    | none =>
      have hrun : processKey env w (deltaMessagesKey id) chatMessageConfig =
          ⟨{ w with
              db := (Repository.IncrementChatMessageCount none w.db id d).1,
              redis := Redis.Del w.redis (deltaMessagesKey id) },
            [.getDel (deltaMessagesKey id), .update "chat" id d], none⟩ := by
        simp [processKey, atomicGetDel, heval, hval, hd, chatMessageConfig, hx, hu,
          Repository.IncrementChatMessageCount]
      have hcnt := messagesCountOf_increment w.db id d c hrow
      rw [hrun]
      refine ⟨fun _ => ⟨rfl, hcnt, Redis.get_del_self _ _⟩, ?_, ?_⟩
      · intro e he; exact absurd he (by simp)
      · intro _
        simp only [hcnt, Redis.get_del_self, Option.getD_some, Option.getD_none]
        omega
    | some e0 =>
      have hrun : processKey env w (deltaMessagesKey id) chatMessageConfig =
          ⟨{ w with
              redis := match env.incrByErr (deltaMessagesKey id) with
                | some _ => Redis.Del w.redis (deltaMessagesKey id)
                | none => Redis.IncrBy (Redis.Del w.redis (deltaMessagesKey id))
                    (deltaMessagesKey id) d },
            [.getDel (deltaMessagesKey id), .update "chat" id d,
             .incrBy (deltaMessagesKey id) d],
            some ("failed to update chat " ++ toString id ++ ": " ++ e0)⟩ := by
        simp [processKey, atomicGetDel, heval, hval, hd, chatMessageConfig, hx, hu,
          Repository.IncrementChatMessageCount, String.append_assoc]
      rw [hrun]
      refine ⟨fun h => absurd h (by simp), ?_, ?_⟩
      · intro e _
        refine ⟨by simp, rfl, rfl, ?_⟩
        intro hi
        simp [hi, Redis.get_incrBy_self, Redis.get_del_self]
      · intro h
        rcases h with h | h
        · exact absurd h (by simp)
        · simp [h, hrow, Redis.get_incrBy_self, Redis.get_del_self]

end GoWorker

namespace GoWorker

/-- C15 on the sample store: three unreconciled chats of application 7 are
folded into its counter and the key is gone. -/
theorem C15_processKey_preserves_accounting_witness :
    (processKey ReconEnv.ok ⟨sampleDb, [("delta:app:7:chats", 3)], []⟩
      (deltaChatsKey 7) appChatConfig).world.db.chatsCountOf 7 = some (0 + 3) ∧
    Redis.Get (processKey ReconEnv.ok ⟨sampleDb, [("delta:app:7:chats", 3)], []⟩
      (deltaChatsKey 7) appChatConfig).world.redis (deltaChatsKey 7) = none :=
  have h := ((C15_processKey_preserves_accounting ReconEnv.ok
    ⟨sampleDb, [("delta:app:7:chats", 3)], []⟩ 7 3 0 (by decide) (by decide)).1
    (by decide) rfl (by decide)).1 rfl
  ⟨h.2.1, h.2.2⟩

theorem processKey_getDel (env : ReconEnv) (w : World) (key : String)
    (config : reconcileConfig) :
    ReconCall.getDel key ∈ (processKey env w key config).calls := by
  unfold processKey
  split
  · simp
  · split
    · simp
    · split
      · simp
      · split <;> simp

theorem processKeys_getDel (env : ReconEnv) (config : reconcileConfig)
    (keys : List String) :
    ∀ (w : World) (key : String), key ∈ keys →
      ReconCall.getDel key ∈ (processKeys env config w keys).2 := by
  induction keys with
  | nil => intro w key h; simp at h
  | cons k ks ih =>
    intro w key h
    simp only [processKeys, List.mem_append]
    rcases List.mem_cons.mp h with h | h
    · left; rw [h]; exact processKey_getDel env w k config
    · right; exact ih _ key h

theorem reconcileEntity_calls (env : ReconEnv) (w : World) (config : reconcileConfig) :
    ReconCall.scan config.pattern ∈ (reconcileEntity env w config).calls ∧
    (env.scanErr config.pattern = none →
      ∀ key, key ∈ Redis.Scan w.redis config.pattern →
        ReconCall.getDel key ∈ (reconcileEntity env w config).calls) := by
  unfold reconcileEntity scanKeys
  cases hs : env.scanErr config.pattern with
  | some e => simp
  | none =>
    refine ⟨by simp, ?_⟩
    intro _ key hk
    simp only [List.mem_cons]
    right
    exact processKeys_getDel env config _ w key hk

/-- The inner `reconcile` of `Stop` runs while `Stop` itself holds the lock, so
it never gets past its own `acquireLock`: whatever the faults and the state,
`Stop` leaves the relational store as it is and makes no call other than the
`SetNX` and `Del` on the lock key. -/
theorem Stop_does_not_reconcile (lockErr releaseErr : Option String)
    (env : ReconEnv) (w : World) :
    (ReconciliationWorker.Stop lockErr releaseErr env w).1.db = w.db ∧
    ∀ call, call ∈ (ReconciliationWorker.Stop lockErr releaseErr env w).2 →
      call = ReconCall.setNX lockKey lockTTL ∨ call = ReconCall.del lockKey := by
  unfold ReconciliationWorker.Stop acquireLock
  cases lockErr with
  | some e => simp
  | none =>
    simp only
    cases hg : Redis.Get w.redis lockKey with
    | some v => simp [Redis.SetNX, hg]
    | none =>
      have hheld : Redis.Get (Redis.Set w.redis lockKey 1) lockKey = some 1 := by
        simp [Redis.get_set]
      cases hs : env.setNXErr with
      | some e => simp [Redis.SetNX, hg, reconcile, acquireLock, hs]
      | none => simp [Redis.SetNX, hg, reconcile, acquireLock, hs, hheld]

/-- C16, the code at the failing input: `lock:reconciliation` is free, three
chat creations of application 7 and two messages of chat 3 wait in their delta
keys, no collaborator fails.  `Stop` takes the lock, its `reconcile` finds the
lock taken and skips, and `Stop` releases the lock: the counters are still 0
and both delta keys are still there. -/
theorem C16_stop_skips_final_reconcile :
    (ReconciliationWorker.Stop none none ReconEnv.ok
      ⟨sampleDb, [("delta:app:7:chats", 3), ("delta:chat:3:messages", 2)], []⟩).2
      = [.setNX "lock:reconciliation" 15, .setNX "lock:reconciliation" 15,
         .del "lock:reconciliation"] ∧
    (ReconciliationWorker.Stop none none ReconEnv.ok
      ⟨sampleDb, [("delta:app:7:chats", 3), ("delta:chat:3:messages", 2)], []⟩).1
      = ⟨sampleDb, [("delta:app:7:chats", 3), ("delta:chat:3:messages", 2)], []⟩ ∧
    sampleDb.chatsCountOf 7 = some 0 ∧
    (reconcile ReconEnv.ok
      ⟨sampleDb, [("delta:app:7:chats", 3), ("delta:chat:3:messages", 2)],
        []⟩).world.db.chatsCountOf 7 = some 3 := by
  decide

end GoWorker

namespace GoWorker

/-- C17: `reconcile` with the lock as `SetNX` on `lock:reconciliation`, TTL 15 s,
the tick interval.  If the `SetNX` fails, `reconcile` returns the error; if the
key is present, it returns nil; in both cases the `SetNX` is its only call (no
scan, no script, no UPDATE, no `Del`) and the state, lock key included, is
unchanged.  If the key is absent, the lock is taken, both targets are
processed in turn on the state that holds the lock (each scans its pattern and
runs the script on every key the scan returns), then `Del` is called on the
lock key as last call and `reconcile` returns nil, whatever the faults and the
per-key outcomes; the lock key is absent afterwards when the store takes the
`Del`. -/
theorem C17_reconcile_lock_guard (env : ReconEnv) (w : World) :
    (lockKey = "lock:reconciliation" ∧ lockTTL = 15 ∧ syncInterval = lockTTL) ∧
    (∀ e, env.setNXErr = some e →
      reconcile env w = ⟨w, [.setNX lockKey lockTTL], some e⟩) ∧
    (∀ v, env.setNXErr = none → Redis.Get w.redis lockKey = some v →
      reconcile env w = ⟨w, [.setNX lockKey lockTTL], none⟩ ∧
      Redis.Get (reconcile env w).world.redis lockKey = some v) ∧
    (env.setNXErr = none → Redis.Get w.redis lockKey = none →
      (reconcile env w).err = none ∧
      (reconcile env w).calls =
        [.setNX lockKey lockTTL] ++
          (reconcileEntity env { w with redis := Redis.Set w.redis lockKey 1 }
            appChatConfig).calls ++
          (reconcileEntity env
            (reconcileEntity env { w with redis := Redis.Set w.redis lockKey 1 }
              appChatConfig).world chatMessageConfig).calls ++
          [.del lockKey] ∧
      ReconCall.scan "delta:app:*:chats" ∈ (reconcile env w).calls ∧
      ReconCall.scan "delta:chat:*:messages" ∈ (reconcile env w).calls ∧
      (env.scanErr "delta:app:*:chats" = none →
        ∀ key, key ∈ Redis.Scan (Redis.Set w.redis lockKey 1) "delta:app:*:chats" →
          ReconCall.getDel key ∈ (reconcile env w).calls) ∧
      (env.scanErr "delta:chat:*:messages" = none →
        ∀ key, key ∈ Redis.Scan
            (reconcileEntity env { w with redis := Redis.Set w.redis lockKey 1 }
              appChatConfig).world.redis "delta:chat:*:messages" →
          ReconCall.getDel key ∈ (reconcile env w).calls) ∧
      (reconcile env w).calls.getLast? = some (.del lockKey) ∧
      (env.delErr = none →
        Redis.Get (reconcile env w).world.redis lockKey = none)) := by
  refine ⟨⟨rfl, rfl, rfl⟩, ?_, ?_, ?_⟩
  · intro e he
    simp [reconcile, acquireLock, he]
  · intro v he hg
    have : reconcile env w = ⟨w, [.setNX lockKey lockTTL], none⟩ := by
      simp [reconcile, acquireLock, he, Redis.SetNX, hg]
    rw [this]
    exact ⟨rfl, hg⟩
  · intro he hg
    have hrun : reconcile env w =
        ⟨{ (reconcileEntity env
              (reconcileEntity env { w with redis := Redis.Set w.redis lockKey 1 }
                appChatConfig).world chatMessageConfig).world with
            redis := releaseLock env.delErr
              (reconcileEntity env
                (reconcileEntity env { w with redis := Redis.Set w.redis lockKey 1 }
                  appChatConfig).world chatMessageConfig).world.redis },
          [.setNX lockKey lockTTL] ++
            (reconcileEntity env { w with redis := Redis.Set w.redis lockKey 1 }
              appChatConfig).calls ++
            (reconcileEntity env
              (reconcileEntity env { w with redis := Redis.Set w.redis lockKey 1 }
                appChatConfig).world chatMessageConfig).calls ++
            [.del lockKey], none⟩ := by
      simp [reconcile, acquireLock, he, Redis.SetNX, hg]
    have h1 := reconcileEntity_calls env { w with redis := Redis.Set w.redis lockKey 1 }
      appChatConfig
    have h2 := reconcileEntity_calls env
      (reconcileEntity env { w with redis := Redis.Set w.redis lockKey 1 }
        appChatConfig).world chatMessageConfig
    rw [hrun]
    refine ⟨rfl, rfl, ?_, ?_, ?_, ?_, ?_, ?_⟩
    · simp only [List.mem_append]
      exact Or.inl (Or.inl (Or.inr h1.1))
    · simp only [List.mem_append]
      exact Or.inl (Or.inr h2.1)
    · intro hs key hk
      simp only [List.mem_append]
      exact Or.inl (Or.inl (Or.inr (h1.2 hs key hk)))
    · intro hs key hk
      simp only [List.mem_append]
      exact Or.inl (Or.inr (h2.2 hs key hk))
    · exact List.getLast?_concat _
    · intro hdel
      simp [releaseLock, hdel, Redis.get_del_self]

/-- C17 at concrete runs: with the lock key present `reconcile` only tries the
lock; with the lock free it drains the delta key of application 7 and the lock
key is gone afterwards. -/
theorem C17_reconcile_lock_guard_witness :
    reconcile ReconEnv.ok
        ⟨sampleDb, [("lock:reconciliation", 1), ("delta:app:7:chats", 3)], []⟩ =
      ⟨⟨sampleDb, [("lock:reconciliation", 1), ("delta:app:7:chats", 3)], []⟩,
        [.setNX lockKey lockTTL], none⟩ ∧
    Redis.Get (reconcile ReconEnv.ok
        ⟨sampleDb, [("delta:app:7:chats", 3)], []⟩).world.redis lockKey = none :=
  ⟨((C17_reconcile_lock_guard ReconEnv.ok
      ⟨sampleDb, [("lock:reconciliation", 1), ("delta:app:7:chats", 3)], []⟩).2.2.1
      1 rfl (by decide)).1,
   ((C17_reconcile_lock_guard ReconEnv.ok
      ⟨sampleDb, [("delta:app:7:chats", 3)], []⟩).2.2.2 rfl (by decide)).2.2.2.2.2.2.2
      rfl⟩

end GoWorker

/-! ## 64-bit arithmetic -/

theorem wrapInt64_id (x : Int) (h1 : -2 ^ 63 ≤ x) (h2 : x < 2 ^ 63) :
    wrapInt64 x = x := by
  unfold wrapInt64
  norm_num at h1 h2 ⊢
  omega

theorem Atoi_range (s : String) (v : Int) (h : Atoi s = some v) :
    -2 ^ 63 ≤ v ∧ v < 2 ^ 63 := by
  unfold Atoi at h
  split at h
  · simp at h
  · split at h
    · split at h
      · simp only [Option.some.injEq] at h
        subst h
        norm_num at *
        omega
      · simp at h
    · simp at h
  · split at h
    · split at h
      · simp only [Option.some.injEq] at h
        subst h
        norm_num at *
        omega
      · simp at h
    · simp at h
  · split at h
    · split at h
      · simp only [Option.some.injEq] at h
        subst h
        norm_num at *
        omega
      · simp at h
    · simp at h

namespace GoChat

/-! ## The search handler -/

theorem page_range (pageStr : String) :
    1 ≤ SearchMessagesHandler.page pageStr ∧
    SearchMessagesHandler.page pageStr < 2 ^ 63 := by
  unfold SearchMessagesHandler.page
  cases h : Atoi pageStr with
  | none => norm_num
  | some v =>
    have := Atoi_range pageStr v h
    simp only
    split <;> omega

theorem perPage_range (perPageStr : String) :
    1 ≤ SearchMessagesHandler.perPage perPageStr ∧
    SearchMessagesHandler.perPage perPageStr ≤ 100 := by
  unfold SearchMessagesHandler.perPage
  cases h : Atoi perPageStr with
  | none => simp
  | some v =>
    simp only
    split <;> split <;> omega

/-- A request that passes the four checks of the handler reaches the index
with the handler's `page` and `perPage`. -/
theorem handler_sent (baseURL : String) (reply : SearchReply) (req : SearchParams)
    (chatNumber : Int) (htok : req.token ≠ "") (hnum : req.number ≠ "")
    (hq : Query req.q "" ≠ "") (hchat : Atoi req.number = some chatNumber) :
    (SearchMessagesHandler baseURL reply req).sent =
      some (Client.Search baseURL reply req.token chatNumber (Query req.q "")
        (SearchMessagesHandler.page (Query req.page "1"))
        (SearchMessagesHandler.perPage (Query req.perPage "20"))).1 ∧
    (∀ messages total, reply = .hits messages total →
      (SearchMessagesHandler baseURL reply req).result =
        .found messages
          ⟨SearchMessagesHandler.page (Query req.page "1"),
           SearchMessagesHandler.perPage (Query req.perPage "20"), total,
           SearchMessagesHandler.totalPages total
             (SearchMessagesHandler.perPage (Query req.perPage "20"))⟩) := by
  refine ⟨?_, ?_⟩
  · simp only [SearchMessagesHandler, htok, hnum, hq, if_false, hchat]
    cases reply <;> simp [Client.Search]
  · intro messages total hr
    subst hr
    simp [SearchMessagesHandler, htok, hnum, hq, hchat, Client.Search]

theorem normalize_handler (pageStr perPageStr : String) :
    Client.Search.normalize (SearchMessagesHandler.page pageStr)
        (SearchMessagesHandler.perPage perPageStr) =
      (SearchMessagesHandler.page pageStr, SearchMessagesHandler.perPage perPageStr) := by
  have hp := page_range pageStr
  have hs := perPage_range perPageStr
  unfold Client.Search.normalize
  have h1 : ¬ SearchMessagesHandler.page pageStr < 1 := by omega
  have h2 : ¬ (SearchMessagesHandler.perPage perPageStr < 1 ∨
      SearchMessagesHandler.perPage perPageStr > 100) := by omega
  simp [h1, h2]

end GoChat

namespace GoChat

/-- C18, counterexample: `per_page=0` parses as the integer 0, for which
min(max(0, 1), 100) is 1, but the handler searches with size 20 and echoes
per_page 20. -/
theorem C18_per_page_zero_counterexample :
    Atoi (Query (some "0") "20") = some 0 ∧
    min (max (0 : Int) 1) 100 = 1 ∧
    SearchMessagesHandler.perPage (Query (some "0") "20") = 20 ∧
    SearchMessagesHandler "http://es" (.hits [] 0)
        ⟨"tok1", "1", some "hel", none, some "0"⟩ =
      ⟨some ⟨"http://es/messages/_search?routing=tok1:1", "tok1:1", "tok1", 1, "hel",
          0, 20⟩,
        .found [] ⟨1, 20, 0, 0⟩⟩ := by
  decide

/-- C18, amended: with v the integer that the `per_page` value parses to, the
handler's per_page is v when 1 ≤ v ≤ 100, 100 when v > 100, and the default 20
when v < 1; a missing, empty or unparseable value gives 20 as well.  It always
lies in 1..100, and for every request that reaches the index it is the `size`
of the query and the `per_page` of `meta`. -/
theorem C18_per_page_default_and_cap (value : Option String) :
    (∀ v, Atoi (Query value "20") = some v → 1 ≤ v → v ≤ 100 →
      SearchMessagesHandler.perPage (Query value "20") = v) ∧
    (∀ v, Atoi (Query value "20") = some v → 100 < v →
      SearchMessagesHandler.perPage (Query value "20") = 100) ∧
    (∀ v, Atoi (Query value "20") = some v → v < 1 →
      SearchMessagesHandler.perPage (Query value "20") = 20) ∧
    (Atoi (Query value "20") = none →
      SearchMessagesHandler.perPage (Query value "20") = 20) ∧
    ((value = none ∨ value = some "") →
      SearchMessagesHandler.perPage (Query value "20") = 20) ∧
    (1 ≤ SearchMessagesHandler.perPage (Query value "20") ∧
      SearchMessagesHandler.perPage (Query value "20") ≤ 100) ∧
    (∀ (baseURL : String) (reply : SearchReply) (req : SearchParams)
        (chatNumber : Int), req.perPage = value → req.token ≠ "" →
      req.number ≠ "" → Query req.q "" ≠ "" → Atoi req.number = some chatNumber →
      (∃ sent, (SearchMessagesHandler baseURL reply req).sent = some sent ∧
        sent.size = SearchMessagesHandler.perPage (Query value "20")) ∧
      (∀ messages total, reply = .hits messages total →
        ∃ pageMeta, (SearchMessagesHandler baseURL reply req).result =
            .found messages pageMeta ∧
          pageMeta.perPage = SearchMessagesHandler.perPage (Query value "20"))) := by
  refine ⟨?_, ?_, ?_, ?_, ?_, perPage_range _, ?_⟩
  · intro v h h1 h2
    have a : ¬ v < 1 := by omega
    have b : ¬ v > 100 := by omega
    simp [SearchMessagesHandler.perPage, h, a, b]
  · intro v h h1
    have a : ¬ v < 1 := by omega
    simp [SearchMessagesHandler.perPage, h, a, h1]
  · intro v h h1
    simp [SearchMessagesHandler.perPage, h, h1]
  · intro h
    simp [SearchMessagesHandler.perPage, h]
  · intro h
    rcases h with h | h <;> subst h <;> decide
  · intro baseURL reply req chatNumber hv htok hnum hq hchat
    subst hv
    have hs := handler_sent baseURL reply req chatNumber htok hnum hq hchat
    have hn := normalize_handler (Query req.page "1") (Query req.perPage "20")
    refine ⟨⟨_, hs.1, ?_⟩, ?_⟩
    · simp [Client.Search, hn]
    · intro messages total hr
      exact ⟨_, hs.2 messages total hr, rfl⟩

/-- C18 amended, at concrete values: 50 stays, 500 is capped, 0 and `abc` give
the default. -/
theorem C18_per_page_default_and_cap_witness :
    SearchMessagesHandler.perPage (Query (some "50") "20") = 50 ∧
    SearchMessagesHandler.perPage (Query (some "500") "20") = 100 ∧
    SearchMessagesHandler.perPage (Query (some "0") "20") = 20 ∧
    SearchMessagesHandler.perPage (Query (some "abc") "20") = 20 :=
  ⟨(C18_per_page_default_and_cap (some "50")).1 50 (by decide) (by decide)
      (by decide),
   (C18_per_page_default_and_cap (some "500")).2.1 500 (by decide) (by decide),
   (C18_per_page_default_and_cap (some "0")).2.2.1 0 (by decide) (by decide),
   (C18_per_page_default_and_cap (some "abc")).2.2.2.1 (by decide)⟩

end GoChat

namespace GoChat

/-- C19, counterexample: `page=9223372036854775807&per_page=100` gives the
handler p = 2^63 - 1 and s = 100; (p - 1) * s is 922337203685477580600, but the
`from` of the query sent to the index is -200, the product wrapped to 64
bits. -/
theorem C19_from_overflow_counterexample :
    SearchMessagesHandler.page (Query (some "9223372036854775807") "1")
      = 9223372036854775807 ∧
    SearchMessagesHandler.perPage (Query (some "100") "20") = 100 ∧
    ((9223372036854775807 : Int) - 1) * 100 = 922337203685477580600 ∧
    (SearchMessagesHandler "http://es" (.hits [] 0)
        ⟨"tok1", "1", some "hel", some "9223372036854775807", some "100"⟩).sent =
      some ⟨"http://es/messages/_search?routing=tok1:1", "tok1:1", "tok1", 1, "hel",
        -200, 100⟩ := by
  decide

/-- C19, amended: for every request that reaches the index, with p the
handler's page (the parsed value when it is an integer ≥ 1, otherwise 1) and s
the handler's per_page: the guards of `Client.Search` leave (p, s) unchanged;
the query has size = s and from = (p - 1) * s reduced to the signed 64-bit
range, which is (p - 1) * s itself whenever (p - 1) * s < 2^63, in particular
for every p ≤ 92233720368547758; and `meta` has page = p and per_page = s. -/
theorem C19_from_and_size (baseURL : String) (reply : SearchReply)
    (req : SearchParams) (chatNumber : Int)
    (htok : req.token ≠ "") (hnum : req.number ≠ "") (hq : Query req.q "" ≠ "")
    (hchat : Atoi req.number = some chatNumber) :
    ((∀ v, Atoi (Query req.page "1") = some v → 1 ≤ v →
        SearchMessagesHandler.page (Query req.page "1") = v) ∧
      (∀ v, Atoi (Query req.page "1") = some v → v < 1 →
        SearchMessagesHandler.page (Query req.page "1") = 1) ∧
      (Atoi (Query req.page "1") = none →
        SearchMessagesHandler.page (Query req.page "1") = 1)) ∧
    Client.Search.normalize (SearchMessagesHandler.page (Query req.page "1"))
        (SearchMessagesHandler.perPage (Query req.perPage "20")) =
      (SearchMessagesHandler.page (Query req.page "1"),
       SearchMessagesHandler.perPage (Query req.perPage "20")) ∧
    (∃ sent, (SearchMessagesHandler baseURL reply req).sent = some sent ∧
      sent.size = SearchMessagesHandler.perPage (Query req.perPage "20") ∧
      sent.fromOffset = wrapInt64
        ((SearchMessagesHandler.page (Query req.page "1") - 1) *
          SearchMessagesHandler.perPage (Query req.perPage "20")) ∧
      ((SearchMessagesHandler.page (Query req.page "1") - 1) *
          SearchMessagesHandler.perPage (Query req.perPage "20") < 2 ^ 63 →
        sent.fromOffset =
          (SearchMessagesHandler.page (Query req.page "1") - 1) *
            SearchMessagesHandler.perPage (Query req.perPage "20")) ∧
      (SearchMessagesHandler.page (Query req.page "1") ≤ 92233720368547758 →
        sent.fromOffset =
          (SearchMessagesHandler.page (Query req.page "1") - 1) *
            SearchMessagesHandler.perPage (Query req.perPage "20"))) ∧
    (∀ messages total, reply = .hits messages total →
      ∃ pageMeta, (SearchMessagesHandler baseURL reply req).result =
          .found messages pageMeta ∧
        pageMeta.page = SearchMessagesHandler.page (Query req.page "1") ∧
        pageMeta.perPage = SearchMessagesHandler.perPage (Query req.perPage "20")) := by
  have hp := page_range (Query req.page "1")
  have hs := perPage_range (Query req.perPage "20")
  have hn := normalize_handler (Query req.page "1") (Query req.perPage "20")
  have hsent := handler_sent baseURL reply req chatNumber htok hnum hq hchat
  have hw1 : wrapInt64 (SearchMessagesHandler.page (Query req.page "1") - 1) =
      SearchMessagesHandler.page (Query req.page "1") - 1 :=
    wrapInt64_id _ (by omega) (by omega)
  have hfrom : (Client.Search baseURL reply req.token chatNumber (Query req.q "")
        (SearchMessagesHandler.page (Query req.page "1"))
        (SearchMessagesHandler.perPage (Query req.perPage "20"))).1.fromOffset =
      wrapInt64 ((SearchMessagesHandler.page (Query req.page "1") - 1) *
          SearchMessagesHandler.perPage (Query req.perPage "20")) := by
    simp [Client.Search, hn, hw1]
  have hnonneg : 0 ≤ (SearchMessagesHandler.page (Query req.page "1") - 1) *
      SearchMessagesHandler.perPage (Query req.perPage "20") :=
    Int.mul_nonneg (by omega) (by omega)
  refine ⟨⟨?_, ?_, ?_⟩, hn, ⟨_, hsent.1, ?_, hfrom, ?_, ?_⟩, ?_⟩
  · intro v h h1
    have a : ¬ v < 1 := by omega
    simp [SearchMessagesHandler.page, h, a]
  · intro v h h1
    simp [SearchMessagesHandler.page, h, h1]
  · intro h
    simp [SearchMessagesHandler.page, h]
  · simp [Client.Search, hn]
  · intro hlt
    rw [hfrom]
    exact wrapInt64_id _ (by omega) hlt
  · intro hle
    rw [hfrom]
    apply wrapInt64_id _ (by omega)
    have : (SearchMessagesHandler.page (Query req.page "1") - 1) *
        SearchMessagesHandler.perPage (Query req.perPage "20") ≤
        92233720368547757 * 100 :=
      Int.mul_le_mul (by omega) hs.2 (by omega) (by norm_num)
    omega
  · intro messages total hr
    exact ⟨_, hsent.2 messages total hr, rfl, rfl⟩

/-- C19 amended, at a concrete request: page 3 with 25 per page is sent as
from 50, size 25. -/
theorem C19_from_and_size_witness :
    ∃ sent, (SearchMessagesHandler "http://es" (.hits [] 0)
        ⟨"tok1", "1", some "hel", some "3", some "25"⟩).sent = some sent ∧
      sent.size = 25 ∧ sent.fromOffset = wrapInt64 ((3 - 1) * 25) :=
  have h := (C19_from_and_size "http://es" (.hits [] 0)
    ⟨"tok1", "1", some "hel", some "3", some "25"⟩ 1 (by decide) (by decide)
    (by decide) (by decide)).2.2.1
  h.elim fun sent hs => ⟨sent, hs.1, hs.2.1, hs.2.2.1⟩

end GoChat

namespace GoChat

/-- C20, counterexample: the index reports total = 2^63 - 1 and the request has
`per_page=100`; `total + perPage - 1` overflows, the handler returns
total_pages = -92233720368547757, and total_pages * per_page is below total. -/
theorem C20_total_pages_overflow_counterexample :
    (SearchMessagesHandler "http://es" (.hits [] 9223372036854775807)
        ⟨"tok1", "1", some "hel", none, some "100"⟩).result =
      .found [] ⟨1, 100, 9223372036854775807, -92233720368547757⟩ ∧
    ¬ ((-92233720368547757 : Int) * 100 ≥ 9223372036854775807) := by
  decide

/-- C20, amended: for every total ≥ 0 and every per_page s in 1..100 with
total + s - 1 < 2^63 (no overflow of the 64-bit `int`; every total up to
2^63 - 100 qualifies), the handler's total_pages is ceil(total / s): it is the
integer t with t * s ≥ total > (t - 1) * s, and it is 0 for total = 0.  The
handler puts this value of the reported total and its per_page into `meta`. -/
theorem C20_total_pages_is_ceil (total s : Int)
    (h0 : 0 ≤ total) (hs1 : 1 ≤ s) (hs2 : s ≤ 100) (hfit : total + s - 1 < 2 ^ 63) :
    SearchMessagesHandler.totalPages total s = ⌈(total : ℚ) / (s : ℚ)⌉ ∧
    SearchMessagesHandler.totalPages total s * s ≥ total ∧
    total > (SearchMessagesHandler.totalPages total s - 1) * s ∧
    (total = 0 → SearchMessagesHandler.totalPages total s = 0) ∧
    (∀ (baseURL : String) (messages : List Message) (req : SearchParams)
        (chatNumber : Int), req.token ≠ "" → req.number ≠ "" →
      Query req.q "" ≠ "" → Atoi req.number = some chatNumber →
      SearchMessagesHandler.perPage (Query req.perPage "20") = s →
      ∃ pageMeta, (SearchMessagesHandler baseURL (.hits messages total) req).result =
          .found messages pageMeta ∧
        pageMeta.total = total ∧ pageMeta.perPage = s ∧
        pageMeta.totalPages = SearchMessagesHandler.totalPages total s) := by
  have hw : wrapInt64 (wrapInt64 (total + s) - 1) = total + s - 1 := by
    unfold wrapInt64
    norm_num at hfit ⊢
    omega
  have hdef : SearchMessagesHandler.totalPages total s = (total + s - 1) / s := by
    unfold SearchMessagesHandler.totalPages
    rw [hw]
    exact Int.tdiv_eq_ediv (by omega) (by omega)
  have hspos : 0 < s := by omega
  have hdm := Int.emod_add_ediv (total + s - 1) s
  have hr0 := Int.emod_nonneg (total + s - 1) (by omega : s ≠ 0)
  have hr1 := Int.emod_lt_of_pos (total + s - 1) hspos
  have hge : SearchMessagesHandler.totalPages total s * s ≥ total := by
    rw [hdef]
    nlinarith
  have hlt : total > (SearchMessagesHandler.totalPages total s - 1) * s := by
    rw [hdef]
    nlinarith
  refine ⟨?_, hge, hlt, ?_, ?_⟩
  · symm
    rw [Int.ceil_eq_iff]
    have hsq : (0 : ℚ) < (s : ℚ) := by exact_mod_cast hspos
    constructor
    · rw [lt_div_iff₀ hsq]
      have : ((SearchMessagesHandler.totalPages total s - 1) * s : Int) < total := hlt
      exact_mod_cast this
    · rw [div_le_iff₀ hsq]
      have : (total : Int) ≤ SearchMessagesHandler.totalPages total s * s := hge
      exact_mod_cast this
  · intro ht
    subst ht
    rw [hdef]
    apply Int.ediv_eq_zero_of_lt <;> omega
  · intro baseURL messages req chatNumber htok hnum hq hchat hper
    have hsent := (handler_sent baseURL (.hits messages total) req chatNumber htok
      hnum hq hchat).2 messages total rfl
    rw [hper] at hsent
    exact ⟨_, hsent, rfl, rfl, rfl⟩

/-- C20 amended, at concrete values: 41 hits at 20 per page are 3 pages. -/
theorem C20_total_pages_is_ceil_witness :
    SearchMessagesHandler.totalPages 41 20 * 20 ≥ 41 ∧
    41 > (SearchMessagesHandler.totalPages 41 20 - 1) * 20 ∧
    SearchMessagesHandler.totalPages 41 20 = 3 :=
  have h := C20_total_pages_is_ceil 41 20 (by decide) (by decide) (by decide)
    (by decide)
  ⟨h.2.1, h.2.2.1, by decide⟩

end GoChat

namespace GoChat

/-! ## The two create handlers, path by path -/

/-- C22: `CreateChatHandler` on the empty token answers 400 and leaves the
state untouched (no allocation).  With a token: when the allocator fails it
answers 500, hands out no number and leaves the state untouched (nothing
published); when the allocator gives n and the publish fails (marshal or
channel) it answers 500 with the channel unchanged and the counter at n; and
when both succeed it answers 201 with body {number: n, status: "processing"},
n being the reply of the `INCR` on `app:<token>:chats_count`, and the channel
has got one message for `chats_queue` whose body is the JSON of
{app_token: token, chat_number: n}. -/
theorem C22_create_chat_paths
    (marshal : Payload → Except String String) (env : ChatEnv) (st : ApiState)
    (token : String) :
    (token = "" →
      (CreateChatHandler marshal env st token).2 = .badRequest ∧
      (CreateChatHandler marshal env st token).2.response.status = 400 ∧
      (CreateChatHandler marshal env st token).1 = st) ∧
    (token ≠ "" → ∀ e, env.incrFault = some e →
      (CreateChatHandler marshal env st token).2 = .allocFailed ∧
      (CreateChatHandler marshal env st token).2.response.status = 500 ∧
      (CreateChatHandler marshal env st token).2.returned = none ∧
      (CreateChatHandler marshal env st token).1 = st) ∧
    (token ≠ "" → env.incrFault = none →
      ((∃ e, marshal [("app_token", .str token),
            ("chat_number", .int (Redis.Incr st.redis (chatsCountKey token)).2)]
          = .error e) ∨ env.publishFault ≠ none) →
      (CreateChatHandler marshal env st token).2 =
        .publishFailed (Redis.Incr st.redis (chatsCountKey token)).2 ∧
      (CreateChatHandler marshal env st token).2.response.status = 500 ∧
      (CreateChatHandler marshal env st token).1.channel = st.channel ∧
      (CreateChatHandler marshal env st token).1.redis =
        (Redis.Incr st.redis (chatsCountKey token)).1) ∧
    (token ≠ "" → env.incrFault = none → env.publishFault = none →
      ∀ body, marshal [("app_token", .str token),
          ("chat_number", .int (Redis.Incr st.redis (chatsCountKey token)).2)]
        = .ok body →
      (CreateChatHandler marshal env st token).2 =
        .created (Redis.Incr st.redis (chatsCountKey token)).2 ∧
      (CreateChatHandler marshal env st token).2.response =
        ⟨201, [("number", .int (Redis.Incr st.redis (chatsCountKey token)).2),
               ("status", .str "processing")]⟩ ∧
      (Redis.Incr st.redis (chatsCountKey token)).2 =
        (Redis.Get st.redis (chatsCountKey token)).getD 0 + 1 ∧
      (CreateChatHandler marshal env st token).1.channel =
        st.channel ++ [⟨"", "chats_queue", false, false,
          ⟨0, "application/json", body⟩⟩] ∧
      (CreateChatHandler marshal env st token).1.redis =
        (Redis.Incr st.redis (chatsCountKey token)).1) := by
  refine ⟨?_, ?_, ?_, ?_⟩
  · intro h
    simp [CreateChatHandler, CreateChatHandler.allocate, h, ChatResult.response]
  · intro h e he
    simp [CreateChatHandler, CreateChatHandler.allocate, h, he,
      Repo.IncrementChatCounter, Redis.IncrResult, ChatResult.response,
      ChatResult.returned]
  · intro h he hfail
    rcases hfail with ⟨e, hm⟩ | hp
    · simp [CreateChatHandler, CreateChatHandler.allocate, h, he,
        Repo.IncrementChatCounter, Redis.IncrResult, CreateChatHandler.publish,
        AMQP.PublishMessage, hm, ChatResult.response]
    · cases hpf : env.publishFault with
      | none => exact absurd hpf hp
      | some e =>
        cases hm : marshal [("app_token", .str token),
            ("chat_number", .int (Redis.Incr st.redis (chatsCountKey token)).2)] <;>
          simp [CreateChatHandler, CreateChatHandler.allocate, h, he,
            Repo.IncrementChatCounter, Redis.IncrResult, CreateChatHandler.publish,
            AMQP.PublishMessage, hm, hpf, ChatResult.response]
  · intro h he hp body hm
    refine ⟨?_, ?_, Redis.incr_reply _ _, ?_, ?_⟩ <;>
      simp [CreateChatHandler, CreateChatHandler.allocate, h, he,
        Repo.IncrementChatCounter, Redis.IncrResult, CreateChatHandler.publish,
        AMQP.PublishMessage, hm, hp, ChatResult.response, ChatsQueue]

/-- C22 at a concrete request: the first chat of `tok1` is answered 201 with
number 1. -/
theorem C22_create_chat_paths_witness :
    (CreateChatHandler (fun _ => .ok "b") ⟨none, none⟩ ⟨[], []⟩ "tok1").2.response =
      ⟨201, [("number", .int 1), ("status", .str "processing")]⟩ :=
  ((C22_create_chat_paths (fun _ => .ok "b") ⟨none, none⟩ ⟨[], []⟩ "tok1").2.2.2
    (by decide) rfl rfl "b" rfl).2.1

end GoChat

namespace GoChat

/-- C21: `CreateMessageHandler` answers 400, makes no call (no `INCR`, no
publish) and leaves the store and the channel untouched when the token is
empty, the chat number is empty or not an integer, the body does not parse, or
the content is empty.  For every other request it calls `INCR` once, on
`app:<token>:chat:<chat_number>:messages_count`; when the `INCR` fails it
answers 500, publishes nothing and leaves store and channel as they were.  When
the `INCR` gives n the counter holds n and the handler makes one publish call
with {app_token, chat_number, content, message_number: n} for `messages_queue`:
when the payload marshals to `body` and the broker takes it, the channel gains
exactly one message, routed to `messages_queue` with that body, and the answer
is 200 {number: n}; when the marshalling or the broker fails the channel is
unchanged and the answer is 500.  So the answer is 200 exactly when the `INCR`,
the marshalling and the publish all succeed, and 500 otherwise. -/
theorem C21_create_message_paths
    (marshal : Payload → Except String String)
    (bodyParser : String → Except String Message) (env : ChatEnv)
    (st : ApiState) (req : MessageRequest) :
    ((req.token = "" ∨ req.number = "" ∨ Atoi req.number = none ∨
        (∃ e, bodyParser req.body = .error e) ∨
        (∃ input, bodyParser req.body = .ok input ∧ input.Content = "")) →
      (CreateMessageHandler marshal bodyParser env st req).result.response.status
        = 400 ∧
      (CreateMessageHandler marshal bodyParser env st req).calls = [] ∧
      (CreateMessageHandler marshal bodyParser env st req).state = st) ∧
    (∀ chatNumber input, req.token ≠ "" → req.number ≠ "" →
      Atoi req.number = some chatNumber → bodyParser req.body = .ok input →
      input.Content ≠ "" →
      (∀ e, env.incrFault = some e →
        (CreateMessageHandler marshal bodyParser env st req).calls =
          [.incr ("app:" ++ req.token ++ ":chat:" ++ toString chatNumber ++
            ":messages_count")] ∧
        (CreateMessageHandler marshal bodyParser env st req).result.response.status
          = 500 ∧
        (CreateMessageHandler marshal bodyParser env st req).state = st) ∧
      (env.incrFault = none →
        (CreateMessageHandler marshal bodyParser env st req).calls =
          [.incr ("app:" ++ req.token ++ ":chat:" ++ toString chatNumber ++
            ":messages_count"),
           .publish "messages_queue"
            [("app_token", .str req.token), ("chat_number", .int chatNumber),
             ("content", .str input.Content),
             ("message_number", .int
               ((Redis.Get st.redis ("app:" ++ req.token ++ ":chat:" ++
                 toString chatNumber ++ ":messages_count")).getD 0 + 1))]] ∧
        (CreateMessageHandler marshal bodyParser env st req).state.redis =
          (Redis.Incr st.redis ("app:" ++ req.token ++ ":chat:" ++
            toString chatNumber ++ ":messages_count")).1 ∧
        Redis.Get (CreateMessageHandler marshal bodyParser env st req).state.redis
            ("app:" ++ req.token ++ ":chat:" ++ toString chatNumber ++
              ":messages_count") =
          some ((Redis.Get st.redis ("app:" ++ req.token ++ ":chat:" ++
            toString chatNumber ++ ":messages_count")).getD 0 + 1) ∧
        (∀ body,
          marshal
            [("app_token", .str req.token), ("chat_number", .int chatNumber),
             ("content", .str input.Content),
             ("message_number", .int
               ((Redis.Get st.redis ("app:" ++ req.token ++ ":chat:" ++
                 toString chatNumber ++ ":messages_count")).getD 0 + 1))]
            = .ok body →
          env.publishFault = none →
          (CreateMessageHandler marshal bodyParser env st req).result.response =
            ⟨200, [("number", .int
              ((Redis.Get st.redis ("app:" ++ req.token ++ ":chat:" ++
                toString chatNumber ++ ":messages_count")).getD 0 + 1))]⟩ ∧
          (CreateMessageHandler marshal bodyParser env st req).state.channel =
            st.channel ++
              [⟨"", "messages_queue", false, false,
                ⟨0, "application/json", body⟩⟩]) ∧
        (((∃ e, marshal
            [("app_token", .str req.token), ("chat_number", .int chatNumber),
             ("content", .str input.Content),
             ("message_number", .int
               ((Redis.Get st.redis ("app:" ++ req.token ++ ":chat:" ++
                 toString chatNumber ++ ":messages_count")).getD 0 + 1))]
            = .error e) ∨ env.publishFault ≠ none) →
          (CreateMessageHandler marshal bodyParser env st req).result.response
            = ⟨500, [("error", .str "failed to queue message")]⟩ ∧
          (CreateMessageHandler marshal bodyParser env st req).state.channel
            = st.channel)) ∧
      ((CreateMessageHandler marshal bodyParser env st req).result.response.status
          = 200 ↔
        (env.incrFault = none ∧
          (∃ body, marshal
            [("app_token", .str req.token), ("chat_number", .int chatNumber),
             ("content", .str input.Content),
             ("message_number", .int
               ((Redis.Get st.redis ("app:" ++ req.token ++ ":chat:" ++
                 toString chatNumber ++ ":messages_count")).getD 0 + 1))]
            = .ok body) ∧
          env.publishFault = none)) ∧
      ((CreateMessageHandler marshal bodyParser env st req).result.response.status
          = 200 ∨
        (CreateMessageHandler marshal bodyParser env st req).result.response.status
          = 500)) := by
  refine ⟨?_, ?_⟩
  · intro h
    unfold CreateMessageHandler
    by_cases h1 : req.token = ""
    · simp [h1, MessageResult.response]
    by_cases h2 : req.number = ""
    · simp [h1, h2, MessageResult.response]
    cases h3 : Atoi req.number with
    | none => simp [h1, h2, h3, MessageResult.response]
    | some c =>
      cases h4 : bodyParser req.body with
      | error e => simp [h1, h2, h3, h4, MessageResult.response]
      | ok input =>
        by_cases h5 : input.Content = ""
        · simp [h1, h2, h3, h4, h5, MessageResult.response]
        · exfalso
          rcases h with h | h | h | ⟨e, h⟩ | ⟨i, h, hc⟩
          · exact h1 h
          · exact h2 h
          · simp [h3] at h
          · simp [h4] at h
          · rw [h4] at h
            injection h with h
            exact h5 (h ▸ hc)
  · intro chatNumber input h1 h2 h3 h4 h5
    have hkey : "app:" ++ req.token ++ ":chat:" ++ toString chatNumber ++
        ":messages_count" = messagesCountKey req.token chatNumber := rfl
    have hn : (Redis.Get st.redis (messagesCountKey req.token chatNumber)).getD 0 + 1
        = (Redis.Incr st.redis (messagesCountKey req.token chatNumber)).2 :=
      (Redis.incr_reply _ _).symm
    have hget : Redis.Get (Redis.Incr st.redis
          (messagesCountKey req.token chatNumber)).1
          (messagesCountKey req.token chatNumber) =
        some (Redis.Incr st.redis (messagesCountKey req.token chatNumber)).2 := by
      rw [Redis.get_incr_self, Redis.incr_reply]
    have hpay : ∀ n : Int,
        ([("app_token", .str req.token), ("chat_number", .int chatNumber),
          ("content", .str input.Content), ("message_number", .int n)] : Payload)
        = messagePayload req.token chatNumber input.Content n := fun _ => rfl
    simp only [hkey, hn, hpay]
    generalize hnum : (Redis.Incr st.redis
      (messagesCountKey req.token chatNumber)).2 = n at hget
    cases hi : env.incrFault with
    | some e =>
      have hrun : CreateMessageHandler marshal bodyParser env st req =
          ⟨st, [.incr (messagesCountKey req.token chatNumber)], .allocFailed⟩ := by
        simp [CreateMessageHandler, h1, h2, h3, h4, h5, hi,
          Repo.IncrementMessageCounter, Redis.IncrResult]
      rw [hrun]
      refine ⟨?_, ?_, ?_, ?_⟩
      · intro e' _
        exact ⟨rfl, rfl, rfl⟩
      · intro hcontra; simp at hcontra
      · simp [MessageResult.response]
      · right; rfl
    | none =>
      cases hm : marshal (messagePayload req.token chatNumber input.Content n) with
      | error me =>
        have hrun : CreateMessageHandler marshal bodyParser env st req =
            ⟨{ redis := (Redis.Incr st.redis
                  (messagesCountKey req.token chatNumber)).1,
               channel := st.channel },
              [.incr (messagesCountKey req.token chatNumber),
               .publish MessagesQueue
                 (messagePayload req.token chatNumber input.Content n)],
              .publishFailed n⟩ := by
          simp [CreateMessageHandler, h1, h2, h3, h4, h5, hi,
            Repo.IncrementMessageCounter, Redis.IncrResult, AMQP.PublishMessage,
            hnum, hm]
        rw [hrun]
        refine ⟨?_, ?_, ?_, ?_⟩
        · intro e' hcontra; simp at hcontra
        · intro _
          refine ⟨rfl, rfl, hget, ?_, ?_⟩
          · intro body hcontra; simp at hcontra
          · intro _; exact ⟨rfl, rfl⟩
        · simp [MessageResult.response]
        · right; rfl
      | ok body =>
        cases hp : env.publishFault with
        | some pe =>
          have hrun : CreateMessageHandler marshal bodyParser env st req =
              ⟨{ redis := (Redis.Incr st.redis
                    (messagesCountKey req.token chatNumber)).1,
                 channel := st.channel },
                [.incr (messagesCountKey req.token chatNumber),
                 .publish MessagesQueue
                   (messagePayload req.token chatNumber input.Content n)],
                .publishFailed n⟩ := by
            simp [CreateMessageHandler, h1, h2, h3, h4, h5, hi,
              Repo.IncrementMessageCounter, Redis.IncrResult, AMQP.PublishMessage,
              hnum, hm, hp]
          rw [hrun]
          refine ⟨?_, ?_, ?_, ?_⟩
          · intro e' hcontra; simp at hcontra
          · intro _
            refine ⟨rfl, rfl, hget, ?_, ?_⟩
            · intro body' _ hcontra; simp at hcontra
            · intro _; exact ⟨rfl, rfl⟩
          · simp [MessageResult.response]
          · right; rfl
        | none =>
          have hrun : CreateMessageHandler marshal bodyParser env st req =
              ⟨{ redis := (Redis.Incr st.redis
                    (messagesCountKey req.token chatNumber)).1,
                 channel := st.channel ++
                   [⟨"", MessagesQueue, false, false,
                     ⟨0, "application/json", body⟩⟩] },
                [.incr (messagesCountKey req.token chatNumber),
                 .publish MessagesQueue
                   (messagePayload req.token chatNumber input.Content n)],
                .created n⟩ := by
            simp [CreateMessageHandler, h1, h2, h3, h4, h5, hi,
              Repo.IncrementMessageCounter, Redis.IncrResult, AMQP.PublishMessage,
              hnum, hm, hp]
          rw [hrun]
          refine ⟨?_, ?_, ?_, ?_⟩
          · intro e' hcontra; simp at hcontra
          · intro _
            refine ⟨rfl, rfl, hget, ?_, ?_⟩
            · intro body' hb _
              injection hb with hb
              subst hb
              exact ⟨rfl, rfl⟩
            · intro hcontra
              rcases hcontra with ⟨e, he⟩ | he
              · cases he
              · exact absurd rfl he
          · simp [MessageResult.response]
          · left; rfl

/-- C21 at a concrete request: the first message of chat 1 of `tok1` is
answered 200 with number 1, and the channel holds the one message for
`messages_queue`. -/
theorem C21_create_message_paths_witness :
    (CreateMessageHandler (fun _ => .ok "b")
      (fun _ => .ok ⟨"", "", 0, 0, "hi", 0⟩) ⟨none, none⟩ ⟨[], []⟩
      ⟨"tok1", "1", "body"⟩).result.response = ⟨200, [("number", .int 1)]⟩ ∧
    (CreateMessageHandler (fun _ => .ok "b")
      (fun _ => .ok ⟨"", "", 0, 0, "hi", 0⟩) ⟨none, none⟩ ⟨[], []⟩
      ⟨"tok1", "1", "body"⟩).state.channel =
      [] ++ [⟨"", "messages_queue", false, false, ⟨0, "application/json", "b"⟩⟩] :=
  (((C21_create_message_paths (fun _ => .ok "b")
    (fun _ => .ok ⟨"", "", 0, 0, "hi", 0⟩) ⟨none, none⟩ ⟨[], []⟩
    ⟨"tok1", "1", "body"⟩).2 1 ⟨"", "", 0, 0, "hi", 0⟩ (by decide) (by decide)
    (by decide) rfl (by decide)).2.1 rfl).2.2.2.1 "b" rfl rfl

end GoChat

namespace GoWorker

/-- C26, counterexample: the request `POST /applications/tok1/chats/0/messages`
with content "hi" is answered 200 with number 1, its payload carries
`chat_number` 0, and `MessageWorker.HandleMessage` returns nil on it without a
single call: the message is ack-dropped as missing required fields. -/
theorem C26_chat_zero_dropped :
    (GoChat.CreateMessageHandler (fun _ => .ok "b")
      (fun _ => .ok ⟨"", "", 0, 0, "hi", 0⟩) ⟨none, none⟩ ⟨[], []⟩
      ⟨"tok1", "0", "body"⟩).result.response = ⟨200, [("number", .int 1)]⟩ ∧
    (GoChat.CreateMessageHandler (fun _ => .ok "b")
      (fun _ => .ok ⟨"", "", 0, 0, "hi", 0⟩) ⟨none, none⟩ ⟨[], []⟩
      ⟨"tok1", "0", "body"⟩).calls =
      [.incr "app:tok1:chat:0:messages_count",
       .publish "messages_queue"
        [("app_token", .str "tok1"), ("chat_number", .int 0),
         ("content", .str "hi"), ("message_number", .int 1)]] ∧
    MessagePayload.ofPayload
        [("app_token", .str "tok1"), ("chat_number", .int 0),
         ("content", .str "hi"), ("message_number", .int 1)] =
      ⟨"tok1", 0, 1, "hi"⟩ ∧
    MessageWorker.HandleMessage (fun _ => .ok "i")
        (fun _ => .ok ⟨"tok1", 0, 1, "hi"⟩) (Env.ok 100) sampleWorld ⟨"b"⟩ =
      ⟨sampleWorld, [], none⟩ := by
  refine ⟨by decide, by decide, by decide, by decide⟩

/-- C26, amended: when `CreateMessageHandler` answers 200 with number n, the
payload it published has a non-empty `app_token`, a non-empty `content`,
`chat_number` equal to the integer c parsed from the route and
`message_number` n, the reply of the `INCR` (the counter plus one); the payload
passes the consumer's required-field check when c is not 0 and n is not 0, and
n is at least 1 when the counter was absent or not negative.  When c is 0 the
consumer returns nil on the payload without any call. -/
theorem C26_published_payload_fields
    (marshal : Payload → Except String String)
    (bodyParser : String → Except String GoChat.Message) (env : GoChat.ChatEnv)
    (st : GoChat.ApiState) (req : GoChat.MessageRequest) (n : Int)
    (h : (GoChat.CreateMessageHandler marshal bodyParser env st req).result
      = .created n) :
    ∃ c input, Atoi req.number = some c ∧ bodyParser req.body = .ok input ∧
      (GoChat.CreateMessageHandler marshal bodyParser env st req).calls =
        [.incr (GoChat.messagesCountKey req.token c),
         .publish "messages_queue"
          (GoChat.messagePayload req.token c input.Content n)] ∧
      MessagePayload.ofPayload
          (GoChat.messagePayload req.token c input.Content n) =
        ⟨req.token, c, n, input.Content⟩ ∧
      req.token ≠ "" ∧ input.Content ≠ "" ∧
      n = (Redis.Get st.redis (GoChat.messagesCountKey req.token c)).getD 0 + 1 ∧
      (0 ≤ (Redis.Get st.redis (GoChat.messagesCountKey req.token c)).getD 0 →
        1 ≤ n) ∧
      (c ≠ 0 → n ≠ 0 →
        ¬ (req.token = "" ∨ c = 0 ∨ n = 0 ∨ input.Content = "")) ∧
      (c = 0 → ∀ (marshalIndex : Payload → Except String String)
          (unmarshal : String → Except String MessagePayload) (wenv : Env)
          (w : World) (d : Delivery),
        unmarshal d.Body = .ok (MessagePayload.ofPayload
          (GoChat.messagePayload req.token c input.Content n)) →
        MessageWorker.HandleMessage marshalIndex unmarshal wenv w d
          = ⟨w, [], none⟩) := by
  unfold GoChat.CreateMessageHandler at h ⊢
  by_cases h1 : req.token = ""
  · simp [h1] at h
  by_cases h2 : req.number = ""
  · simp [h1, h2] at h
  cases h3 : Atoi req.number with
  | none => simp [h1, h2, h3] at h
  | some c =>
    cases h4 : bodyParser req.body with
    | error e => simp [h1, h2, h3, h4] at h
    | ok input =>
      by_cases h5 : input.Content = ""
      · simp [h1, h2, h3, h4, h5] at h
      cases hi : env.incrFault with
      | some e =>
        simp [h1, h2, h3, h4, h5, hi, GoChat.Repo.IncrementMessageCounter,
          Redis.IncrResult] at h
      | none =>
        rcases hpub : GoChat.AMQP.PublishMessage marshal env.publishFault
          st.channel (GoChat.messagePayload req.token c input.Content
            (Redis.Incr st.redis (GoChat.messagesCountKey req.token c)).2)
          GoChat.MessagesQueue with ⟨ch, perr⟩
        cases perr with
        | some pe =>
          simp [h1, h2, h3, h4, h5, hi, GoChat.Repo.IncrementMessageCounter,
            Redis.IncrResult, hpub] at h
        | none =>
          simp only [h1, h2, h3, h4, h5, hi, GoChat.Repo.IncrementMessageCounter,
            Redis.IncrResult, hpub, if_false] at h ⊢
          injection h with hn
          subst hn
          have hof : MessagePayload.ofPayload
              (GoChat.messagePayload req.token c input.Content
                (Redis.Incr st.redis (GoChat.messagesCountKey req.token c)).2) =
              ⟨req.token, c,
                (Redis.Incr st.redis (GoChat.messagesCountKey req.token c)).2,
                input.Content⟩ := by
            simp [MessagePayload.ofPayload, GoChat.messagePayload,
              Payload.getString, Payload.getInt, List.lookup]
          refine ⟨c, input, rfl, rfl, rfl, hof, h1, h5, Redis.incr_reply _ _,
            ?_, ?_, ?_⟩
          · intro hge
            rw [Redis.incr_reply]
            omega
          · intro hc hn
            simp [h1, h5, hc, hn]
          · intro hc marshalIndex unmarshal wenv w d hd
            rw [hof] at hd
            simp [MessageWorker.HandleMessage, ParseMessageBody, hd, hc]

/-- C26, amended, at a concrete request: the first message of chat 1 of `tok1`
is answered 200 and its payload decodes to the fields (tok1, 1, 1, hi). -/
theorem C26_published_payload_fields_witness :
    ∃ c input, Atoi "1" = some c ∧
      (fun _ => (.ok ⟨"", "", 0, 0, "hi", 0⟩ : Except String GoChat.Message))
        "body" = .ok input ∧
      (GoChat.CreateMessageHandler (fun _ => .ok "b")
        (fun _ => .ok ⟨"", "", 0, 0, "hi", 0⟩) ⟨none, none⟩ ⟨[], []⟩
        ⟨"tok1", "1", "body"⟩).calls =
        [.incr (GoChat.messagesCountKey "tok1" c),
         .publish "messages_queue"
          (GoChat.messagePayload "tok1" c input.Content 1)] ∧
      MessagePayload.ofPayload
          (GoChat.messagePayload "tok1" c input.Content 1) =
        ⟨"tok1", c, 1, input.Content⟩ :=
  match C26_published_payload_fields (fun _ => .ok "b")
    (fun _ => .ok ⟨"", "", 0, 0, "hi", 0⟩) ⟨none, none⟩ ⟨[], []⟩
    ⟨"tok1", "1", "body"⟩ 1 (by decide) with
  | ⟨c, input, h1, h2, h3, h4, _⟩ => ⟨c, input, h1, h2, h3, h4⟩

end GoWorker

namespace GoWorker

theorem IndexRun.run_buffering
    (marshalAction : List (String × Payload) → Except String String)
    (marshal : Payload → Except String String)
    (unmarshal : String → Except String IndexPayload) (d : Delivery)
    (p : IndexPayload) (reply : HttpResult) (hd : unmarshal d.Body = .ok p)
    (bs : Nat) :
    ∀ (k : Nat) (b : List IndexPayload) (a : Nat), b.length + k < bs →
      IndexRun.run marshalAction marshal unmarshal ⟨⟨b, bs⟩, a⟩
          (List.replicate k (.delivery d reply)) =
        ⟨⟨b ++ List.replicate k p, bs⟩, a + k⟩ := by
  intro k
  induction k with
  | zero => intro b a _; simp [IndexRun.run]
  | succ k ih =>
    intro b a h
    have hlt : ¬ bs ≤ b.length + 1 := by omega
    have hstep : IndexRun.step marshalAction marshal unmarshal ⟨⟨b, bs⟩, a⟩
        (.delivery d reply) = ⟨⟨b ++ [p], bs⟩, a + 1⟩ := by
      simp [IndexRun.step, IndexingWorker.HandleMessage, ParseMessageBody, hd, hlt]
    have ih2 := ih (b ++ [p]) (a + 1) (by simp; omega)
    unfold IndexRun.run at ih2 ⊢
    rw [List.replicate_succ, List.foldl_cons, hstep, ih2]
    simp [List.replicate_succ, Nat.add_assoc, Nat.add_comm 1 k]

theorem IndexRun.step_invariant
    (marshalAction : List (String × Payload) → Except String String)
    (marshal : Payload → Except String String)
    (unmarshal : String → Except String IndexPayload) (s : IndexRun)
    (e : IndexEvent)
    (h : s.ackedBuffered ≤ s.worker.batch.length ∧
      s.ackedBuffered < s.worker.batchSize) :
    (IndexRun.step marshalAction marshal unmarshal s e).worker.batchSize
        = s.worker.batchSize ∧
      (IndexRun.step marshalAction marshal unmarshal s e).ackedBuffered ≤
        (IndexRun.step marshalAction marshal unmarshal s e).worker.batch.length ∧
      (IndexRun.step marshalAction marshal unmarshal s e).ackedBuffered <
        s.worker.batchSize := by
  obtain ⟨h1, h2⟩ := h
  cases e with
  | delivery d reply =>
    cases hp : unmarshal d.Body with
    | error e =>
      simp [IndexRun.step, IndexingWorker.HandleMessage, ParseMessageBody, hp, h1, h2]
    | ok p =>
      by_cases hf : s.worker.batchSize ≤ s.worker.batch.length + 1
      · cases hr : Client.BulkIndex reply with
        | none =>
          simp [IndexRun.step, IndexingWorker.HandleMessage, ParseMessageBody, hp,
            hf, IndexingWorker.flush, hr]
          omega
        | some err =>
          simp [IndexRun.step, IndexingWorker.HandleMessage, ParseMessageBody, hp,
            hf, IndexingWorker.flush, hr, h2]
          omega
      · simp [IndexRun.step, IndexingWorker.HandleMessage, ParseMessageBody, hp, hf]
        omega
  | tick reply =>
    by_cases hb : s.worker.batch.length = 0
    · simp [IndexRun.step, IndexingWorker.flush, hb, h2]
      omega
    · cases hr : Client.BulkIndex reply with
      | none =>
        simp [IndexRun.step, IndexingWorker.flush, hb, hr]
        omega
      | some err =>
        simp [IndexRun.step, IndexingWorker.flush, hb, hr, h1, h2]

theorem IndexRun.run_invariant
    (marshalAction : List (String × Payload) → Except String String)
    (marshal : Payload → Except String String)
    (unmarshal : String → Except String IndexPayload)
    (events : List IndexEvent) :
    ∀ s : IndexRun, s.ackedBuffered ≤ s.worker.batch.length →
      s.ackedBuffered < s.worker.batchSize →
      (IndexRun.run marshalAction marshal unmarshal s events).worker.batchSize
          = s.worker.batchSize ∧
        (IndexRun.run marshalAction marshal unmarshal s events).ackedBuffered ≤
          (IndexRun.run marshalAction marshal unmarshal s events).worker.batch.length ∧
        (IndexRun.run marshalAction marshal unmarshal s events).ackedBuffered <
          s.worker.batchSize := by
  induction events with
  | nil => intro s h1 h2; exact ⟨rfl, h1, h2⟩
  | cons e rest ih =>
    intro s h1 h2
    obtain ⟨a, b, c⟩ := IndexRun.step_invariant marshalAction marshal unmarshal s e
      ⟨h1, h2⟩
    have := ih (IndexRun.step marshalAction marshal unmarshal s e) b (a ▸ c)
    rw [a] at this
    exact this

theorem HandleMessage_parse_error
    (marshalAction : List (String × Payload) → Except String String)
    (marshal : Payload → Except String String)
    (unmarshal : String → Except String IndexPayload) (reply : HttpResult)
    (arrivals : List IndexPayload) (w : IndexingWorker) (d : Delivery)
    (e : String) (hp : unmarshal d.Body = .error e) :
    IndexingWorker.HandleMessage marshalAction marshal unmarshal reply arrivals
      w d = ⟨w, [], 0, none⟩ := by
  simp [IndexingWorker.HandleMessage, ParseMessageBody, hp]

theorem HandleMessage_flush_failed
    (marshalAction : List (String × Payload) → Except String String)
    (marshal : Payload → Except String String)
    (unmarshal : String → Except String IndexPayload) (reply : HttpResult)
    (w : IndexingWorker) (d : Delivery) (p : IndexPayload) (e : String)
    (hp : unmarshal d.Body = .ok p) (hf : w.batchSize ≤ w.batch.length + 1)
    (hr : Client.BulkIndex reply = some e) :
    IndexingWorker.HandleMessage marshalAction marshal unmarshal reply [] w d =
      ⟨⟨w.batch ++ [p], w.batchSize⟩,
        [("messages", flush.bulkBody marshalAction marshal (w.batch ++ [p]))],
        0, some e⟩ := by
  simp [IndexingWorker.HandleMessage, ParseMessageBody, hp, hf,
    IndexingWorker.flush, hr]

theorem IndexRun.run_failed_flush
    (marshalAction : List (String × Payload) → Except String String)
    (marshal : Payload → Except String String)
    (unmarshal : String → Except String IndexPayload) (d : Delivery)
    (p : IndexPayload) (reply failing : HttpResult) (e : String)
    (hd : unmarshal d.Body = .ok p) (hr : Client.BulkIndex failing = some e)
    (k : Nat) :
    IndexRun.run marshalAction marshal unmarshal ⟨⟨[], k + 1⟩, 0⟩
        (List.replicate k (.delivery d reply) ++ [.delivery d failing]) =
      ⟨⟨List.replicate k p ++ [p], k + 1⟩, k⟩ := by
  have h := IndexRun.run_buffering marshalAction marshal unmarshal d p reply hd
    (k + 1) k [] 0 (by simp)
  unfold IndexRun.run at h ⊢
  rw [List.foldl_append, h, List.foldl_cons, List.foldl_nil]
  simp only [IndexRun.step]
  rw [HandleMessage_flush_failed marshalAction marshal unmarshal failing _ d p e
    hd (by simp) hr]
  simp [ParseMessageBody, hd]

/-- C23, counterexample: in the sequential run that starts with an empty
buffer, buffers 999 well-formed deliveries and gets status 500 for the flush of
the 1000th, the buffer holds 1000 payloads; the next delivery, whose body does
not parse, is answered nil (and so acked) while the buffer still holds 1000
payloads, which is not fewer than the batch size 1000. -/
theorem C23_ack_with_full_buffer :
    (IndexRun.run (fun _ => .ok "a") (fun _ => .ok "d") sampleUnmarshal
      ⟨NewIndexingWorker, 0⟩ failedFlushEvents).worker =
        ⟨List.replicate 999 (samplePayload 1) ++ [samplePayload 1], 1000⟩ ∧
    (IndexingWorker.HandleMessage (fun _ => .ok "a") (fun _ => .ok "d")
      sampleUnmarshal (.response 200 "") []
      ⟨List.replicate 999 (samplePayload 1) ++ [samplePayload 1], 1000⟩
      ⟨"x"⟩).err = none ∧
    (IndexingWorker.HandleMessage (fun _ => .ok "a") (fun _ => .ok "d")
      sampleUnmarshal (.response 200 "") []
      ⟨List.replicate 999 (samplePayload 1) ++ [samplePayload 1], 1000⟩
      ⟨"x"⟩).worker.batch.length = 1000 ∧
    (IndexingWorker.HandleMessage (fun _ => .ok "a") (fun _ => .ok "d")
      sampleUnmarshal (.response 200 "") []
      ⟨List.replicate 999 (samplePayload 1) ++ [samplePayload 1], 1000⟩
      ⟨"x"⟩).worker.batchSize = 1000 := by
  have hx : sampleUnmarshal (Delivery.mk "x").Body = .error "invalid character" :=
    rfl
  have hb : sampleUnmarshal (Delivery.mk "b").Body = .ok (samplePayload 1) := rfl
  have hlen : (List.replicate 999 (samplePayload 1)).length = 999 :=
    List.length_replicate _ _
  rw [HandleMessage_parse_error _ _ _ _ _ _ _ _ hx]
  refine ⟨?_, rfl, ?_, rfl⟩
  · exact congrArg IndexRun.worker
      (IndexRun.run_failed_flush (fun _ => .ok "a") (fun _ => .ok "d")
        sampleUnmarshal ⟨"b"⟩ (samplePayload 1) (.response 200 "")
        (.response 500 "") _ hb rfl 999)
  · rw [List.length_append, hlen]
    rfl

/-- C23, amended: in a sequential run of the indexing consumer with a batch
size of at least 1, whenever `HandleMessage` returns nil on a delivery whose
body parses, the buffer holds fewer than `batch_size` payloads; a delivery whose
body does not parse is answered nil with the buffer as it was, whatever its
length.  In every run from the new worker (empty buffer, batch size 1000), over
any sequence of deliveries and ticker flushes with any outcomes of the bulk
requests, the number of buffered payloads whose delivery was acked stays below
1000. -/
theorem C23_acked_buffer_bound
    (marshalAction : List (String × Payload) → Except String String)
    (marshal : Payload → Except String String)
    (unmarshal : String → Except String IndexPayload) :
    (∀ (reply : HttpResult) (w : IndexingWorker) (d : Delivery) (p : IndexPayload),
      1 ≤ w.batchSize → ParseMessageBody unmarshal d = .ok p →
      (IndexingWorker.HandleMessage marshalAction marshal unmarshal reply [] w
        d).err = none →
      (IndexingWorker.HandleMessage marshalAction marshal unmarshal reply [] w
        d).worker.batch.length < w.batchSize) ∧
    (∀ (reply : HttpResult) (w : IndexingWorker) (d : Delivery) (e : String),
      ParseMessageBody unmarshal d = .error e →
      IndexingWorker.HandleMessage marshalAction marshal unmarshal reply [] w d
        = ⟨w, [], 0, none⟩) ∧
    (∀ events : List IndexEvent,
      (IndexRun.run marshalAction marshal unmarshal ⟨NewIndexingWorker, 0⟩
        events).ackedBuffered < 1000 ∧
      (IndexRun.run marshalAction marshal unmarshal ⟨NewIndexingWorker, 0⟩
        events).ackedBuffered ≤
        (IndexRun.run marshalAction marshal unmarshal ⟨NewIndexingWorker, 0⟩
          events).worker.batch.length ∧
      (IndexRun.run marshalAction marshal unmarshal ⟨NewIndexingWorker, 0⟩
        events).worker.batchSize = 1000) := by
  refine ⟨?_, ?_, ?_⟩
  · intro reply w d p hbs hp herr
    by_cases hf : w.batchSize ≤ w.batch.length + 1
    · cases hr : Client.BulkIndex reply with
      | none =>
        simp [IndexingWorker.HandleMessage, hp, hf, IndexingWorker.flush, hr]
        omega
      | some err =>
        simp [IndexingWorker.HandleMessage, hp, hf, IndexingWorker.flush, hr]
          at herr
    · simp [IndexingWorker.HandleMessage, hp, hf]
      omega
  · intro reply w d e hp
    simp [IndexingWorker.HandleMessage, hp]
  · intro events
    obtain ⟨a, b, c⟩ := IndexRun.run_invariant marshalAction marshal unmarshal
      events ⟨NewIndexingWorker, 0⟩ (Nat.zero_le _) (by decide)
    exact ⟨c, b, a⟩

/-- C23, amended, at a concrete delivery: with 998 payloads buffered, a
well-formed delivery is answered nil and leaves 999 payloads, fewer than 1000. -/
theorem C23_acked_buffer_bound_witness :
    (IndexingWorker.HandleMessage (fun _ => .ok "a") (fun _ => .ok "d")
      sampleUnmarshal (.response 200 "") []
      ⟨List.replicate 998 (samplePayload 1), 1000⟩ ⟨"b"⟩).worker.batch.length
      < 1000 :=
  (C23_acked_buffer_bound (fun _ => .ok "a") (fun _ => .ok "d")
    sampleUnmarshal).1 (.response 200 "")
    ⟨List.replicate 998 (samplePayload 1), 1000⟩ ⟨"b"⟩ (samplePayload 1)
    (by decide) rfl
    (by
      have hlen : (List.replicate 998 (samplePayload 1)).length = 998 :=
        List.length_replicate _ _
      have hb : ParseMessageBody sampleUnmarshal ⟨"b"⟩ = .ok (samplePayload 1) :=
        rfl
      unfold IndexingWorker.HandleMessage
      rw [hb]
      simp only [List.length_append, hlen, List.length_singleton]
      rfl)

end GoWorker

theorem parseDigits_non_digit (l : List Char) :
    ∀ acc : Nat, (∃ ch ∈ l, digitValue ch = none) → parseDigits l acc = none := by
  induction l with
  | nil => intro acc h; simp at h
  | cons c cs ih =>
    intro acc h
    cases hc : digitValue c with
    | none => simp [parseDigits, hc]
    | some d =>
      simp only [parseDigits, hc]
      apply ih
      obtain ⟨ch, hmem, hch⟩ := h
      rcases List.mem_cons.mp hmem with rfl | hmem
      · rw [hc] at hch; cases hch
      · exact ⟨ch, hmem, hch⟩

theorem ParseUint_non_number (l : List Char)
    (h : l = [] ∨ ∃ ch ∈ l, digitValue ch = none) :
    ParseUint l = .error "invalid syntax" := by
  cases l with
  | nil => rfl
  | cons c cs =>
    rcases h with h | h
    · cases h
    · simp [ParseUint, parseDigits_non_digit (c :: cs) 0 h]

namespace GoWorker

/-- C24: key round trip.  For every entity id (a 64-bit `uint`), the id
extraction of the reconciler applied to the key the chat consumer writes,
`delta:app:<id>:chats`, and to the key the message consumer writes,
`delta:chat:<id>:messages`, returns that id; on any key with four segments
between colons it returns what `ParseUint` reads from the third one.  A key
whose number of segments is not four yields an error, and so does a key with
four segments whose third one is empty or holds a character that is not a
decimal digit. -/
theorem C24_key_round_trip :
    (∀ id : Nat, id < 2 ^ 64 →
      extractID (deltaChatsKey id) = .ok id ∧
      extractID (deltaMessagesKey id) = .ok id) ∧
    (∀ (key : String) (a b c d : List Char),
      splitChars ':' key.data = [a, b, c, d] → extractID key = ParseUint c) ∧
    (∀ key : String, (splitChars ':' key.data).length ≠ 4 →
      extractID key = .error ("invalid key format: " ++ key)) ∧
    (∀ (key : String) (a b c d : List Char),
      splitChars ':' key.data = [a, b, c, d] →
      (c = [] ∨ ∃ ch ∈ c, digitValue ch = none) →
      extractID key = .error "invalid syntax") := by
  refine ⟨?_, ?_, ?_, ?_⟩
  · intro id h
    exact ⟨extractID_deltaChatsKey id h, extractID_deltaMessagesKey id h⟩
  · intro key a b c d hs
    simp [extractID, hs]
  · intro key hlen
    unfold extractID
    split
    · next h => simp [h] at hlen
    · rfl
  · intro key a b c d hs hc
    simp [extractID, hs, ParseUint_non_number c hc]

/-- C24 at concrete keys: id 42 is read back from both keys, `delta:app:42`
has three segments and `delta:app:4x:chats` has a third segment that is not a
number. -/
theorem C24_key_round_trip_witness :
    (extractID (deltaChatsKey 42) = .ok 42 ∧
      extractID (deltaMessagesKey 42) = .ok 42) ∧
    extractID "delta:app:42" = .error "invalid key format: delta:app:42" ∧
    extractID "delta:app:4x:chats" = .error "invalid syntax" :=
  ⟨C24_key_round_trip.1 42 (by norm_num),
   C24_key_round_trip.2.2.1 "delta:app:42" (by decide),
   C24_key_round_trip.2.2.2 "delta:app:4x:chats" "delta".data "app".data
     "4x".data "chats".data (by decide) (Or.inr ⟨'x', by decide, by decide⟩)⟩

end GoWorker

/-! ## Printing integers -/

theorem toDigits_injective (m n : Nat) (h : Nat.toDigits 10 m = Nat.toDigits 10 n) :
    m = n := by
  have h1 := parseDigits_toDigits m
  rw [h, parseDigits_toDigits n] at h1
  exact (Option.some.inj h1).symm

theorem toDigits_no_minus (n : Nat) : '-' ∉ Nat.toDigits 10 n := by
  intro h
  rcases toDigitsCore_chars (n + 1) n [] '-' h with h | h
  · simp at h
  · exact absurd h (by decide)

theorem toString_int_data (i : Int) :
    (toString i).data =
      match i with
      | Int.ofNat m => Nat.toDigits 10 m
      | Int.negSucc m => '-' :: Nat.toDigits 10 (m + 1) := by
  cases i <;> rfl

theorem toString_int_no_colon (i : Int) : ':' ∉ (toString i).data := by
  rw [toString_int_data]
  cases i with
  | ofNat m => exact toDigits_no_colon m
  | negSucc m =>
    intro h
    rcases List.mem_cons.mp h with h | h
    · exact absurd h (by decide)
    · exact toDigits_no_colon _ h

theorem toString_int_injective (i j : Int)
    (h : (toString i).data = (toString j).data) : i = j := by
  rw [toString_int_data, toString_int_data] at h
  cases i with
  | ofNat m =>
    cases j with
    | ofNat n => rw [toDigits_injective m n h]
    | negSucc n =>
      exfalso
      apply toDigits_no_minus m
      simp only at h
      rw [h]
      exact List.mem_cons_self _ _
  | negSucc m =>
    cases j with
    | ofNat n =>
      exfalso
      apply toDigits_no_minus n
      simp only at h
      rw [← h]
      exact List.mem_cons_self _ _
    | negSucc n =>
      simp only at h
      have := toDigits_injective _ _ (List.cons.inj h).2
      have hmn : m = n := by omega
      rw [hmn]

/-- Two lists that end in the same separator followed by a separator-free
suffix agree before and after that separator. -/
theorem split_last_sep (sep : Char) (s1 s2 : List Char) (h1 : sep ∉ s1)
    (h2 : sep ∉ s2) :
    ∀ l1 l2 : List Char, l1 ++ sep :: s1 = l2 ++ sep :: s2 → l1 = l2 ∧ s1 = s2 := by
  intro l1
  induction l1 with
  | nil =>
    intro l2 h
    cases l2 with
    | nil => exact ⟨rfl, (List.cons.inj h).2⟩
    | cons c cs =>
      exfalso
      simp only [List.nil_append, List.cons_append] at h
      have hs := (List.cons.inj h).2
      apply h1
      rw [hs]
      simp
  | cons a as ih =>
    intro l2 h
    cases l2 with
    | nil =>
      exfalso
      simp only [List.nil_append, List.cons_append] at h
      have hs := (List.cons.inj h).2
      apply h2
      rw [← hs]
      simp
    | cons c cs =>
      simp only [List.cons_append] at h
      obtain ⟨hac, hrest⟩ := List.cons.inj h
      obtain ⟨hl, hs⟩ := ih cs hrest
      exact ⟨by rw [hac, hl], hs⟩

namespace GoWorker

/-- C25: the document id built by `flush` is injective.  When two payloads get
the same id "<token>:<chat_number>:<message_number>", they have the same token
(tokens may contain colons), the same chat number and the same message number;
so two payloads that differ in one of the three never share an id. -/
theorem C25_document_id_injective (m1 m2 : IndexPayload)
    (h : flush.docID m1 = flush.docID m2) :
    m1.ApplicationToken = m2.ApplicationToken ∧ m1.ChatNumber = m2.ChatNumber ∧
      m1.MessageNumber = m2.MessageNumber := by
  have hd : ∀ m : IndexPayload, (flush.docID m).data =
      (m.ApplicationToken.data ++ ':' :: (toString m.ChatNumber).data) ++
        ':' :: (toString m.MessageNumber).data := by
    intro m
    simp [flush.docID, String.data_append]
  have h' := congrArg String.data h
  rw [hd m1, hd m2] at h'
  obtain ⟨hl, hm⟩ := split_last_sep ':' _ _ (toString_int_no_colon _)
    (toString_int_no_colon _) _ _ h'
  obtain ⟨ht, hc⟩ := split_last_sep ':' _ _ (toString_int_no_colon _)
    (toString_int_no_colon _) _ _ hl
  exact ⟨String.ext ht, toString_int_injective _ _ hc,
    toString_int_injective _ _ hm⟩

/-- C25 at two concrete payloads with the token `a:b`, which share the id
`a:b:-1:2` and differ in every other field. -/
theorem C25_document_id_injective_witness :
    flush.docID ⟨1, 7, "a:b", "App", 3, -1, 2, "hi", 100⟩ = "a:b:-1:2" ∧
    ((⟨1, 7, "a:b", "App", 3, -1, 2, "hi", 100⟩ : IndexPayload).ApplicationToken
        = (⟨2, 8, "a:b", "Other", 4, -1, 2, "yo", 5⟩ : IndexPayload).ApplicationToken
      ∧ (⟨1, 7, "a:b", "App", 3, -1, 2, "hi", 100⟩ : IndexPayload).ChatNumber
        = (⟨2, 8, "a:b", "Other", 4, -1, 2, "yo", 5⟩ : IndexPayload).ChatNumber
      ∧ (⟨1, 7, "a:b", "App", 3, -1, 2, "hi", 100⟩ : IndexPayload).MessageNumber
        = (⟨2, 8, "a:b", "Other", 4, -1, 2, "yo", 5⟩ : IndexPayload).MessageNumber) :=
  ⟨by decide,
   C25_document_id_injective ⟨1, 7, "a:b", "App", 3, -1, 2, "hi", 100⟩
     ⟨2, 8, "a:b", "Other", 4, -1, 2, "yo", 5⟩ (by decide)⟩

end GoWorker

namespace GoWorker

/-- C27: `processKey` on a key of the scan whose id extraction fails.  With
`delta:app:abc:chats` holding 5 and with `delta:app:7:1:chats` holding 5, both
returned by the scan for `delta:app:*:chats`, `processKey` makes the single call
`atomicGetDel`, returns the error of the id extraction, leaves the relational
store as it was (the chat counter of application 7 is still 0) and leaves the
key deleted: the drained delta 5 is neither added to a counter nor written
back. -/
theorem C27_extraction_failure_drops_delta :
    Redis.Scan [("delta:app:abc:chats", 5), ("delta:app:7:1:chats", 5)]
        "delta:app:*:chats" = ["delta:app:abc:chats", "delta:app:7:1:chats"] ∧
    processKey ReconEnv.ok
        ⟨sampleDb, [("delta:app:abc:chats", 5), ("delta:app:7:1:chats", 5)], []⟩
        "delta:app:abc:chats" appChatConfig =
      ⟨⟨sampleDb, [("delta:app:7:1:chats", 5)], []⟩,
        [.getDel "delta:app:abc:chats"], some "invalid syntax"⟩ ∧
    processKey ReconEnv.ok ⟨sampleDb, [("delta:app:7:1:chats", 5)], []⟩
        "delta:app:7:1:chats" appChatConfig =
      ⟨⟨sampleDb, [], []⟩, [.getDel "delta:app:7:1:chats"],
        some "invalid key format: delta:app:7:1:chats"⟩ ∧
    sampleDb.chatsCountOf 7 = some 0 ∧
    (reconcileEntity ReconEnv.ok
        ⟨sampleDb, [("delta:app:abc:chats", 5), ("delta:app:7:1:chats", 5)], []⟩
        appChatConfig).world = ⟨sampleDb, [], []⟩ := by
  refine ⟨by decide, by decide, by decide, by decide, by decide⟩

end GoWorker

namespace GoWorker

/-- C28: a delivery that parses to payload p and makes the buffer reach the
batch size, in a sequential run, with a bulk request that fails with e.
`HandleMessage` returns e, so the consumer loop answers `Nack(false, true)`
(requeue), and the buffer afterwards is the old buffer followed by p.  Handling
the redelivered event appends p again: the bulk request of that second run
carries the old buffer followed by p twice, and when it fails as well the buffer
holds p at least twice and is longer than the batch size. -/
theorem C28_failed_flush_redelivery
    (marshalAction : List (String × Payload) → Except String String)
    (marshal : Payload → Except String String)
    (unmarshal : String → Except String IndexPayload)
    (reply again : HttpResult) (w : IndexingWorker) (d : Delivery)
    (p : IndexPayload) (e : String)
    (hp : ParseMessageBody unmarshal d = .ok p)
    (hf : w.batchSize ≤ w.batch.length + 1)
    (hr : Client.BulkIndex reply = some e) :
    (IndexingWorker.HandleMessage marshalAction marshal unmarshal reply [] w
      d).err = some e ∧
    ConsumeQueue.settle (IndexingWorker.HandleMessage marshalAction marshal
      unmarshal reply [] w d).err = .nack false true ∧
    (IndexingWorker.HandleMessage marshalAction marshal unmarshal reply [] w
      d).worker = ⟨w.batch ++ [p], w.batchSize⟩ ∧
    (IndexingWorker.HandleMessage marshalAction marshal unmarshal again []
      (IndexingWorker.HandleMessage marshalAction marshal unmarshal reply [] w
        d).worker d).bulkCalls =
      [("messages", flush.bulkBody marshalAction marshal (w.batch ++ [p] ++ [p]))] ∧
    (∀ e2, Client.BulkIndex again = some e2 →
      (IndexingWorker.HandleMessage marshalAction marshal unmarshal again []
        (IndexingWorker.HandleMessage marshalAction marshal unmarshal reply [] w
          d).worker d).err = some e2 ∧
      (IndexingWorker.HandleMessage marshalAction marshal unmarshal again []
        (IndexingWorker.HandleMessage marshalAction marshal unmarshal reply [] w
          d).worker d).worker.batch = w.batch ++ [p] ++ [p] ∧
      2 ≤ (IndexingWorker.HandleMessage marshalAction marshal unmarshal again []
        (IndexingWorker.HandleMessage marshalAction marshal unmarshal reply [] w
          d).worker d).worker.batch.count p ∧
      w.batchSize < (IndexingWorker.HandleMessage marshalAction marshal unmarshal
        again [] (IndexingWorker.HandleMessage marshalAction marshal unmarshal
          reply [] w d).worker d).worker.batch.length) := by
  have hp2 : unmarshal d.Body = .ok p := hp
  have h1 := HandleMessage_flush_failed marshalAction marshal unmarshal reply w d
    p e hp2 hf hr
  rw [h1]
  have hf2 : w.batchSize ≤ (w.batch ++ [p]).length + 1 := by
    simp only [List.length_append, List.length_singleton]
    omega
  refine ⟨rfl, rfl, rfl, ?_, ?_⟩
  · cases hr2 : Client.BulkIndex again with
    | some e2 =>
      rw [HandleMessage_flush_failed marshalAction marshal unmarshal again
        ⟨w.batch ++ [p], w.batchSize⟩ d p e2 hp2 hf2 hr2]
    | none =>
      have hf3 : w.batchSize ≤ w.batch.length + 2 := by omega
      simp [IndexingWorker.HandleMessage, hp, hf3, IndexingWorker.flush, hr2]
  · intro e2 hr2
    rw [HandleMessage_flush_failed marshalAction marshal unmarshal again
      ⟨w.batch ++ [p], w.batchSize⟩ d p e2 hp2 hf2 hr2]
    refine ⟨rfl, rfl, ?_, ?_⟩
    · simp only [List.count_append, List.count_singleton_self]
      omega
    · simp only [List.length_append, List.length_singleton]
      omega

/-- C28 at a concrete worker with batch size 2 and one buffered payload: the
failed flush leaves two payloads, the redelivery makes three. -/
theorem C28_failed_flush_redelivery_witness :
    (IndexingWorker.HandleMessage (fun _ => .ok "a") (fun _ => .ok "d")
      sampleUnmarshal (.response 500 "") [] ⟨[samplePayload 2], 2⟩ ⟨"b"⟩).worker
      = ⟨[samplePayload 2] ++ [samplePayload 1], 2⟩ ∧
    (IndexingWorker.HandleMessage (fun _ => .ok "a") (fun _ => .ok "d")
      sampleUnmarshal (.doError "timeout") []
      (IndexingWorker.HandleMessage (fun _ => .ok "a") (fun _ => .ok "d")
        sampleUnmarshal (.response 500 "") [] ⟨[samplePayload 2], 2⟩
        ⟨"b"⟩).worker ⟨"b"⟩).worker.batch =
      [samplePayload 2] ++ [samplePayload 1] ++ [samplePayload 1] :=
  ⟨(C28_failed_flush_redelivery (fun _ => .ok "a") (fun _ => .ok "d")
      sampleUnmarshal (.response 500 "") (.doError "timeout")
      ⟨[samplePayload 2], 2⟩ ⟨"b"⟩ (samplePayload 1) _ rfl (by decide) rfl).2.2.1,
   ((C28_failed_flush_redelivery (fun _ => .ok "a") (fun _ => .ok "d")
      sampleUnmarshal (.response 500 "") (.doError "timeout")
      ⟨[samplePayload 2], 2⟩ ⟨"b"⟩ (samplePayload 1) _ rfl (by decide) rfl).2.2.2.2
      _ rfl).2.1⟩

end GoWorker

namespace GoWorker

/-- C29: `Client.BulkIndex` returns an error exactly when the request cannot be
built, cannot be sent, or is answered with a status of at least 400.  For every
response with a status below 400 it returns nil, whatever the body: with the
log lines added, the returned value is the same for every result of parsing the
body, also a parse error and `errors` = true, which are only logged.  `flush`
on a non-empty buffer then returns nil after one bulk request, resets the timer
and leaves only the payloads that arrived in the meantime in the buffer: no
drained payload is put back. -/
theorem C29_bulk_index_status_only
    (parseErrors : String → Except String (Option Bool)) :
    (∀ reply : HttpResult, Client.BulkIndex reply ≠ none ↔
      ((∃ e, reply = .newRequestError e) ∨ (∃ e, reply = .doError e) ∨
        ∃ status body, reply = .response status body ∧ 400 ≤ status)) ∧
    (∀ (status : Nat) (body : String), status < 400 →
      Client.BulkIndex (.response status body) = none) ∧
    (∀ reply : HttpResult,
      (Client.BulkIndexLogged parseErrors reply).1 = Client.BulkIndex reply) ∧
    (∀ (status : Nat) (body : String), status < 400 →
      parseErrors body = .ok (some true) →
      Client.BulkIndexLogged parseErrors (.response status body) =
        (none, ["[ES] Bulk index had some errors: " ++ body])) ∧
    (∀ (status : Nat) (body e : String), status < 400 →
      parseErrors body = .error e →
      Client.BulkIndexLogged parseErrors (.response status body) =
        (none, ["[ES] Failed to parse response: " ++ e])) ∧
    (∀ (marshalAction : List (String × Payload) → Except String String)
        (marshal : Payload → Except String String)
        (arrivals : List IndexPayload) (w : IndexingWorker) (status : Nat)
        (body : String), status < 400 → w.batch ≠ [] →
      IndexingWorker.flush marshalAction marshal (.response status body) arrivals
          w =
        ⟨⟨arrivals, w.batchSize⟩,
          [("messages", flush.bulkBody marshalAction marshal w.batch)], 1,
          none⟩) := by
  refine ⟨?_, ?_, ?_, ?_, ?_, ?_⟩
  · intro reply
    cases reply with
    | newRequestError e => simp [Client.BulkIndex]
    | doError e => simp [Client.BulkIndex]
    | response status body =>
      by_cases h : 400 ≤ status
      · simp [Client.BulkIndex, h]
      · simp [Client.BulkIndex, h]
  · intro status body h
    have h2 : ¬ 400 ≤ status := by omega
    simp [Client.BulkIndex, h2]
  · intro reply
    cases reply with
    | newRequestError e => rfl
    | doError e => rfl
    | response status body =>
      by_cases h : 400 ≤ status
      · simp [Client.BulkIndex, Client.BulkIndexLogged, h]
      · simp only [Client.BulkIndex, Client.BulkIndexLogged, ge_iff_le, h, if_false]
        split <;> rfl
  · intro status body h hpe
    have h2 : ¬ 400 ≤ status := by omega
    simp [Client.BulkIndexLogged, h2, hpe]
  · intro status body e h hpe
    have h2 : ¬ 400 ≤ status := by omega
    simp [Client.BulkIndexLogged, h2, hpe]
  · intro marshalAction marshal arrivals w status body h hne
    have h2 : ¬ 400 ≤ status := by omega
    have h3 : w.batch.length ≠ 0 := by
      intro h0
      exact hne (List.length_eq_zero.mp h0)
    simp [IndexingWorker.flush, Client.BulkIndex, h2, h3]

/-- C29 at a concrete reply: status 200 with a body that reports errors; the
bulk request counts as a success and `flush` empties a buffer of two
payloads. -/
theorem C29_bulk_index_status_only_witness :
    Client.BulkIndexLogged (fun _ => .ok (some true))
        (.response 200 "errors: true") =
      (none, ["[ES] Bulk index had some errors: " ++ "errors: true"]) ∧
    IndexingWorker.flush (fun _ => .ok "a") (fun _ => .ok "d")
        (.response 200 "errors: true") []
        ⟨[samplePayload 1, samplePayload 2], 1000⟩ =
      ⟨⟨[], 1000⟩,
        [("messages", flush.bulkBody (fun _ => .ok "a") (fun _ => .ok "d")
          [samplePayload 1, samplePayload 2])], 1, none⟩ :=
  ⟨(C29_bulk_index_status_only (fun _ => .ok (some true))).2.2.2.1 200
      "errors: true" (by decide) rfl,
   (C29_bulk_index_status_only (fun _ => .ok (some true))).2.2.2.2.2
      (fun _ => .ok "a") (fun _ => .ok "d") [] ⟨[samplePayload 1, samplePayload 2],
        1000⟩ 200 "errors: true" (by decide) (by decide)⟩

end GoWorker
